import Mathlib

/-! # cc65 statement compiler (`src/cc65/stmt.c`)

A shallow embedding of the statement parser / code emitter of cc65 and a
verification of its natural-language specification.

* C `int` flags (`GotBreak`, `HaveBreak`, `PendingToken` ...) are `Nat`s, `0` is false.
* `unsigned` labels are `Nat`s, `0` is the "no label" sentinel used by the source.
* `int* PendingToken` is a `Slot`: `none` is the NULL pointer, `some v` a pointer to an
  `int` currently holding `v`.
* The global state touched by the statement compiler (token stream, `oursp`, the label
  counter, the emitted code, the diagnostics, the loop stack) is the record `State`.
* Functions of other modules of the compiler that take part in the parse (the expression
  parser, the declaration parser, ...) are the fields of `Ext`; every theorem holds for
  all of them unless it names an assumption.
* Recursion through nested statements and the `while` loops of the parser are bounded by
  a fuel argument; `Outcome.fuel` is the result of a run that needs more.
-/

namespace CC65

/-! ## Tokens, types, instructions -/

/-- Token kinds the statement compiler distinguishes (`scanner.h`). -/
inductive token_t where
  | TOK_CEOF | TOK_IDENT | TOK_ICONST | TOK_COLON | TOK_SEMI | TOK_COMMA
  | TOK_LCURLY | TOK_RCURLY | TOK_LPAREN | TOK_RPAREN
  | TOK_IF | TOK_ELSE | TOK_WHILE | TOK_DO | TOK_FOR | TOK_SWITCH | TOK_CASE
  | TOK_DEFAULT | TOK_RETURN | TOK_BREAK | TOK_CONTINUE | TOK_GOTO | TOK_PRAGMA
  | TOK_OTHER
  deriving DecidableEq, Repr

open token_t

/-- One token: its kind and its attribute (`CurTok.Tok`, `CurTok.IVal`). -/
structure Token where
  Tok : token_t
  IVal : Int := 0
  deriving DecidableEq, Repr

/-- Leading element of a type string (`*Expr->Type`), as far as `stmt.c` looks at it. -/
inductive type_t where
  | T_SCHAR | T_UCHAR | T_SHORT | T_USHORT | T_INT | T_UINT | T_LONG | T_ULONG
  | T_FLOAT | T_PTR | T_VOID
  deriving DecidableEq, Repr

open type_t

/-- Expression descriptor: the fields of `ExprDesc` that `stmt.c` reads. -/
structure ExprDesc where
  Type_ : type_t
  ConstVal : Int
  deriving DecidableEq, Repr

/-- Calls of code generator primitives, in emission order. `expr` stands for code
emitted by the expression evaluator. -/
inductive Instr where
  | defcodelabel (label : Nat)
  | jump (label : Nat)
  | truejump (flags : Nat) (label : Nat)
  | falsejump (flags : Nat) (label : Nat)
  | space (n : Int)
  | cmp (flags : Nat) (val : Int)
  | switch (flags : Nat)
  | defdata (flags : Nat) (val : Int) (offs : Int)
  | case (flags : Nat) (label : Nat) (val : Int)
  | expr (tag : Int)
  deriving DecidableEq, Repr

/-- Loop descriptor (`LoopDesc` of `loop.h`): `Loop` is the continue label, `Label` the
exit label, `linc` the increment label, `lstat` the body label. The `Next` link of the
source is the tail of the list that holds the descriptor. -/
structure LoopDesc where
  StackPtr : Int
  Loop : Nat
  Label : Nat
  linc : Nat
  lstat : Nat
  deriving DecidableEq, Repr

/-- The function being compiled (`CurrentFunc`). -/
structure FuncDesc where
  HasVoidReturn : Bool
  ReturnType : type_t
  FuncName : String
  TopLevelSP : Int
  RetLab : Nat
  deriving DecidableEq, Repr

/-- Global compiler state seen by `stmt.c`. -/
structure State where
  toks : List Token
  oursp : Int
  nextLabel : Nat
  code : List Instr
  errors : List String
  warnings : List String
  loops : List LoopDesc
  CodeSizeFactor : Nat
  CurrentFunc : FuncDesc
  deriving DecidableEq, Repr

/-- Result of running a piece of the compiler: it returns, or it stops in `Internal`
(the compiler aborts), or the fuel of the model is used up. -/
inductive Outcome (α : Type) where
  | ok (a : α)
  | internal (msg : String)
  | fuel
  deriving DecidableEq, Repr

/-- Sequencing of two runs. -/
def Outcome.bind {α β : Type} (o : Outcome α) (f : α → Outcome β) : Outcome β :=
  match o with
  | .ok a => f a
  | .internal m => .internal m
  | .fuel => .fuel

/-- The `int* PendingToken` argument. -/
abbrev Slot := Option Nat

/-! ## Collaborators -/

/-- Functions of other modules called by `stmt.c` that parse or declare on their own. -/
structure Ext where
  expression : State → ExprDesc × State
  boolexpr : State → ExprDesc × State
  intexpr : State → ExprDesc × State
  constexpr : State → ExprDesc × State
  test : Nat → Nat → State → State
  assignadjust : type_t → ExprDesc → State → State
  DeclareLocals : State → State
  EnterBlockLevel : State → State
  LeaveBlockLevel : State → State
  EmitExternals : State → State
  DoLabel : State → State
  GotoStatement : State → State
  DoPragma : State → State
  TypeOf : type_t → Nat
  CF_NONE : Nat
  CF_CONST : Nat
  CF_FORCECHAR : Nat
  CF_INT : Nat

/-- Modelled from the spec: the token stream's `currentToken` (scanner.c is not part of
the sources at hand); past the end of the input it is the end-of-file token. -/
def State.CurTok (s : State) : Token := s.toks.headD ⟨TOK_CEOF, 0⟩

/-- Modelled from the spec: the token stream's `lookaheadToken` (one-token lookahead). -/
def State.NextTok (s : State) : Token := s.toks.tail.headD ⟨TOK_CEOF, 0⟩

/-- Modelled from the spec: the token stream's `advance()`. -/
def NextToken (s : State) : State := { s with toks := s.toks.tail }

/-- Modelled from the spec: the diagnostic collaborator; an error is reported and the
pass goes on. -/
def Error (msg : String) (s : State) : State := { s with errors := s.errors ++ [msg] }

/-- Modelled from the spec: a non-fatal warning of the diagnostic collaborator. -/
def Warning (msg : String) (s : State) : State := { s with warnings := s.warnings ++ [msg] }

/-- Modelled from the spec: `Consume` of the scanner: a syntax error (expected token
absent) is reported and parsing goes on as if the token were present; a present token
is skipped. -/
def Consume (Tok : token_t) (Msg : String) (s : State) : State :=
  if s.CurTok.Tok = Tok then NextToken s else Error Msg s

def ConsumeColon (s : State) : State := Consume TOK_COLON "`:' expected" s
def ConsumeSemi (s : State) : State := Consume TOK_SEMI "`;' expected" s
def ConsumeLParen (s : State) : State := Consume TOK_LPAREN "`(' expected" s
def ConsumeRParen (s : State) : State := Consume TOK_RPAREN "`)' expected" s
def ConsumeLCurly (s : State) : State := Consume TOK_LCURLY "`\x7b' expected" s

/-- Modelled from the spec: the Label Allocator (asmlabel.c): a fresh label, never
reused and never the sentinel `0`. -/
def GetLocalLabel (s : State) : Nat × State :=
  (s.nextLabel + 1, { s with nextLabel := s.nextLabel + 1 })

/-- Modelled from the spec: a code generator primitive appends to the emitted
instruction stream. -/
def emit (i : Instr) (s : State) : State := { s with code := s.code ++ [i] }

def g_defcodelabel (label : Nat) (s : State) : State := emit (.defcodelabel label) s
def g_jump (label : Nat) (s : State) : State := emit (.jump label) s
def g_truejump (flags label : Nat) (s : State) : State := emit (.truejump flags label) s
def g_falsejump (flags label : Nat) (s : State) : State := emit (.falsejump flags label) s
def g_space (n : Int) (s : State) : State := emit (.space n) s
def g_cmp (flags : Nat) (val : Int) (s : State) : State := emit (.cmp flags val) s
def g_switch (flags : Nat) (s : State) : State := emit (.switch flags) s
def g_defdata (flags : Nat) (val offs : Int) (s : State) : State :=
  emit (.defdata flags val offs) s
def g_case (flags label : Nat) (val : Int) (s : State) : State :=
  emit (.case flags label val) s

/-- Modelled from the spec: `push(context)` of the Loop Context Stack (loop.c). -/
def AddLoop (sp : Int) (loop label linc lstat : Nat) (s : State) : State :=
  { s with loops := ⟨sp, loop, label, linc, lstat⟩ :: s.loops }

/-- Modelled from the spec: `pop()` of the Loop Context Stack (LIFO, no search). -/
def DelLoop (s : State) : State := { s with loops := s.loops.tail }

/-- Modelled from the spec: `current()` of the Loop Context Stack: the nearest
enclosing context or none. -/
def CurrentLoop (s : State) : Option LoopDesc := s.loops.head?

/-- Modelled from the spec: `markCurrentPosition()` (asmcode.c). -/
def GetCodePos (s : State) : Nat := s.code.length

/-- Modelled from the spec: `relocateRange(start, end, destination)`: the instructions
in `[Start, End)` are moved to immediately precede position `Target` (`End ≤ Target`),
in their order. -/
def MoveCode (Start End Target : Nat) (s : State) : State :=
  { s with code := s.code.take Start ++ (s.code.take Target).drop End
                    ++ (s.code.take End).drop Start ++ s.code.drop Target }

/-- Modelled from the spec: "single-byte integer type" (`IsTypeChar` of datatype.c). -/
def IsTypeChar (t : type_t) : Bool :=
  match t with
  | T_SCHAR | T_UCHAR => true
  | _ => false

/-- Modelled from the spec: "any integer type" (`IsClassInt` of datatype.c). -/
def IsClassInt (t : type_t) : Bool :=
  match t with
  | T_SCHAR | T_UCHAR | T_SHORT | T_USHORT | T_INT | T_UINT | T_LONG | T_ULONG => true
  | _ => false

/-! ## Helper functions of `stmt.c` -/

/-- Source `CheckTok`, lines 55-68. -/
def CheckTok (Tok : token_t) (Msg : String) (PendingToken : Slot) (s : State) :
    Slot × State :=
  if s.CurTok.Tok ≠ Tok then
    (PendingToken, Error Msg s)
  else if PendingToken.isSome then
    (some 1, s)
  else
    (PendingToken, NextToken s)

/-- Source `CheckSemi`, lines 72-78. -/
def CheckSemi (PendingToken : Slot) (s : State) : Slot × State :=
  CheckTok TOK_SEMI "`;' expected" PendingToken s

/-- Source `SkipPending`, lines 82-88. -/
def SkipPending (PendingToken : Nat) (s : State) : State :=
  if PendingToken ≠ 0 then NextToken s else s

/-! ## Statements without nested statements -/

/-- Source `ReturnStatement`, lines 221-248. -/
def ReturnStatement (X : Ext) (s : State) : State :=
  let s := NextToken s
  let s :=
    if s.CurTok.Tok ≠ TOK_SEMI then
      let s := if s.CurrentFunc.HasVoidReturn then
          Error "Returning a value in function with return type void" s else s
      let (lval, s) := X.expression s
      if ¬ s.CurrentFunc.HasVoidReturn then
        X.assignadjust s.CurrentFunc.ReturnType lval s
      else s
    else if ¬ s.CurrentFunc.HasVoidReturn then
      Error ("Function `" ++ s.CurrentFunc.FuncName ++ "' must return a value") s
    else s
  let s := g_space (s.oursp - s.CurrentFunc.TopLevelSP) s
  g_jump s.CurrentFunc.RetLab s

/-- Source `BreakStatement`, lines 252-275. -/
def BreakStatement (s : State) : State :=
  let s := NextToken s
  match CurrentLoop s with
  | none => Error "`break' statement not within loop or switch" s
  | some L =>
    let s := g_space (s.oursp - L.StackPtr) s
    g_jump L.Label s

/-- The `do ... while (L)` search of `ContinueStatement`, lines 291-296, entered with
`L` the head of the list: the first descriptor with a continue label. -/
def searchLoop : List LoopDesc → Option LoopDesc
  | [] => none
  | L :: Next => if L.Loop ≠ 0 then some L else searchLoop Next

/-- Source `ContinueStatement`, lines 279-314. -/
def ContinueStatement (s : State) : State :=
  let s := NextToken s
  match searchLoop s.loops with
  | none => Error "`continue' statement not within a loop" s
  | some L =>
    let s := g_space (s.oursp - L.StackPtr) s
    if L.linc ≠ 0 then g_jump L.linc s else g_jump L.Loop s

/-! ## Statements with nested statements

The compilers below take the statement parser for their nested statements as the
argument `Statement`; `CC65.Statement` ties the knot. -/

/-- Type of the statement parser `int Statement (int* PendingToken)`: the returned
flag, the slot after the call and the state after the call. -/
abbrev StmtFn := Slot → State → Outcome (Nat × Slot × State)

/-- Source `IfStatement`, lines 98-145. -/
def IfStatement (X : Ext) (Statement : StmtFn) (s : State) : Outcome (Nat × State) :=
  let s := NextToken s
  let (Label1, s) := GetLocalLabel s
  let s := X.test Label1 0 s
  (Statement none s).bind fun (GotBreak, _, s) =>
  if s.CurTok.Tok ≠ TOK_ELSE then
    let s := g_defcodelabel Label1 s
    .ok (0, s)
  else
    let (Label2, s) := GetLocalLabel s
    let s := g_jump Label2 s
    let s := NextToken s
    let s := g_defcodelabel Label1 s
    (Statement none s).bind fun (r, _, s) =>
    let GotBreak := GotBreak &&& r
    let s := g_defcodelabel Label2 s
    .ok (GotBreak, s)

/-- Source `DoStatement`, lines 149-178. -/
def DoStatement (X : Ext) (Statement : StmtFn) (s : State) : Outcome State :=
  let (loop, s) := GetLocalLabel s
  let (lab, s) := GetLocalLabel s
  let s := NextToken s
  let s := AddLoop s.oursp loop lab 0 0 s
  let s := g_defcodelabel loop s
  (Statement none s).bind fun (_, _, s) =>
  let s := Consume TOK_WHILE "`while' expected" s
  let s := X.test loop 1 s
  let s := ConsumeSemi s
  let s := g_defcodelabel lab s
  .ok (DelLoop s)

/-- Source `WhileStatement`, lines 182-217. The local `PendingToken` is not
initialised by the source; `Statement` stores to it before it does anything else. -/
def WhileStatement (X : Ext) (Statement : StmtFn) (s : State) : Outcome State :=
  let (loop, s) := GetLocalLabel s
  let (lab, s) := GetLocalLabel s
  let s := NextToken s
  let s := AddLoop s.oursp loop lab 0 0 s
  let s := g_defcodelabel loop s
  let s := X.test lab 0 s
  (Statement (some 0) s).bind fun (_, PendingToken, s) =>
  let s := g_jump loop s
  let s := g_defcodelabel lab s
  let s := SkipPending (PendingToken.getD 0) s
  .ok (DelLoop s)

/-- Local variables of `CascadeSwitch` that change in its loops. -/
structure CascadeVars where
  NextLab : Nat
  CodeLab : Nat
  HaveBreak : Nat
  HaveDefault : Nat
  lcount : Int
  deriving DecidableEq, Repr

/-- The range check of a case constant in `CascadeSwitch`, lines 383-413. -/
def CascadeSwitch.rangeCheck (t : type_t) (Val : Int) (s : State) : Outcome State :=
  match t with
  | T_SCHAR => .ok (if Val < -128 ∨ Val > 127 then Error "Range error" s else s)
  | T_UCHAR => .ok (if Val < 0 ∨ Val > 255 then Error "Range error" s else s)
  | T_INT => .ok (if Val < -32768 ∨ Val > 32767 then Error "Range error" s else s)
  | T_UINT => .ok (if Val < 0 ∨ Val > 65535 then Error "Range error" s else s)
  | _ => .internal "Invalid type"

/-- The idiom `if (Lab == 0) { Lab = GetLocalLabel (); }` of `CascadeSwitch`
(lines 353-355, 425-427, 431-433, 447-449): the label, allocated if there is none. -/
def CascadeSwitch.needLabel (Lab : Nat) (s : State) : Nat × State :=
  if Lab = 0 then GetLocalLabel s else (Lab, s)

/-- The branch emitted after the compare of a case label, lines 423-435. -/
def CascadeSwitch.caseJump (X : Ext) (v : CascadeVars) (s : State) : CascadeVars × State :=
  if s.NextTok.Tok = TOK_CASE then
    let (l, s) := CascadeSwitch.needLabel v.CodeLab s
    ({ v with CodeLab := l }, g_falsejump X.CF_NONE l s)
  else if s.NextTok.Tok ≠ TOK_DEFAULT then
    let (l, s) := CascadeSwitch.needLabel v.NextLab s
    ({ v with NextLab := l }, g_truejump X.CF_NONE l s)
  else (v, s)

/-- One `case` label of `CascadeSwitch`, lines 368-438. -/
def CascadeSwitch.caseLabel (X : Ext) (Expr : ExprDesc) (Flags : Nat) (v : CascadeVars)
    (s : State) : Outcome (CascadeVars × State) :=
  let v := { v with lcount := v.lcount + 1 }
  let s := NextToken s
  let (lval, s) := X.constexpr s
  let s := if ¬ IsClassInt lval.Type_ then Error "Switch quantity not an integer" s else s
  let Val := lval.ConstVal
  (CascadeSwitch.rangeCheck Expr.Type_ Val s).bind fun s =>
  let s := g_cmp Flags Val s
  let (v, s) := CascadeSwitch.caseJump X v s
  let s := ConsumeColon s
  .ok (v, s)

/-- One `default` label of `CascadeSwitch`, lines 440-458. -/
def CascadeSwitch.defaultLabel (v : CascadeVars) (s : State) : CascadeVars × State :=
  let s := NextToken s
  let (v, s) :=
    if s.CurTok.Tok = TOK_CASE then
      let (l, s) := CascadeSwitch.needLabel v.CodeLab s
      ({ v with CodeLab := l }, g_jump l s)
    else (v, s)
  let s := ConsumeColon s
  ({ v with HaveDefault := 1 }, s)

/-- The inner loop of `CascadeSwitch` over one group of labels, lines 365-460. -/
def CascadeSwitch.labels (X : Ext) (Expr : ExprDesc) (Flags : Nat) :
    Nat → CascadeVars → State → Outcome (CascadeVars × State)
  | 0, _, _ => .fuel
  | fuel + 1, v, s =>
    if s.CurTok.Tok = TOK_CASE ∨ s.CurTok.Tok = TOK_DEFAULT then
      if s.CurTok.Tok = TOK_CASE then
        (CascadeSwitch.caseLabel X Expr Flags v s).bind fun (v, s) =>
        CascadeSwitch.labels X Expr Flags fuel v s
      else
        let (v, s) := CascadeSwitch.defaultLabel v s
        CascadeSwitch.labels X Expr Flags fuel v s
    else .ok (v, s)

/-- Start of a group of labels in `CascadeSwitch`, lines 348-363: the jump over the
next selector test if the code before did not end with a break, and the pending
cascade label. -/
def CascadeSwitch.groupStart (v : CascadeVars) (s : State) : CascadeVars × State :=
  let (v, s) :=
    if v.HaveBreak = 0 then
      let (l, s) := CascadeSwitch.needLabel v.CodeLab s
      ({ v with CodeLab := l }, g_jump l s)
    else (v, s)
  if v.NextLab ≠ 0 then ({ v with NextLab := 0 }, g_defcodelabel v.NextLab s)
  else (v, s)

/-- The code label emitted before the statements in `CascadeSwitch`, lines 464-468. -/
def CascadeSwitch.codeLabel (v : CascadeVars) (s : State) : CascadeVars × State :=
  if v.CodeLab ≠ 0 then ({ v with CodeLab := 0 }, g_defcodelabel v.CodeLab s)
  else (v, s)

/-- The outer loop of `CascadeSwitch`, lines 344-474. -/
def CascadeSwitch.body (X : Ext) (Statement : StmtFn) (Expr : ExprDesc) (Flags : Nat) :
    Nat → CascadeVars → State → Outcome (CascadeVars × State)
  | 0, _, _ => .fuel
  | fuel + 1, v, s =>
    if s.CurTok.Tok ≠ TOK_RCURLY then
      let r : Outcome (CascadeVars × State) :=
        if s.CurTok.Tok = TOK_CASE ∨ s.CurTok.Tok = TOK_DEFAULT then
          let (v, s) := CascadeSwitch.groupStart v s
          CascadeSwitch.labels X Expr Flags fuel v s
        else .ok (v, s)
      r.bind fun (v, s) =>
      let (v, s) := CascadeSwitch.codeLabel v s
      if s.CurTok.Tok ≠ TOK_RCURLY then
        (Statement none s).bind fun (r, _, s) =>
        CascadeSwitch.body X Statement Expr Flags fuel { v with HaveBreak := r } s
      else CascadeSwitch.body X Statement Expr Flags fuel v s
    else .ok (v, s)

/-- Source `CascadeSwitch`, lines 318-494. -/
def CascadeSwitch (X : Ext) (Statement : StmtFn) (fuel : Nat) (Expr : ExprDesc)
    (s : State) : Outcome State :=
  let (ExitLab, s) := GetLocalLabel s
  let s := AddLoop s.oursp 0 ExitLab 0 0 s
  let Flags := X.TypeOf Expr.Type_ ||| X.CF_CONST ||| X.CF_FORCECHAR
  let v : CascadeVars :=
    { NextLab := 0, CodeLab := 0, HaveBreak := 1, HaveDefault := 0, lcount := 0 }
  (CascadeSwitch.body X Statement Expr Flags fuel v s).bind fun (v, s) =>
  let s := if v.lcount = 0 ∧ v.HaveDefault = 0 then Warning "No case labels" s else s
  let s := if v.NextLab ≠ 0 then g_defcodelabel v.NextLab s else s
  let s := g_defcodelabel ExitLab s
  let s := NextToken s
  .ok (DelLoop s)

/-- Entry for one case in a switch statement (`SwitchEntry`, lines 502-505). -/
structure SwitchEntry where
  Value : Int
  Label : Nat
  deriving DecidableEq, Repr

/-- Local variables of `TableSwitch` that change in its loops. -/
structure TableVars where
  DefaultLabel : Nat
  HaveBreak : Nat
  SwitchTab : List SwitchEntry
  deriving DecidableEq, Repr

/-- One label in the `do ... while` loop of `TableSwitch`, lines 531-552. -/
def TableSwitch.label (X : Ext) (v : TableVars) (s : State) : TableVars × State :=
  let (v, s) :=
    if s.CurTok.Tok = TOK_CASE then
      let s := NextToken s
      let (lval, s) := X.constexpr s
      let s := if ¬ IsClassInt lval.Type_ then Error "Switch quantity not an integer" s
               else s
      let (l, s) := GetLocalLabel s
      let P : SwitchEntry := { Value := lval.ConstVal, Label := l }
      ({ v with SwitchTab := v.SwitchTab ++ [P] }, g_defcodelabel P.Label s)
    else if v.DefaultLabel = 0 then
      let s := NextToken s
      let (l, s) := GetLocalLabel s
      ({ v with DefaultLabel := l }, g_defcodelabel l s)
    else
      let s := Error "Multiple default labels in one switch" s
      (v, NextToken s)
  let s := ConsumeColon s
  (v, s)

/-- The `do ... while` loop of `TableSwitch` over one group of labels, lines 530-553. -/
def TableSwitch.labels (X : Ext) : Nat → TableVars → State → Outcome (TableVars × State)
  | 0, _, _ => .fuel
  | fuel + 1, v, s =>
    let (v, s) := TableSwitch.label X v s
    if s.CurTok.Tok = TOK_CASE ∨ s.CurTok.Tok = TOK_DEFAULT then
      TableSwitch.labels X fuel v s
    else .ok (v, s)

/-- The outer loop of `TableSwitch`, lines 528-559. -/
def TableSwitch.body (X : Ext) (Statement : StmtFn) :
    Nat → TableVars → State → Outcome (TableVars × State)
  | 0, _, _ => .fuel
  | fuel + 1, v, s =>
    if s.CurTok.Tok ≠ TOK_RCURLY then
      let r : Outcome (TableVars × State) :=
        if s.CurTok.Tok = TOK_CASE ∨ s.CurTok.Tok = TOK_DEFAULT then
          (TableSwitch.labels X fuel v s).bind fun (v, s) =>
          .ok ({ v with HaveBreak := 0 }, s)
        else .ok (v, s)
      r.bind fun (v, s) =>
      if s.CurTok.Tok ≠ TOK_RCURLY then
        (Statement none s).bind fun (r, _, s) =>
        TableSwitch.body X Statement fuel { v with HaveBreak := r } s
      else TableSwitch.body X Statement fuel v s
    else .ok (v, s)

/-- The loop that creates the case selector table, lines 585-588. -/
def TableSwitch.cases (Flags : Nat) : List SwitchEntry → State → State
  | [], s => s
  | P :: rest, s => TableSwitch.cases Flags rest (g_case Flags P.Label P.Value s)

/-- Source `TableSwitch`, lines 498-603. -/
def TableSwitch (X : Ext) (Statement : StmtFn) (fuel : Nat) (Expr : ExprDesc)
    (s : State) : Outcome State :=
  let v : TableVars := { DefaultLabel := 0, HaveBreak := 0, SwitchTab := [] }
  let (ExitLabel, s) := GetLocalLabel s
  let s := AddLoop s.oursp 0 ExitLabel 0 0 s
  let (lcase, s) := GetLocalLabel s
  let s := g_jump lcase s
  (TableSwitch.body X Statement fuel v s).bind fun (v, s) =>
  let s := if v.SwitchTab.length = 0 ∧ v.DefaultLabel = 0 then Warning "No case labels" s
           else s
  let s := NextToken s
  let s := if v.HaveBreak = 0 then g_jump ExitLabel s else s
  let s := g_defcodelabel lcase s
  let Flags := X.TypeOf Expr.Type_
  let s := g_switch Flags s
  let s := g_defdata (X.CF_INT ||| X.CF_CONST) (-(v.SwitchTab.length : Int) - 1) 0 s
  let s := TableSwitch.cases Flags v.SwitchTab s
  let s := if v.DefaultLabel ≠ 0 then g_jump v.DefaultLabel s else s
  let s := g_defcodelabel ExitLabel s
  .ok (DelLoop s)

/-- The decision of `SwitchStatement`, line 624: true selects `CascadeSwitch`. -/
def SwitchStatement.useCascade (CodeSizeFactor : Nat) (t : type_t) : Bool :=
  IsTypeChar t || (decide (CodeSizeFactor ≥ 200) && IsClassInt t)

/-- Source `SwitchStatement`, lines 607-629. -/
def SwitchStatement (X : Ext) (Statement : StmtFn) (fuel : Nat) (s : State) :
    Outcome State :=
  let s := NextToken s
  let s := ConsumeLParen s
  let (Expr, s) := X.intexpr s
  let s := ConsumeRParen s
  let s := ConsumeLCurly s
  if SwitchStatement.useCascade s.CodeSizeFactor Expr.Type_ then
    CascadeSwitch X Statement fuel Expr s
  else
    TableSwitch X Statement fuel Expr s

/-- Source `ForStatement`, lines 633-722. -/
def ForStatement (X : Ext) (Statement : StmtFn) (s : State) : Outcome State :=
  let (TestLabel, s) := GetLocalLabel s
  let (lab, s) := GetLocalLabel s
  let (IncLabel, s) := GetLocalLabel s
  let (lstat, s) := GetLocalLabel s
  let s := NextToken s
  let s := AddLoop s.oursp TestLabel lab IncLabel lstat s
  let s := ConsumeLParen s
  let s := if s.CurTok.Tok ≠ TOK_SEMI then (X.expression s).2 else s
  let s := ConsumeSemi s
  let s := g_defcodelabel TestLabel s
  let s :=
    if s.CurTok.Tok ≠ TOK_SEMI then
      let s := (X.boolexpr s).2
      let s := g_truejump X.CF_NONE lstat s
      g_jump lab s
    else g_jump lstat s
  let s := ConsumeSemi s
  let IncExprStart := GetCodePos s
  let s := g_defcodelabel IncLabel s
  let HaveIncExpr := s.CurTok.Tok ≠ TOK_RPAREN
  let s := if HaveIncExpr then (X.expression s).2 else s
  let s := g_jump TestLabel s
  let IncExprEnd := GetCodePos s
  let s := ConsumeRParen s
  let s := g_defcodelabel lstat s
  (Statement (some 0) s).bind fun (_, PendingToken, s) =>
  let s := if HaveIncExpr then MoveCode IncExprStart IncExprEnd (GetCodePos s) s
           else g_jump IncLabel s
  let s := SkipPending (PendingToken.getD 0) s
  let s := g_defcodelabel lab s
  .ok (DelLoop s)

/-- The statement loop of `CompoundStatement`, lines 744-750. -/
def CompoundStatement.loop (Statement : StmtFn) : Nat → Nat → State → Outcome (Nat × State)
  | 0, _, _ => .fuel
  | fuel + 1, GotBreak, s =>
    if s.CurTok.Tok ≠ TOK_RCURLY then
      if s.CurTok.Tok ≠ TOK_CEOF then
        (Statement none s).bind fun (r, _, s) => CompoundStatement.loop Statement fuel r s
      else .ok (GotBreak, s)
    else .ok (GotBreak, s)

/-- Source `CompoundStatement`, lines 726-765. -/
def CompoundStatement (X : Ext) (Statement : StmtFn) (fuel : Nat) (s : State) :
    Outcome (Nat × State) :=
  let OldStack := s.oursp
  let s := X.EnterBlockLevel s
  let s := X.DeclareLocals s
  (CompoundStatement.loop Statement fuel 0 s).bind fun (GotBreak, s) =>
  let s := if GotBreak = 0 then g_space (s.oursp - OldStack) s else s
  let s := { s with oursp := OldStack }
  let s := X.EmitExternals s
  let s := X.LeaveBlockLevel s
  .ok (GotBreak, s)

/-- Source `Statement`, lines 769-858. -/
def Statement (X : Ext) : Nat → Slot → State → Outcome (Nat × Slot × State)
  | 0, _, _ => .fuel
  | fuel + 1, PendingToken, s =>
    let PendingToken : Slot := if PendingToken.isSome then some 0 else PendingToken
    if s.CurTok.Tok = TOK_IDENT ∧ s.NextTok.Tok = TOK_COLON then
      let s := X.DoLabel s
      .ok (0, PendingToken, s)
    else
      match s.CurTok.Tok with
      | TOK_LCURLY =>
        let s := NextToken s
        (CompoundStatement X (Statement X fuel) fuel s).bind fun (GotBreak, s) =>
        let (PendingToken, s) := CheckTok TOK_RCURLY "`\x7b' expected" PendingToken s
        .ok (GotBreak, PendingToken, s)
      | TOK_IF =>
        (IfStatement X (Statement X fuel) s).bind fun (r, s) => .ok (r, PendingToken, s)
      | TOK_WHILE =>
        (WhileStatement X (Statement X fuel) s).bind fun s => .ok (0, PendingToken, s)
      | TOK_DO =>
        (DoStatement X (Statement X fuel) s).bind fun s => .ok (0, PendingToken, s)
      | TOK_SWITCH =>
        (SwitchStatement X (Statement X fuel) fuel s).bind fun s => .ok (0, PendingToken, s)
      | TOK_RETURN =>
        let s := ReturnStatement X s
        let (PendingToken, s) := CheckSemi PendingToken s
        .ok (1, PendingToken, s)
      | TOK_BREAK =>
        let s := BreakStatement s
        let (PendingToken, s) := CheckSemi PendingToken s
        .ok (1, PendingToken, s)
      | TOK_CONTINUE =>
        let s := ContinueStatement s
        let (PendingToken, s) := CheckSemi PendingToken s
        .ok (1, PendingToken, s)
      | TOK_FOR =>
        (ForStatement X (Statement X fuel) s).bind fun s => .ok (0, PendingToken, s)
      | TOK_GOTO =>
        let s := X.GotoStatement s
        let (PendingToken, s) := CheckSemi PendingToken s
        .ok (1, PendingToken, s)
      | TOK_SEMI =>
        let s := NextToken s
        .ok (0, PendingToken, s)
      | TOK_PRAGMA =>
        let s := X.DoPragma s
        .ok (0, PendingToken, s)
      | _ =>
        let s := (X.expression s).2
        let (PendingToken, s) := CheckSemi PendingToken s
        .ok (0, PendingToken, s)

/-! ## A small instance of the collaborators

Used to run the compiler on concrete token streams: an expression is a single
identifier or constant token, whose attribute tags the code it stands for. -/

/-- One-token expression parser: an identifier or constant is skipped and its code
recorded; anything else is an error. The result has type `t`. -/
def demoExpr (t : type_t) (s : State) : ExprDesc × State :=
  if s.CurTok.Tok = TOK_IDENT ∨ s.CurTok.Tok = TOK_ICONST then
    (⟨t, s.CurTok.IVal⟩, NextToken (emit (.expr s.CurTok.IVal) s))
  else (⟨t, 0⟩, Error "Expression expected" s)

/-- One-token constant expression parser: emits no code. -/
def demoConst (s : State) : ExprDesc × State :=
  if s.CurTok.Tok = TOK_ICONST then (⟨T_INT, s.CurTok.IVal⟩, NextToken s)
  else (⟨T_INT, 0⟩, Error "Constant expression expected" s)

/-- Parenthesised condition followed by a jump to `label` taken when the condition is
true (`invert ≠ 0`) or false (`invert = 0`). -/
def demoTest (label invert : Nat) (s : State) : State :=
  let s := ConsumeLParen s
  let s := (demoExpr T_INT s).2
  let s := ConsumeRParen s
  if invert ≠ 0 then g_truejump 0 label s else g_falsejump 0 label s

/-- The instance: `selTy` is the type every switch selector gets. -/
def demoExt (selTy : type_t) : Ext where
  expression := demoExpr T_INT
  boolexpr := demoExpr T_INT
  intexpr := demoExpr selTy
  constexpr := demoConst
  test := demoTest
  assignadjust := fun _ _ s => s
  DeclareLocals := fun s => s
  EnterBlockLevel := fun s => s
  LeaveBlockLevel := fun s => s
  EmitExternals := fun s => s
  DoLabel := fun s => NextToken (NextToken s)
  GotoStatement := fun s => NextToken (NextToken s)
  DoPragma := fun s => NextToken s
  TypeOf := fun t => if IsTypeChar t then 3 else 1
  CF_NONE := 0
  CF_CONST := 32
  CF_FORCECHAR := 64
  CF_INT := 1

/-- Start state for a token stream: nothing emitted, empty loop stack. -/
def initState (toks : List Token) (CodeSizeFactor : Nat) : State where
  toks := toks
  oursp := 0
  nextLabel := 0
  code := []
  errors := []
  warnings := []
  loops := []
  CodeSizeFactor := CodeSizeFactor
  CurrentFunc := ⟨true, T_VOID, "f", 0, 1000⟩

/-- Token without attribute. -/
def tk (t : token_t) : Token := ⟨t, 0⟩

/-- Identifier token standing for the expression with tag `n`. -/
def idt (n : Int) : Token := ⟨TOK_IDENT, n⟩

/-- Integer constant token. -/
def num (n : Int) : Token := ⟨TOK_ICONST, n⟩

/-! ## Auxiliary notions of the verification -/

/-- A statement parser whose flag is `0` or `1`. -/
def FlagOK (stmt : StmtFn) : Prop :=
  ∀ P s r P' s', stmt P s = .ok (r, P', s') → r ≤ 1

/-- Tokens of `if (1) return; else return;` followed by `x`. -/
def ifElseToks : List Token :=
  [tk TOK_IF, tk TOK_LPAREN, idt 1, tk TOK_RPAREN, tk TOK_RETURN, tk TOK_SEMI,
   tk TOK_ELSE, tk TOK_RETURN, tk TOK_SEMI, idt 2]

/-- State after compiling `ifElseToks`. -/
def ifElseOut : State :=
  { initState [idt 2] 100 with
    nextLabel := 2,
    code := [.expr 1, .falsejump 0 1, .space 0, .jump 1000, .jump 2, .defcodelabel 1,
             .space 0, .jump 1000, .defcodelabel 2] }

/-- The last token consumed between two positions of the token stream is a statement
terminator (semicolon or closing brace). -/
def TerminatorConsumed (before after : List Token) : Prop :=
  ∃ pre t, before = pre ++ t :: after ∧ (t.Tok = TOK_SEMI ∨ t.Tok = TOK_RCURLY)

/-- How `Statement` ends: with the flag `x.1` in the state `x.2.2`, after a last
`CheckTok` for the token and message `x.2.1` if there is one. -/
def Statement.finish (Q : Slot) (x : Nat × Option (token_t × String) × State) :
    Outcome (Nat × Slot × State) :=
  match x.2.1 with
  | none => .ok (x.1, (if Q.isSome then some 0 else Q), x.2.2)
  | some c =>
    .ok (x.1, (CheckTok c.1 c.2 (if Q.isSome then some 0 else Q) x.2.2).1,
              (CheckTok c.1 c.2 (if Q.isSome then some 0 else Q) x.2.2).2)

/-- The collaborators leave the loop stack alone. -/
structure Ext.KeepsLoops (X : Ext) : Prop where
  expression : ∀ s, (X.expression s).2.loops = s.loops
  boolexpr : ∀ s, (X.boolexpr s).2.loops = s.loops
  intexpr : ∀ s, (X.intexpr s).2.loops = s.loops
  constexpr : ∀ s, (X.constexpr s).2.loops = s.loops
  test : ∀ l i s, (X.test l i s).loops = s.loops
  assignadjust : ∀ t e s, (X.assignadjust t e s).loops = s.loops
  DeclareLocals : ∀ s, (X.DeclareLocals s).loops = s.loops
  EnterBlockLevel : ∀ s, (X.EnterBlockLevel s).loops = s.loops
  LeaveBlockLevel : ∀ s, (X.LeaveBlockLevel s).loops = s.loops
  EmitExternals : ∀ s, (X.EmitExternals s).loops = s.loops
  DoLabel : ∀ s, (X.DoLabel s).loops = s.loops
  GotoStatement : ∀ s, (X.GotoStatement s).loops = s.loops
  DoPragma : ∀ s, (X.DoPragma s).loops = s.loops

/-- A statement parser that returns with the loop stack it was called with. -/
def KeepsLoops (stmt : StmtFn) : Prop :=
  ∀ P s r P' s', stmt P s = .ok (r, P', s') → s'.loops = s.loops

/-- State of the machine that runs emitted code: position, outcome of the last
compare, tags of the expression code executed so far. -/
structure Machine where
  pc : Nat
  equal : Bool
  trace : List Int
  deriving DecidableEq, Repr

/-- End of a run of the machine. -/
inductive Exec where
  | done (trace : List Int)
  | stuck (trace : List Int)
  | fuel
  deriving DecidableEq, Repr

/-- Modelled from the spec: the position of the definition of a label in the code. -/
def findLabel (code : List Instr) (l : Nat) : Option Nat :=
  if code.indexOf (Instr.defcodelabel l) < code.length then
    some (code.indexOf (Instr.defcodelabel l))
  else none

/-- Modelled from the spec: the dispatch entries are tried in order; the result is the
label of the first entry with the selector's value, and the position after the entries
looked at. -/
def scanTable (sel : Int) : List Instr → Nat → Option Nat × Nat
  | Instr.case _ l v :: rest, pc => if v = sel then (some l, pc) else scanTable sel rest (pc + 1)
  | _, pc => (none, pc)

/-- Modelled from the spec: one step of the emitted code for the selector value `sel`:
a compare is "against the running selector value", the false jump after it is the "jump
if equal", the true jump the "jump if NOT equal"; a dispatch block is "a size/type tag,
followed by one dispatch entry per pair, followed by a jump to `default`'s label if one
exists, else fall through to `exit`". The result is `none` when the machine is stuck. -/
def step (code : List Instr) (sel : Int) (m : Machine) : Option Machine :=
  match code.get? m.pc with
  | none => none
  | some (Instr.defcodelabel _) => some { m with pc := m.pc + 1 }
  | some (Instr.space _) => some { m with pc := m.pc + 1 }
  | some (Instr.expr t) => some { m with pc := m.pc + 1, trace := m.trace ++ [t] }
  | some (Instr.cmp _ v) => some { m with pc := m.pc + 1, equal := decide (sel = v) }
  | some (Instr.jump l) => (findLabel code l).map fun p => { m with pc := p }
  | some (Instr.falsejump _ l) =>
    if m.equal then (findLabel code l).map fun p => { m with pc := p }
    else some { m with pc := m.pc + 1 }
  | some (Instr.truejump _ l) =>
    if m.equal then some { m with pc := m.pc + 1 }
    else (findLabel code l).map fun p => { m with pc := p }
  | some (Instr.switch _) =>
    match code.drop (m.pc + 1) with
    | Instr.defdata _ _ _ :: rest =>
      match scanTable sel rest (m.pc + 2) with
      | (some l, _) => (findLabel code l).map fun p => { m with pc := p }
      | (none, p) => some { m with pc := p }
    | _ => none
  | some (Instr.defdata _ _ _) => none
  | some (Instr.case _ _ _) => none

/-- Run of the emitted code from `m` until control leaves it at its end. -/
def run (code : List Instr) (sel : Int) : Nat → Machine → Exec
  | 0, _ => .fuel
  | fuel + 1, m =>
    if m.pc = code.length then .done m.trace
    else
      match step code sel m with
      | none => .stuck m.trace
      | some m' => run code sel fuel m'

/-- The tags of the expression code executed when the code emitted for the statement
at the head of `toks` runs with selector value `sel`. -/
def behaviour (X : Ext) (CodeSizeFactor : Nat) (toks : List Token) (sel : Int) : Exec :=
  match Statement X 8 none (initState toks CodeSizeFactor) with
  | .ok (_, _, s) => run s.code sel 100 ⟨0, false, []⟩
  | _ => .fuel

/-- Tokens of
`switch (x) { case 1: a; break; default: b; break; case 2: c; break; }`,
with tags 99, 10, 20 and 30 for `x`, `a`, `b` and `c`. -/
def switchDefaultMid : List Token :=
  [tk TOK_SWITCH, tk TOK_LPAREN, idt 99, tk TOK_RPAREN, tk TOK_LCURLY,
   tk TOK_CASE, num 1, tk TOK_COLON, idt 10, tk TOK_SEMI, tk TOK_BREAK, tk TOK_SEMI,
   tk TOK_DEFAULT, tk TOK_COLON, idt 20, tk TOK_SEMI, tk TOK_BREAK, tk TOK_SEMI,
   tk TOK_CASE, num 2, tk TOK_COLON, idt 30, tk TOK_SEMI, tk TOK_BREAK, tk TOK_SEMI,
   tk TOK_RCURLY]

/-- Tokens of
`switch (x) { case 1: a; break; case 2: c; break; default: b; break; }`. -/
def switchDefaultLast : List Token :=
  [tk TOK_SWITCH, tk TOK_LPAREN, idt 99, tk TOK_RPAREN, tk TOK_LCURLY,
   tk TOK_CASE, num 1, tk TOK_COLON, idt 10, tk TOK_SEMI, tk TOK_BREAK, tk TOK_SEMI,
   tk TOK_CASE, num 2, tk TOK_COLON, idt 30, tk TOK_SEMI, tk TOK_BREAK, tk TOK_SEMI,
   tk TOK_DEFAULT, tk TOK_COLON, idt 20, tk TOK_SEMI, tk TOK_BREAK, tk TOK_SEMI,
   tk TOK_RCURLY]

/-- Tokens of
`while (1) { for (;;) break; switch (2) { case 1: continue; } do 3; while (4) }`:
the `do` statement lacks its semicolon. -/
def nestedLoops : List Token :=
  [tk TOK_WHILE, tk TOK_LPAREN, idt 1, tk TOK_RPAREN, tk TOK_LCURLY,
   tk TOK_FOR, tk TOK_LPAREN, tk TOK_SEMI, tk TOK_SEMI, tk TOK_RPAREN, tk TOK_BREAK, tk TOK_SEMI,
   tk TOK_SWITCH, tk TOK_LPAREN, idt 2, tk TOK_RPAREN, tk TOK_LCURLY,
   tk TOK_CASE, num 1, tk TOK_COLON, tk TOK_CONTINUE, tk TOK_SEMI, tk TOK_RCURLY,
   tk TOK_DO, idt 3, tk TOK_SEMI, tk TOK_WHILE, tk TOK_LPAREN, idt 4, tk TOK_RPAREN,
   tk TOK_RCURLY]

/-- Start state for `nestedLoops` inside an enclosing switch. -/
def nestedLoopsIn : State :=
  { initState nestedLoops 100 with loops := [⟨0, 0, 77, 0, 0⟩] }

/-- State after compiling `nestedLoops` with a char selector (cascade switch). -/
def nestedLoopsCascadeOut : State :=
  { initState [] 100 with
    loops := [⟨0, 0, 77, 0, 0⟩], nextLabel := 10, errors := ["`;' expected"],
    code := [.defcodelabel 1, .expr 1, .falsejump 0 2, .defcodelabel 3, .jump 6,
      .defcodelabel 5, .jump 3, .defcodelabel 6, .space 0, .jump 4, .jump 5,
      .defcodelabel 4, .expr 2, .cmp 99 1, .truejump 0 8, .space 0, .jump 1,
      .defcodelabel 8, .defcodelabel 7, .defcodelabel 9, .expr 3, .expr 4,
      .truejump 0 9, .defcodelabel 10, .space 0, .jump 1, .defcodelabel 2] }

/-- State after compiling `nestedLoops` with an int selector (table switch). -/
def nestedLoopsTableOut : State :=
  { initState [] 100 with
    loops := [⟨0, 0, 77, 0, 0⟩], nextLabel := 11, errors := ["`;' expected"],
    code := [.defcodelabel 1, .expr 1, .falsejump 0 2, .defcodelabel 3, .jump 6,
      .defcodelabel 5, .jump 3, .defcodelabel 6, .space 0, .jump 4, .jump 5,
      .defcodelabel 4, .expr 2, .jump 8, .defcodelabel 9, .space 0, .jump 1,
      .defcodelabel 8, .switch 1, .defdata 33 (-2) 0, .case 1 9 1, .defcodelabel 7,
      .defcodelabel 10, .expr 3, .expr 4, .truejump 0 10, .defcodelabel 11, .space 0,
      .jump 1, .defcodelabel 2] }

/-- Start state for `break; 1` inside a switch. -/
def breakIn : State :=
  { initState [tk TOK_BREAK, tk TOK_SEMI, idt 1] 100 with loops := [⟨0, 0, 77, 0, 0⟩] }

/-- State after compiling the `break` of `breakIn` with a slot: the semicolon is
pending. -/
def breakOut : State :=
  { initState [tk TOK_SEMI, idt 1] 100 with
    loops := [⟨0, 0, 77, 0, 0⟩], code := [.space 0, .jump 77] }

/-- The ranges of the selector types as the specification lists them: signed char,
unsigned char, int, unsigned int. -/
def specRange : type_t → Option (Int × Int)
  | T_SCHAR => some (-128, 127)
  | T_UCHAR => some (0, 255)
  | T_INT => some (-32768, 32767)
  | T_UINT => some (0, 65535)
  | _ => none

/-- The machine after at most `k` steps of the emitted code. -/
def runSteps (code : List Instr) (sel : Int) : Nat → Machine → Machine
  | 0, m => m
  | k + 1, m =>
    match step code sel m with
    | none => m
    | some m' => runSteps code sel k m'

/-- A switch statement on the selector `99` with the given tokens between its braces. -/
def switchOf (body : List Token) : List Token :=
  [tk TOK_SWITCH, tk TOK_LPAREN, idt 99, tk TOK_RPAREN, tk TOK_LCURLY] ++ body ++
    [tk TOK_RCURLY]

/-- Tokens of `switch (x) { case 300: a; case -1: b; case 7: c; }`. -/
def switchTwoRange : List Token :=
  switchOf [tk TOK_CASE, num 300, tk TOK_COLON, idt 10, tk TOK_SEMI,
    tk TOK_CASE, num (-1), tk TOK_COLON, idt 20, tk TOK_SEMI,
    tk TOK_CASE, num 7, tk TOK_COLON, idt 30, tk TOK_SEMI]

/-- Tokens of `switch (x) { default: a; default: b; }`. -/
def switchTwoDefault : List Token :=
  switchOf [tk TOK_DEFAULT, tk TOK_COLON, idt 10, tk TOK_SEMI,
    tk TOK_DEFAULT, tk TOK_COLON, idt 20, tk TOK_SEMI]

/-- Tokens of `switch (x) { case 1: ; }`. -/
def switchOneCase : List Token :=
  switchOf [tk TOK_CASE, num 1, tk TOK_COLON, tk TOK_SEMI]

/-- Tokens of `do { a; continue; } while (c);` with tags 10 and 7 for `a` and `c`. -/
def doContinue : List Token :=
  [tk TOK_DO, tk TOK_LCURLY, idt 10, tk TOK_SEMI, tk TOK_CONTINUE, tk TOK_SEMI, tk TOK_RCURLY,
   tk TOK_WHILE, tk TOK_LPAREN, idt 7, tk TOK_RPAREN, tk TOK_SEMI]

/-- Tokens of `while (c) { a; continue; }`. -/
def whileContinue : List Token :=
  [tk TOK_WHILE, tk TOK_LPAREN, idt 7, tk TOK_RPAREN, tk TOK_LCURLY, idt 10, tk TOK_SEMI,
   tk TOK_CONTINUE, tk TOK_SEMI, tk TOK_RCURLY]

/-- The code emitted for the statement at the head of `toks`, if it compiles. -/
def codeOf (X : Ext) (CodeSizeFactor : Nat) (toks : List Token) : Option (List Instr) :=
  match Statement X 12 none (initState toks CodeSizeFactor) with
  | .ok (_, _, s) => some s.code
  | _ => none

/-- The diagnostics reported for the statement at the head of `toks`, if it compiles. -/
def errorsOf (X : Ext) (CodeSizeFactor : Nat) (toks : List Token) : Option (List String) :=
  match Statement X 12 none (initState toks CodeSizeFactor) with
  | .ok (_, _, s) => some s.errors
  | _ => none

/-- State at the label `case 300:` of a cascade switch, followed by `a;`. -/
def caseRangeIn : State :=
  initState [tk TOK_CASE, num 300, tk TOK_COLON, idt 10, tk TOK_SEMI] 100

/-- State at `return 5;` in a function with void return type. -/
def returnValueIn : State := initState [tk TOK_RETURN, idt 5, tk TOK_SEMI] 100

/-- State at `return;` in the function `g` with return type int, at stack depth `-4`. -/
def returnNoneIn : State :=
  { initState [tk TOK_RETURN, tk TOK_SEMI] 100 with
    oursp := -4, CurrentFunc := ⟨false, T_INT, "g", 0, 1000⟩ }

/-- What the loops of `TableSwitch` go through between the braces, in source order: a
case label with its constant and the label defined at its place, a default label, or
a statement with the flag it returned. -/
inductive TableEvent where
  | caseSeen (Value : Int) (Label : Nat)
  | defaultSeen
  | stmtDone (flag : Nat)
  deriving DecidableEq, Repr

/-- The event of one pass through `TableSwitch.label`: for a case label the constant
read by `constexpr` and the label allocated after it. -/
def TableSwitch.labelEvent (X : Ext) (s : State) : TableEvent :=
  if s.CurTok.Tok = TOK_CASE then
    .caseSeen (X.constexpr (NextToken s)).1.ConstVal ((X.constexpr (NextToken s)).2.nextLabel + 1)
  else .defaultSeen

/-- The events of `TableSwitch.labels`, which follows the same path. -/
def TableSwitch.labelsEvents (X : Ext) : Nat → TableVars → State → List TableEvent
  | 0, _, _ => []
  | fuel + 1, v, s =>
    TableSwitch.labelEvent X s ::
      (if (TableSwitch.label X v s).2.CurTok.Tok = TOK_CASE ∨
          (TableSwitch.label X v s).2.CurTok.Tok = TOK_DEFAULT then
        TableSwitch.labelsEvents X fuel (TableSwitch.label X v s).1 (TableSwitch.label X v s).2
       else [])

/-- The value of `HaveBreak` an event leaves: the flag of a statement, `0` for a
label. -/
def TableEvent.flag : TableEvent → Nat
  | .stmtDone r => r
  | _ => 0

/-- The state in which `TableSwitch` starts on the body of the switch (after line 527). -/
def TableSwitch.start (s : State) : State :=
  g_jump (s.nextLabel + 2)
    (GetLocalLabel (AddLoop s.oursp 0 (s.nextLabel + 1) 0 0 (GetLocalLabel s).2)).2

/-- The code `TableSwitch` emits after the body of the switch (lines 569-593). -/
def TableSwitch.tail (X : Ext) (Expr : ExprDesc) (ExitLabel lcase : Nat) (v : TableVars) :
    List Instr :=
  (if v.HaveBreak = 0 then [Instr.jump ExitLabel] else []) ++
  [Instr.defcodelabel lcase, Instr.switch (X.TypeOf Expr.Type_),
   Instr.defdata (X.CF_INT ||| X.CF_CONST) (-(v.SwitchTab.length : Int) - 1) 0] ++
  v.SwitchTab.map (fun P => Instr.case (X.TypeOf Expr.Type_) P.Label P.Value) ++
  (if v.DefaultLabel ≠ 0 then [Instr.jump v.DefaultLabel] else []) ++
  [Instr.defcodelabel ExitLabel]

/-- What one group of labels of the cascade switch keeps, for the labels before (`v`)
and after (`v'`) and the code `c` emitted in between: a label once allocated stays,
every jump on equality and every unconditional jump in `c` goes to the code label,
every jump on inequality goes to the next-label. -/
def CascadeInv (v v' : CascadeVars) (c : List Instr) : Prop :=
  (v.CodeLab ≠ 0 → v'.CodeLab = v.CodeLab) ∧
  (v.NextLab ≠ 0 → v'.NextLab = v.NextLab) ∧
  v'.HaveBreak = v.HaveBreak ∧
  (∀ f l, Instr.falsejump f l ∈ c → l = v'.CodeLab ∧ l ≠ 0) ∧
  (∀ f l, Instr.truejump f l ∈ c → l = v'.NextLab ∧ l ≠ 0) ∧
  (∀ l, Instr.jump l ∈ c → l = v'.CodeLab ∧ l ≠ 0)

/-- Tokens of
`switch (c) { case 97: a; break; case 98: case 99: b; break; default: d; }`
with tags 10, 20 and 30 for `a`, `b` and `d`. -/
def switchCharScenario : List Token :=
  switchOf [tk TOK_CASE, num 97, tk TOK_COLON, idt 10, tk TOK_SEMI, tk TOK_BREAK, tk TOK_SEMI,
    tk TOK_CASE, num 98, tk TOK_COLON, tk TOK_CASE, num 99, tk TOK_COLON,
    idt 20, tk TOK_SEMI, tk TOK_BREAK, tk TOK_SEMI,
    tk TOK_DEFAULT, tk TOK_COLON, idt 30, tk TOK_SEMI]

/-- State at the group `case 98: case 99:` followed by `b; break; }`. -/
def caseGroupIn : State :=
  initState [tk TOK_CASE, num 98, tk TOK_COLON, tk TOK_CASE, num 99, tk TOK_COLON,
    idt 20, tk TOK_SEMI, tk TOK_BREAK, tk TOK_SEMI, tk TOK_RCURLY] 100

/-- State after the labels of `caseGroupIn`. -/
def caseGroupOut : State :=
  { caseGroupIn with
    toks := [idt 20, tk TOK_SEMI, tk TOK_BREAK, tk TOK_SEMI, tk TOK_RCURLY]
    nextLabel := 2
    code := [.cmp 99 98, .falsejump 0 1, .cmp 99 99, .truejump 0 2] }

/-- The code of `s'` is the code of `s` with instructions added at its end. -/
def Appends (s s' : State) : Prop := ∃ c, s'.code = s.code ++ c

/-- The instructions of `s'` from the end of the code of `s` on. -/
def added (s s' : State) : List Instr := s'.code.drop s.code.length

/-- A statement parser that only adds to the end of the emitted code. -/
def AppendsCode (stmt : StmtFn) : Prop :=
  ∀ P s r P' s', stmt P s = .ok (r, P', s') → Appends s s'

/-- The collaborators only add to the end of the emitted code. -/
structure Ext.AppendsCode (X : Ext) : Prop where
  expression : ∀ s, Appends s (X.expression s).2
  boolexpr : ∀ s, Appends s (X.boolexpr s).2
  intexpr : ∀ s, Appends s (X.intexpr s).2
  constexpr : ∀ s, Appends s (X.constexpr s).2
  test : ∀ l i s, Appends s (X.test l i s)
  assignadjust : ∀ t e s, Appends s (X.assignadjust t e s)
  DeclareLocals : ∀ s, Appends s (X.DeclareLocals s)
  EnterBlockLevel : ∀ s, Appends s (X.EnterBlockLevel s)
  LeaveBlockLevel : ∀ s, Appends s (X.LeaveBlockLevel s)
  EmitExternals : ∀ s, Appends s (X.EmitExternals s)
  DoLabel : ∀ s, Appends s (X.DoLabel s)
  GotoStatement : ∀ s, Appends s (X.GotoStatement s)
  DoPragma : ∀ s, Appends s (X.DoPragma s)

/-- State of `ForStatement` after the initializer and its semicolon, line 661. -/
def ForStatement.afterInit (X : Ext) (s : State) : State :=
  let (TestLabel, s) := GetLocalLabel s
  let (lab, s) := GetLocalLabel s
  let (IncLabel, s) := GetLocalLabel s
  let (lstat, s) := GetLocalLabel s
  let s := NextToken s
  let s := AddLoop s.oursp TestLabel lab IncLabel lstat s
  let s := ConsumeLParen s
  let s := if s.CurTok.Tok ≠ TOK_SEMI then (X.expression s).2 else s
  ConsumeSemi s

/-- State of `ForStatement` after the test and its semicolon, line 675, where the
source takes `IncExprStart`. -/
def ForStatement.afterTest (X : Ext) (s : State) : State :=
  let t := ForStatement.afterInit X s
  let t := g_defcodelabel (s.nextLabel + 1) t
  let t :=
    if t.CurTok.Tok ≠ TOK_SEMI then
      let t := (X.boolexpr t).2
      let t := g_truejump X.CF_NONE (s.nextLabel + 4) t
      g_jump (s.nextLabel + 2) t
    else g_jump (s.nextLabel + 4) t
  ConsumeSemi t

/-- State of `ForStatement` after the jump to the test, line 693, where the source
takes `IncExprEnd`. -/
def ForStatement.afterIncr (X : Ext) (s : State) : State :=
  let t := g_defcodelabel (s.nextLabel + 3) (ForStatement.afterTest X s)
  let t := if t.CurTok.Tok ≠ TOK_RPAREN then (X.expression t).2 else t
  g_jump (s.nextLabel + 1) t

/-- State of `ForStatement` in which the loop body is compiled, line 701. -/
def ForStatement.bodyStart (X : Ext) (s : State) : State :=
  g_defcodelabel (s.nextLabel + 4) (ConsumeRParen (ForStatement.afterIncr X s))

/-- Tokens of `for (i; c; n) b;` followed by `x`, with tags 1, 2, 3 and 10 for `i`, `c`,
`n` and `b`. -/
def forIncToks : List Token :=
  [tk TOK_FOR, tk TOK_LPAREN, idt 1, tk TOK_SEMI, idt 2, tk TOK_SEMI, idt 3, tk TOK_RPAREN,
   idt 10, tk TOK_SEMI, idt 20]

/-- State after `ForStatement` on `forIncToks`. -/
def forIncOut : State :=
  { initState [idt 20] 100 with
    nextLabel := 4
    code := [.expr 1, .defcodelabel 1, .expr 2, .truejump 0 4, .jump 2, .defcodelabel 4,
      .expr 10, .defcodelabel 3, .expr 3, .jump 1, .defcodelabel 2] }

/-- Tokens of `for (i; c; ) b;` followed by `x`. -/
def forNoIncToks : List Token :=
  [tk TOK_FOR, tk TOK_LPAREN, idt 1, tk TOK_SEMI, idt 2, tk TOK_SEMI, tk TOK_RPAREN,
   idt 10, tk TOK_SEMI, idt 20]

/-- State after `ForStatement` on `forNoIncToks`. -/
def forNoIncOut : State :=
  { initState [idt 20] 100 with
    nextLabel := 4
    code := [.expr 1, .defcodelabel 1, .expr 2, .truejump 0 4, .jump 2, .defcodelabel 3,
      .jump 1, .defcodelabel 4, .expr 10, .jump 3, .defcodelabel 2] }

/-- Tokens of `for (i; c; n) for (j; d; m) b;` followed by `x`. -/
def forNestedToks : List Token :=
  [tk TOK_FOR, tk TOK_LPAREN, idt 1, tk TOK_SEMI, idt 2, tk TOK_SEMI, idt 3, tk TOK_RPAREN,
   tk TOK_FOR, tk TOK_LPAREN, idt 4, tk TOK_SEMI, idt 5, tk TOK_SEMI, idt 6, tk TOK_RPAREN,
   idt 10, tk TOK_SEMI, idt 20]

/-- Number of definitions of the label `l` in a piece of emitted code. -/
def defCount (l : Nat) : List Instr → Nat
  | [] => 0
  | .defcodelabel k :: c => (if k = l then 1 else 0) + defCount l c
  | _ :: c => defCount l c

/-- The state in which `WhileStatement` compiles the loop body (stmt.c 187-201): both
labels are allocated, `while` is skipped, the loop context is pushed, the loop label is
defined and the condition is compiled. -/
def WhileStatement.bodyStart (X : Ext) (s : State) : State :=
  let (loop, s) := GetLocalLabel s
  let (lab, s) := GetLocalLabel s
  let s := NextToken s
  let s := AddLoop s.oursp loop lab 0 0 s
  let s := g_defcodelabel loop s
  X.test lab 0 s

/-- What `WhileStatement` does after the loop body (stmt.c 207-216), for the pending
token flag `PendingToken` and the state `t` the body returned; `s` is the state
`WhileStatement` was called in. -/
def WhileStatement.finish (s : State) (PendingToken : Slot) (t : State) : State :=
  let t := g_jump (s.nextLabel + 1) t
  let t := g_defcodelabel (s.nextLabel + 2) t
  let t := SkipPending (PendingToken.getD 0) t
  DelLoop t

/-- The state in which `DoStatement` compiles the loop body (stmt.c 152-162). -/
def DoStatement.bodyStart (s : State) : State :=
  let (loop, s) := GetLocalLabel s
  let (lab, s) := GetLocalLabel s
  let s := NextToken s
  let s := AddLoop s.oursp loop lab 0 0 s
  g_defcodelabel loop s

/-- What `DoStatement` does after the loop body (stmt.c 168-177), for the state `t` the
body returned; `s` is the state `DoStatement` was called in. -/
def DoStatement.finish (X : Ext) (s : State) (t : State) : State :=
  let t := Consume TOK_WHILE "`while' expected" t
  let t := X.test (s.nextLabel + 1) 1 t
  let t := ConsumeSemi t
  let t := g_defcodelabel (s.nextLabel + 2) t
  DelLoop t

/-- What `ForStatement` does after the loop body (stmt.c 704-721), for the pending token
flag `PendingToken` and the state `t` the body returned; `s` is the state `ForStatement`
was called in. -/
def ForStatement.finish (X : Ext) (s : State) (PendingToken : Slot) (t : State) : State :=
  let t :=
    if (ForStatement.afterTest X s).CurTok.Tok ≠ TOK_RPAREN then
      MoveCode (GetCodePos (ForStatement.afterTest X s))
        (GetCodePos (ForStatement.afterIncr X s)) (GetCodePos t) t
    else g_jump (s.nextLabel + 3) t
  let t := SkipPending (PendingToken.getD 0) t
  let t := g_defcodelabel (s.nextLabel + 2) t
  DelLoop t

/-- The state in which `CascadeSwitch` starts the loop over the switch body
(stmt.c 337-343): the exit label is allocated and the switch context is pushed. -/
def CascadeSwitch.start (s : State) : State :=
  let (ExitLab, s) := GetLocalLabel s
  AddLoop s.oursp 0 ExitLab 0 0 s

/-- What `CascadeSwitch` does after the loop over the switch body (stmt.c 475-493), for
the variables `v` and the state `t` the loop returned; `s` is the state `CascadeSwitch`
was called in. -/
def CascadeSwitch.finish (s : State) (v : CascadeVars) (t : State) : State :=
  let t := if v.lcount = 0 ∧ v.HaveDefault = 0 then Warning "No case labels" t else t
  let t := if v.NextLab ≠ 0 then g_defcodelabel v.NextLab t else t
  let t := g_defcodelabel (s.nextLabel + 1) t
  let t := NextToken t
  DelLoop t

/-- What `TableSwitch` does after the loop over the switch body (stmt.c 561-602), for the
variables `v` and the state `t` the loop returned; `s` is the state `TableSwitch` was
called in. -/
def TableSwitch.finish (X : Ext) (Expr : ExprDesc) (s : State) (v : TableVars)
    (t : State) : State :=
  let t := if v.SwitchTab.length = 0 ∧ v.DefaultLabel = 0 then Warning "No case labels" t
           else t
  let t := NextToken t
  let t := if v.HaveBreak = 0 then g_jump (s.nextLabel + 1) t else t
  let t := g_defcodelabel (s.nextLabel + 2) t
  let Flags := X.TypeOf Expr.Type_
  let t := g_switch Flags t
  let t := g_defdata (X.CF_INT ||| X.CF_CONST) (-(v.SwitchTab.length : Int) - 1) 0 t
  let t := TableSwitch.cases Flags v.SwitchTab t
  let t := if v.DefaultLabel ≠ 0 then g_jump v.DefaultLabel t else t
  let t := g_defcodelabel (s.nextLabel + 1) t
  DelLoop t

/-- The state in which `ForStatement` parses the initializer (stmt.c 646-658): the four
labels are allocated, `for` is skipped, the loop context is pushed and the opening
parenthesis is consumed. -/
def ForStatement.initStart (s : State) : State :=
  let (TestLabel, s) := GetLocalLabel s
  let (lab, s) := GetLocalLabel s
  let (IncLabel, s) := GetLocalLabel s
  let (lstat, s) := GetLocalLabel s
  let s := NextToken s
  let s := AddLoop s.oursp TestLabel lab IncLabel lstat s
  ConsumeLParen s

/-- The state in which `ForStatement` parses the test expression (stmt.c 667): the test
label is defined. -/
def ForStatement.testStart (X : Ext) (s : State) : State :=
  g_defcodelabel (s.nextLabel + 1) (ForStatement.afterInit X s)

/-- The state in which `ForStatement` parses the increment expression (stmt.c 685): the
increment label is defined. -/
def ForStatement.incrStart (X : Ext) (s : State) : State :=
  g_defcodelabel (s.nextLabel + 3) (ForStatement.afterTest X s)

/-- What one label of the cascade switch emits after the code of its constant: for a
`case` label the compare with its constant, followed by the jump on equality to the label
`l` (`caseEq`), by the jump on inequality to the label `l` (`caseNe`) or by nothing
(`caseOnly`); for a `default` label the jump to the label `l` (`defaultJump`) or nothing
(`defaultOnly`). -/
inductive CascadeEvent where
  | caseEq (Value : Int) (l : Nat)
  | caseNe (Value : Int) (l : Nat)
  | caseOnly (Value : Int)
  | defaultJump (l : Nat)
  | defaultOnly
  deriving DecidableEq, Repr

/-- The instructions an event stands for. -/
def CascadeEvent.code (X : Ext) (Flags : Nat) : CascadeEvent → List Instr
  | .caseEq val l => [Instr.cmp Flags val, Instr.falsejump X.CF_NONE l]
  | .caseNe val l => [Instr.cmp Flags val, Instr.truejump X.CF_NONE l]
  | .caseOnly val => [Instr.cmp Flags val]
  | .defaultJump l => [Instr.jump l]
  | .defaultOnly => []

/-- The event of one pass through the loop of `CascadeSwitch.labels` (stmt.c 368-458), for
the variables `v` and the state `s` at the label: the constant is the one `constexpr`
reads after the `case`, the branch is chosen by the token after the colon, and the
label is the one `needLabel` gives. -/
def CascadeSwitch.labelEvent (X : Ext) (v : CascadeVars) (s : State) : CascadeEvent :=
  if s.CurTok.Tok = TOK_CASE then
    let (lval, t) := X.constexpr (NextToken s)
    if t.NextTok.Tok = TOK_CASE then
      .caseEq lval.ConstVal (CascadeSwitch.needLabel v.CodeLab t).1
    else if t.NextTok.Tok ≠ TOK_DEFAULT then
      .caseNe lval.ConstVal (CascadeSwitch.needLabel v.NextLab t).1
    else .caseOnly lval.ConstVal
  else
    let t := NextToken s
    if t.CurTok.Tok = TOK_CASE then .defaultJump (CascadeSwitch.needLabel v.CodeLab t).1
    else .defaultOnly

/-- The events of `CascadeSwitch.labels`, which follows the same path: one event per
label of the group. -/
def CascadeSwitch.labelsEvents (X : Ext) (Expr : ExprDesc) (Flags : Nat) :
    Nat → CascadeVars → State → List CascadeEvent
  | 0, _, _ => []
  | fuel + 1, v, s =>
    if s.CurTok.Tok = TOK_CASE ∨ s.CurTok.Tok = TOK_DEFAULT then
      if s.CurTok.Tok = TOK_CASE then
        match CascadeSwitch.caseLabel X Expr Flags v s with
        | .ok (v1, s1) =>
          CascadeSwitch.labelEvent X v s :: CascadeSwitch.labelsEvents X Expr Flags fuel v1 s1
        | _ => []
      else
        CascadeSwitch.labelEvent X v s ::
          CascadeSwitch.labelsEvents X Expr Flags fuel (CascadeSwitch.defaultLabel v s).1
            (CascadeSwitch.defaultLabel v s).2
    else []

/-- What one group of labels of the cascade switch keeps, for the variables before (`v`)
and after (`v'`) and the events `ev` in between: a label once allocated stays, every
jump on equality and every jump of a `default` goes to the code label, every jump on
inequality goes to the next-label. -/
def CascadeEvInv (v v' : CascadeVars) (ev : List CascadeEvent) : Prop :=
  (v.CodeLab ≠ 0 → v'.CodeLab = v.CodeLab) ∧
  (v.NextLab ≠ 0 → v'.NextLab = v.NextLab) ∧
  v'.HaveBreak = v.HaveBreak ∧
  (∀ val l, CascadeEvent.caseEq val l ∈ ev → l = v'.CodeLab ∧ l ≠ 0) ∧
  (∀ val l, CascadeEvent.caseNe val l ∈ ev → l = v'.NextLab ∧ l ≠ 0) ∧
  (∀ l, CascadeEvent.defaultJump l ∈ ev → l = v'.CodeLab ∧ l ≠ 0)

/-- What a run of the statement compilers does that concerns labels: this module
allocates the label `l` by a call of `GetLocalLabel` (`alloc`), or a collaborator is
called in the state `pre` and returns in the state `post` (`call`). -/
inductive LabelEvent where
  | alloc (l : Nat)
  | call (pre post : State)
  deriving DecidableEq

/-- The trace of `ReturnStatement`, which follows the same path: the calls of
`expression` and `assignadjust`. -/
def ReturnStatement.trace (X : Ext) (s : State) : List LabelEvent :=
  let s := NextToken s
  if s.CurTok.Tok ≠ TOK_SEMI then
    let s := if s.CurrentFunc.HasVoidReturn then
        Error "Returning a value in function with return type void" s else s
    let (lval, t) := X.expression s
    .call s t ::
      (if ¬ t.CurrentFunc.HasVoidReturn then
        [.call t (X.assignadjust t.CurrentFunc.ReturnType lval t)]
       else [])
  else []

/-- The trace of `IfStatement`, which follows the same path; `tr` is the trace of the
statement parser `Statement`. -/
def IfStatement.trace (X : Ext) (Statement : StmtFn) (tr : Slot → State → List LabelEvent)
    (s : State) : List LabelEvent :=
  let s := NextToken s
  let (Label1, s1) := GetLocalLabel s
  let s2 := X.test Label1 0 s1
  [.alloc Label1, .call s1 s2] ++ tr none s2 ++
    match Statement none s2 with
    | .ok (_, _, s3) =>
      if s3.CurTok.Tok ≠ TOK_ELSE then []
      else
        let (Label2, s4) := GetLocalLabel s3
        let s5 := g_jump Label2 s4
        let s5 := NextToken s5
        let s5 := g_defcodelabel Label1 s5
        .alloc Label2 :: tr none s5
    | _ => []

/-- The state in which `WhileStatement` compiles the condition (stmt.c 187-198). -/
def WhileStatement.testStart (s : State) : State :=
  let (loop, s) := GetLocalLabel s
  let (lab, s) := GetLocalLabel s
  let s := NextToken s
  let s := AddLoop s.oursp loop lab 0 0 s
  g_defcodelabel loop s

/-- The trace of `WhileStatement`, which follows the same path. -/
def WhileStatement.trace (X : Ext) (tr : Slot → State → List LabelEvent) (s : State) :
    List LabelEvent :=
  [.alloc (s.nextLabel + 1), .alloc (s.nextLabel + 2),
   .call (WhileStatement.testStart s) (X.test (s.nextLabel + 2) 0 (WhileStatement.testStart s))]
    ++ tr (some 0) (WhileStatement.bodyStart X s)

/-- The trace of `DoStatement`, which follows the same path. -/
def DoStatement.trace (X : Ext) (Statement : StmtFn) (tr : Slot → State → List LabelEvent)
    (s : State) : List LabelEvent :=
  [.alloc (s.nextLabel + 1), .alloc (s.nextLabel + 2)] ++ tr none (DoStatement.bodyStart s) ++
    match Statement none (DoStatement.bodyStart s) with
    | .ok (_, _, s1) =>
      let t := Consume TOK_WHILE "`while' expected" s1
      [.call t (X.test (s.nextLabel + 1) 1 t)]
    | _ => []

/-- The trace of `ForStatement`, which follows the same path. -/
def ForStatement.trace (X : Ext) (tr : Slot → State → List LabelEvent) (s : State) :
    List LabelEvent :=
  [.alloc (s.nextLabel + 1), .alloc (s.nextLabel + 2), .alloc (s.nextLabel + 3),
   .alloc (s.nextLabel + 4)] ++
  (if (ForStatement.initStart s).CurTok.Tok ≠ TOK_SEMI then
    [.call (ForStatement.initStart s) (X.expression (ForStatement.initStart s)).2]
   else []) ++
  (if (ForStatement.testStart X s).CurTok.Tok ≠ TOK_SEMI then
    [.call (ForStatement.testStart X s) (X.boolexpr (ForStatement.testStart X s)).2]
   else []) ++
  (if (ForStatement.incrStart X s).CurTok.Tok ≠ TOK_RPAREN then
    [.call (ForStatement.incrStart X s) (X.expression (ForStatement.incrStart X s)).2]
   else []) ++
  tr (some 0) (ForStatement.bodyStart X s)

/-- The trace of `CascadeSwitch.needLabel`: a label is allocated if there is none. -/
def CascadeSwitch.needTrace (Lab : Nat) (s : State) : List LabelEvent :=
  if Lab = 0 then [.alloc (s.nextLabel + 1)] else []

/-- The trace of `CascadeSwitch.caseLabel`: the call of `constexpr` and the label that
`caseJump` needs. -/
def CascadeSwitch.caseTrace (X : Ext) (v : CascadeVars) (s : State) : List LabelEvent :=
  let s := NextToken s
  let t := (X.constexpr s).2
  .call s t ::
    (if t.NextTok.Tok = TOK_CASE then CascadeSwitch.needTrace v.CodeLab t
     else if t.NextTok.Tok ≠ TOK_DEFAULT then CascadeSwitch.needTrace v.NextLab t
     else [])

/-- The trace of `CascadeSwitch.defaultLabel`. -/
def CascadeSwitch.defaultTrace (v : CascadeVars) (s : State) : List LabelEvent :=
  let s := NextToken s
  if s.CurTok.Tok = TOK_CASE then CascadeSwitch.needTrace v.CodeLab s else []

/-- The trace of `CascadeSwitch.labels`, which follows the same path. -/
def CascadeSwitch.labelsTrace (X : Ext) (Expr : ExprDesc) (Flags : Nat) :
    Nat → CascadeVars → State → List LabelEvent
  | 0, _, _ => []
  | fuel + 1, v, s =>
    if s.CurTok.Tok = TOK_CASE ∨ s.CurTok.Tok = TOK_DEFAULT then
      if s.CurTok.Tok = TOK_CASE then
        CascadeSwitch.caseTrace X v s ++
          match CascadeSwitch.caseLabel X Expr Flags v s with
          | .ok (v, s) => CascadeSwitch.labelsTrace X Expr Flags fuel v s
          | _ => []
      else
        CascadeSwitch.defaultTrace v s ++
          CascadeSwitch.labelsTrace X Expr Flags fuel (CascadeSwitch.defaultLabel v s).1
            (CascadeSwitch.defaultLabel v s).2
    else []

/-- The trace of `CascadeSwitch.groupStart`. -/
def CascadeSwitch.groupTrace (v : CascadeVars) (s : State) : List LabelEvent :=
  if v.HaveBreak = 0 then CascadeSwitch.needTrace v.CodeLab s else []

/-- The trace of `CascadeSwitch.body`, which follows the same path. -/
def CascadeSwitch.bodyTrace (X : Ext) (Statement : StmtFn)
    (tr : Slot → State → List LabelEvent) (Expr : ExprDesc) (Flags : Nat) :
    Nat → CascadeVars → State → List LabelEvent
  | 0, _, _ => []
  | fuel + 1, v, s =>
    if s.CurTok.Tok ≠ TOK_RCURLY then
      let e : List LabelEvent :=
        if s.CurTok.Tok = TOK_CASE ∨ s.CurTok.Tok = TOK_DEFAULT then
          CascadeSwitch.groupTrace v s ++
            CascadeSwitch.labelsTrace X Expr Flags fuel (CascadeSwitch.groupStart v s).1
              (CascadeSwitch.groupStart v s).2
        else []
      let r : Outcome (CascadeVars × State) :=
        if s.CurTok.Tok = TOK_CASE ∨ s.CurTok.Tok = TOK_DEFAULT then
          let (v, s) := CascadeSwitch.groupStart v s
          CascadeSwitch.labels X Expr Flags fuel v s
        else .ok (v, s)
      e ++
        match r with
        | .ok (v, s) =>
          let (v, s) := CascadeSwitch.codeLabel v s
          if s.CurTok.Tok ≠ TOK_RCURLY then
            tr none s ++
              match Statement none s with
              | .ok (r, _, s) =>
                CascadeSwitch.bodyTrace X Statement tr Expr Flags fuel { v with HaveBreak := r } s
              | _ => []
          else CascadeSwitch.bodyTrace X Statement tr Expr Flags fuel v s
        | _ => []
    else []

/-- The trace of `CascadeSwitch`, which follows the same path. -/
def CascadeSwitch.trace (X : Ext) (Statement : StmtFn) (tr : Slot → State → List LabelEvent)
    (fuel : Nat) (Expr : ExprDesc) (s : State) : List LabelEvent :=
  .alloc (s.nextLabel + 1) ::
    CascadeSwitch.bodyTrace X Statement tr Expr
      (X.TypeOf Expr.Type_ ||| X.CF_CONST ||| X.CF_FORCECHAR) fuel ⟨0, 0, 1, 0, 0⟩
      (CascadeSwitch.start s)

/-- The trace of `TableSwitch.label`. -/
def TableSwitch.labelTrace (X : Ext) (v : TableVars) (s : State) : List LabelEvent :=
  if s.CurTok.Tok = TOK_CASE then
    let s := NextToken s
    let t := (X.constexpr s).2
    [.call s t, .alloc (t.nextLabel + 1)]
  else if v.DefaultLabel = 0 then [.alloc (s.nextLabel + 1)]
  else []

/-- The trace of `TableSwitch.labels`, which follows the same path. -/
def TableSwitch.labelsTrace (X : Ext) : Nat → TableVars → State → List LabelEvent
  | 0, _, _ => []
  | fuel + 1, v, s =>
    TableSwitch.labelTrace X v s ++
      (if (TableSwitch.label X v s).2.CurTok.Tok = TOK_CASE ∨
          (TableSwitch.label X v s).2.CurTok.Tok = TOK_DEFAULT then
        TableSwitch.labelsTrace X fuel (TableSwitch.label X v s).1 (TableSwitch.label X v s).2
       else [])

/-- The trace of `TableSwitch.body`, which follows the same path. -/
def TableSwitch.bodyTrace (X : Ext) (Statement : StmtFn)
    (tr : Slot → State → List LabelEvent) : Nat → TableVars → State → List LabelEvent
  | 0, _, _ => []
  | fuel + 1, v, s =>
    if s.CurTok.Tok ≠ TOK_RCURLY then
      let e : List LabelEvent :=
        if s.CurTok.Tok = TOK_CASE ∨ s.CurTok.Tok = TOK_DEFAULT then
          TableSwitch.labelsTrace X fuel v s
        else []
      let r : Outcome (TableVars × State) :=
        if s.CurTok.Tok = TOK_CASE ∨ s.CurTok.Tok = TOK_DEFAULT then
          (TableSwitch.labels X fuel v s).bind fun (v, s) =>
          .ok ({ v with HaveBreak := 0 }, s)
        else .ok (v, s)
      e ++
        match r with
        | .ok (v, s) =>
          if s.CurTok.Tok ≠ TOK_RCURLY then
            tr none s ++
              match Statement none s with
              | .ok (r, _, s) =>
                TableSwitch.bodyTrace X Statement tr fuel { v with HaveBreak := r } s
              | _ => []
          else TableSwitch.bodyTrace X Statement tr fuel v s
        | _ => []
    else []

/-- The trace of `TableSwitch`, which follows the same path. -/
def TableSwitch.trace (X : Ext) (Statement : StmtFn) (tr : Slot → State → List LabelEvent)
    (fuel : Nat) (s : State) : List LabelEvent :=
  [.alloc (s.nextLabel + 1), .alloc (s.nextLabel + 2)] ++
    TableSwitch.bodyTrace X Statement tr fuel ⟨0, 0, []⟩ (TableSwitch.start s)

/-- The state in which `SwitchStatement` parses the selector (stmt.c 612-615). -/
def SwitchStatement.exprStart (s : State) : State :=
  let s := NextToken s
  ConsumeLParen s

/-- The state in which `SwitchStatement` calls the switch compiler (stmt.c 616-620). -/
def SwitchStatement.bodyStart (X : Ext) (s : State) : State :=
  let (_, s) := X.intexpr (SwitchStatement.exprStart s)
  let s := ConsumeRParen s
  ConsumeLCurly s

/-- The trace of `SwitchStatement`, which follows the same path. -/
def SwitchStatement.trace (X : Ext) (Statement : StmtFn) (tr : Slot → State → List LabelEvent)
    (fuel : Nat) (s : State) : List LabelEvent :=
  .call (SwitchStatement.exprStart s) (X.intexpr (SwitchStatement.exprStart s)).2 ::
    (if SwitchStatement.useCascade (SwitchStatement.bodyStart X s).CodeSizeFactor
        (X.intexpr (SwitchStatement.exprStart s)).1.Type_ then
      CascadeSwitch.trace X Statement tr fuel (X.intexpr (SwitchStatement.exprStart s)).1
        (SwitchStatement.bodyStart X s)
     else
      TableSwitch.trace X Statement tr fuel (SwitchStatement.bodyStart X s))

/-- The trace of `CompoundStatement.loop`, which follows the same path. -/
def CompoundStatement.loopTrace (Statement : StmtFn) (tr : Slot → State → List LabelEvent) :
    Nat → State → List LabelEvent
  | 0, _ => []
  | fuel + 1, s =>
    if s.CurTok.Tok ≠ TOK_RCURLY then
      if s.CurTok.Tok ≠ TOK_CEOF then
        tr none s ++
          match Statement none s with
          | .ok (_, _, s) => CompoundStatement.loopTrace Statement tr fuel s
          | _ => []
      else []
    else []

/-- The trace of `CompoundStatement`, which follows the same path. -/
def CompoundStatement.trace (X : Ext) (Statement : StmtFn)
    (tr : Slot → State → List LabelEvent) (fuel : Nat) (s : State) : List LabelEvent :=
  let OldStack := s.oursp
  let s1 := X.EnterBlockLevel s
  let s2 := X.DeclareLocals s1
  [.call s s1, .call s1 s2] ++ CompoundStatement.loopTrace Statement tr fuel s2 ++
    match CompoundStatement.loop Statement fuel 0 s2 with
    | .ok (GotBreak, s3) =>
      let s3 := if GotBreak = 0 then g_space (s3.oursp - OldStack) s3 else s3
      let s3 := { s3 with oursp := OldStack }
      let s4 := X.EmitExternals s3
      [.call s3 s4, .call s4 (X.LeaveBlockLevel s4)]
    | _ => []

/-- The trace of `Statement`, which follows the same path: the labels the statement
compilers allocate and the calls of collaborators they make, in their order. -/
def Statement.trace (X : Ext) : Nat → Slot → State → List LabelEvent
  | 0, _, _ => []
  | fuel + 1, _, s =>
    if s.CurTok.Tok = TOK_IDENT ∧ s.NextTok.Tok = TOK_COLON then
      [.call s (X.DoLabel s)]
    else
      match s.CurTok.Tok with
      | TOK_LCURLY =>
        CompoundStatement.trace X (Statement X fuel) (Statement.trace X fuel) fuel (NextToken s)
      | TOK_IF => IfStatement.trace X (Statement X fuel) (Statement.trace X fuel) s
      | TOK_WHILE => WhileStatement.trace X (Statement.trace X fuel) s
      | TOK_DO => DoStatement.trace X (Statement X fuel) (Statement.trace X fuel) s
      | TOK_SWITCH => SwitchStatement.trace X (Statement X fuel) (Statement.trace X fuel) fuel s
      | TOK_RETURN => ReturnStatement.trace X s
      | TOK_BREAK => []
      | TOK_CONTINUE => []
      | TOK_FOR => ForStatement.trace X (Statement.trace X fuel) s
      | TOK_GOTO => [.call s (X.GotoStatement s)]
      | TOK_SEMI => []
      | TOK_PRAGMA => [.call s (X.DoPragma s)]
      | _ => [.call s (X.expression s).2]

/-- A call of a collaborator from the state `t` to the state `u` that does not take the
label counter back, only adds to the end of the code, and defines none of the labels of
`A` in the code it adds. -/
def CallOK (A : List Nat) (t u : State) : Prop :=
  t.nextLabel ≤ u.nextLabel ∧ u.code.take t.code.length = t.code ∧
    ∀ l ∈ A, defCount l (added t u) = 0

/-- An event is harmless for the labels of `A`: it is an allocation of this module, or a
call of a collaborator that is `CallOK`. -/
def LabelEvent.ok (A : List Nat) : LabelEvent → Prop
  | .alloc _ => True
  | .call t u => CallOK A t u

/-- Every call of a collaborator in the trace is `CallOK`. -/
def CallsOK (A : List Nat) (ev : List LabelEvent) : Prop := ∀ e ∈ ev, e.ok A

instance CallOK.decide (A : List Nat) (t u : State) : Decidable (CallOK A t u) :=
  inferInstanceAs (Decidable (_ ∧ _ ∧ _))

instance LabelEvent.okDecide (A : List Nat) : (e : LabelEvent) → Decidable (e.ok A)
  | .alloc _ => isTrue trivial
  | .call t u => inferInstanceAs (Decidable (CallOK A t u))

instance CallsOK.decide (A : List Nat) (ev : List LabelEvent) : Decidable (CallsOK A ev) :=
  inferInstanceAs (Decidable (∀ e ∈ ev, e.ok A))

set_option linter.unusedTactic false

theorem Outcome_bind_eq_ok {α β : Type} (o : Outcome α) (f : α → Outcome β) (b : β) :
    o.bind f = .ok b ↔ ∃ a, o = .ok a ∧ f a = .ok b := by
  cases o <;> simp [Outcome.bind]

theorem IfStatement_flag (X : Ext) (stmt : StmtFn) (hs : FlagOK stmt) (s : State)
    (r : Nat) (s' : State) (h : IfStatement X stmt s = .ok (r, s')) : r ≤ 1 := by
  simp only [IfStatement, GetLocalLabel, Outcome_bind_eq_ok] at h
  obtain ⟨⟨a, Pa, s1⟩, h1, h2⟩ := h
  simp only at h2
  split at h2
  · simp at h2; omega
  · simp only [Outcome_bind_eq_ok] at h2
    obtain ⟨⟨b, Pb, s2⟩, h3, h4⟩ := h2
    simp at h4
    have ha := hs _ _ _ _ _ h1
    have := @Nat.and_le_left a b
    omega

theorem Compound_loop_flag (stmt : StmtFn) (hs : FlagOK stmt) (fuel : Nat) :
    ∀ (g : Nat) (s : State) (r : Nat) (s' : State), g ≤ 1 →
      CompoundStatement.loop stmt fuel g s = .ok (r, s') → r ≤ 1 := by
  induction fuel with
  | zero => intro g s r s' _ h; simp [CompoundStatement.loop] at h
  | succ k ih =>
    intro g s r s' hg h
    simp only [CompoundStatement.loop] at h
    split at h
    · split at h
      · simp only [Outcome_bind_eq_ok] at h
        obtain ⟨⟨a, Pa, s1⟩, h1, h2⟩ := h
        exact ih a s1 r s' (hs _ _ _ _ _ h1) h2
      · simp at h; omega
    · simp at h; omega

theorem CompoundStatement_flag (X : Ext) (stmt : StmtFn) (hs : FlagOK stmt) (fuel : Nat)
    (s : State) (r : Nat) (s' : State)
    (h : CompoundStatement X stmt fuel s = .ok (r, s')) : r ≤ 1 := by
  simp only [CompoundStatement, Outcome_bind_eq_ok] at h
  obtain ⟨⟨a, s1⟩, h1, h2⟩ := h
  simp at h2
  have := Compound_loop_flag stmt hs fuel 0 _ _ _ (by omega) h1
  omega

theorem Statement_flag (X : Ext) (n : Nat) : FlagOK (Statement X n) := by
  induction n with
  | zero => intro P s r P' s' h; simp [Statement] at h
  | succ n ih =>
    intro P s r P' s' h
    simp only [Statement] at h
    split at h
    · simp at h; omega
    · split at h
      · simp only [Outcome_bind_eq_ok] at h
        obtain ⟨⟨a, s1⟩, h1, h2⟩ := h
        simp at h2
        have := CompoundStatement_flag X _ ih _ _ _ _ h1
        omega
      · simp only [Outcome_bind_eq_ok] at h
        obtain ⟨⟨a, s1⟩, h1, h2⟩ := h
        simp at h2
        have := IfStatement_flag X _ ih _ _ _ h1
        omega
      all_goals first
        | omega
        | (simp at h; omega)
        | (simp only [Outcome_bind_eq_ok] at h
           obtain ⟨a, h1, h2⟩ := h
           simp at h2; omega)

theorem searchLoop_skip (pre : List LoopDesc) (rest : List LoopDesc)
    (h : ∀ M ∈ pre, M.Loop = 0) : searchLoop (pre ++ rest) = searchLoop rest := by
  induction pre with
  | nil => rfl
  | cons M pre ih =>
    have hM : M.Loop = 0 := h M (List.mem_cons_self _ _)
    have hpre : ∀ N ∈ pre, N.Loop = 0 := fun N hN => h N (List.mem_cons_of_mem _ hN)
    simp [searchLoop, hM, ih hpre]

theorem searchLoop_none (ls : List LoopDesc) (h : ∀ M ∈ ls, M.Loop = 0) :
    searchLoop ls = none := by
  have := searchLoop_skip ls [] h
  simpa [searchLoop] using this

theorem land_flag (a b : Nat) (ha : a ≤ 1) (hb : b ≤ 1) :
    a &&& b = if a = 1 ∧ b = 1 then 1 else 0 := by
  interval_cases a <;> interval_cases b <;> decide

theorem CheckTok_cases (Tok : token_t) (Msg : String) (g : Nat) (s : State) :
    (s.CurTok.Tok = Tok ∧ CheckTok Tok Msg (some g) s = (some 1, s) ∧
      CheckTok Tok Msg none s = (none, NextToken s)) ∨
    (s.CurTok.Tok ≠ Tok ∧ CheckTok Tok Msg (some g) s = (some g, Error Msg s) ∧
      CheckTok Tok Msg none s = (none, Error Msg s)) := by
  by_cases h : s.CurTok.Tok = Tok
  · left; simp [CheckTok, h]
  · right; simp [CheckTok, h]

/-- The three facts about `CheckTok` that the pending-token protocol rests on. -/
theorem CheckTok_protocol (Tok : token_t) (Msg : String) (s : State)
    (hT : Tok = TOK_SEMI ∨ Tok = TOK_RCURLY) :
    ((CheckTok Tok Msg (some 0) s).1 = some 0 ∨
      ((CheckTok Tok Msg (some 0) s).1 = some 1 ∧
        ((CheckTok Tok Msg (some 0) s).2.CurTok.Tok = TOK_SEMI ∨
         (CheckTok Tok Msg (some 0) s).2.CurTok.Tok = TOK_RCURLY))) ∧
    CheckTok Tok Msg none s =
      (none, SkipPending ((CheckTok Tok Msg (some 0) s).1.getD 0)
        (CheckTok Tok Msg (some 0) s).2) := by
  rcases CheckTok_cases Tok Msg 0 s with ⟨hc, h1, h2⟩ | ⟨hc, h1, h2⟩
  · rw [h1, h2]
    refine ⟨Or.inr ⟨rfl, ?_⟩, ?_⟩
    · rcases hT with hT | hT <;> simp [hc, hT]
    · simp [SkipPending]
  · rw [h1, h2]
    exact ⟨Or.inl rfl, by simp [SkipPending]⟩

theorem shape_check {r0 : Nat} {Tok0 : token_t} {Msg0 : String} {s0 : State}
    (hT : Tok0 = TOK_SEMI ∨ Tok0 = TOK_RCURLY) :
    ∀ (r : Nat) (Tok : token_t) (Msg : String) (s1 : State),
      (Outcome.ok (r0, some (Tok0, Msg0), s0) :
        Outcome (Nat × Option (token_t × String) × State)) = .ok (r, some (Tok, Msg), s1) →
      Tok = TOK_SEMI ∨ Tok = TOK_RCURLY := by
  intro r Tok Msg s1 h
  simp only [Outcome.ok.injEq, Prod.mk.injEq, Option.some.injEq] at h
  obtain ⟨-, ⟨h1, -⟩, -⟩ := h
  exact h1 ▸ hT

theorem shape_none {r0 : Nat} {s0 : State} :
    ∀ (r : Nat) (Tok : token_t) (Msg : String) (s1 : State),
      (Outcome.ok (r0, none, s0) :
        Outcome (Nat × Option (token_t × String) × State)) = .ok (r, some (Tok, Msg), s1) →
      Tok = TOK_SEMI ∨ Tok = TOK_RCURLY := by
  intro r Tok Msg s1 h
  simp at h

theorem shape_bind {α : Type} (o : Outcome α)
    (f : α → Nat × Option (token_t × String) × State)
    (hf : ∀ a Tok Msg, (f a).2.1 = some (Tok, Msg) → Tok = TOK_SEMI ∨ Tok = TOK_RCURLY) :
    ∀ (r : Nat) (Tok : token_t) (Msg : String) (s1 : State),
      o.bind (fun a => .ok (f a)) = .ok (r, some (Tok, Msg), s1) →
      Tok = TOK_SEMI ∨ Tok = TOK_RCURLY := by
  intro r Tok Msg s1 h
  simp only [Outcome_bind_eq_ok, Outcome.ok.injEq] at h
  obtain ⟨a, _, h2⟩ := h
  exact hf a Tok Msg (by rw [h2])

/-- The slot passed to `Statement` is used by the last `CheckTok` only. -/
theorem Statement_shape (X : Ext) (n : Nat) (s : State) :
    ∃ o : Outcome (Nat × Option (token_t × String) × State),
      (∀ r Tok Msg s1, o = .ok (r, some (Tok, Msg), s1) → Tok = TOK_SEMI ∨ Tok = TOK_RCURLY) ∧
      ∀ Q : Slot, Statement X (n + 1) Q s = o.bind (Statement.finish Q) := by
  by_cases hl : s.CurTok.Tok = TOK_IDENT ∧ s.NextTok.Tok = TOK_COLON
  · exact ⟨.ok (0, none, X.DoLabel s), shape_none,
      fun Q => by simp [Statement, hl, Outcome.bind, Statement.finish]⟩
  · have hl' : s.CurTok.Tok = TOK_IDENT → ¬ s.NextTok.Tok = TOK_COLON :=
      fun h1 h2 => hl ⟨h1, h2⟩
    cases hc : s.CurTok.Tok
    all_goals first
      | (refine ⟨.ok (0, some (TOK_SEMI, "`;' expected"), (X.expression s).2),
          shape_check (Or.inl rfl), fun Q => ?_⟩
         simp [Statement, hc, hl' hc, Outcome.bind, Statement.finish, CheckSemi]; done)
      | (refine ⟨.ok (0, some (TOK_SEMI, "`;' expected"), (X.expression s).2),
          shape_check (Or.inl rfl), fun Q => ?_⟩
         simp [Statement, hl, hc, Outcome.bind, Statement.finish, CheckSemi]; done)
      | (refine ⟨.ok (1, some (TOK_SEMI, "`;' expected"), ReturnStatement X s),
          shape_check (Or.inl rfl), fun Q => ?_⟩
         simp [Statement, hl, hc, Outcome.bind, Statement.finish, CheckSemi]; done)
      | (refine ⟨.ok (1, some (TOK_SEMI, "`;' expected"), BreakStatement s),
          shape_check (Or.inl rfl), fun Q => ?_⟩
         simp [Statement, hl, hc, Outcome.bind, Statement.finish, CheckSemi]; done)
      | (refine ⟨.ok (1, some (TOK_SEMI, "`;' expected"), ContinueStatement s),
          shape_check (Or.inl rfl), fun Q => ?_⟩
         simp [Statement, hl, hc, Outcome.bind, Statement.finish, CheckSemi]; done)
      | (refine ⟨.ok (1, some (TOK_SEMI, "`;' expected"), X.GotoStatement s),
          shape_check (Or.inl rfl), fun Q => ?_⟩
         simp [Statement, hl, hc, Outcome.bind, Statement.finish, CheckSemi]; done)
      | (refine ⟨.ok (0, none, NextToken s), shape_none, fun Q => ?_⟩
         simp [Statement, hl, hc, Outcome.bind, Statement.finish]; done)
      | (refine ⟨.ok (0, none, X.DoPragma s), shape_none, fun Q => ?_⟩
         simp [Statement, hl, hc, Outcome.bind, Statement.finish]; done)
      | (refine ⟨(CompoundStatement X (Statement X n) n (NextToken s)).bind
            fun x => .ok (x.1, some (TOK_RCURLY, "`\x7b' expected"), x.2),
          shape_bind _ _ (fun a Tok Msg h => by simp at h; exact Or.inr h.1.symm),
          fun Q => ?_⟩
         simp only [Statement, hl, hc, if_false]
         cases CompoundStatement X (Statement X n) n (NextToken s) <;>
           simp [Outcome.bind, Statement.finish]
         done)
      | (refine ⟨(IfStatement X (Statement X n) s).bind fun x => .ok (x.1, none, x.2),
          shape_bind _ _ (fun a Tok Msg h => by simp at h), fun Q => ?_⟩
         simp only [Statement, hl, hc, if_false]
         cases IfStatement X (Statement X n) s <;> simp [Outcome.bind, Statement.finish]
         done)
      | (refine ⟨(WhileStatement X (Statement X n) s).bind fun x => .ok (0, none, x),
          shape_bind _ _ (fun a Tok Msg h => by simp at h), fun Q => ?_⟩
         simp only [Statement, hl, hc, if_false]
         cases WhileStatement X (Statement X n) s <;> simp [Outcome.bind, Statement.finish]
         done)
      | (refine ⟨(DoStatement X (Statement X n) s).bind fun x => .ok (0, none, x),
          shape_bind _ _ (fun a Tok Msg h => by simp at h), fun Q => ?_⟩
         simp only [Statement, hl, hc, if_false]
         cases DoStatement X (Statement X n) s <;> simp [Outcome.bind, Statement.finish]
         done)
      | (refine ⟨(ForStatement X (Statement X n) s).bind fun x => .ok (0, none, x),
          shape_bind _ _ (fun a Tok Msg h => by simp at h), fun Q => ?_⟩
         simp only [Statement, hl, hc, if_false]
         cases ForStatement X (Statement X n) s <;> simp [Outcome.bind, Statement.finish]
         done)
      | (refine ⟨(SwitchStatement X (Statement X n) n s).bind fun x => .ok (0, none, x),
          shape_bind _ _ (fun a Tok Msg h => by simp at h), fun Q => ?_⟩
         simp only [Statement, hl, hc, if_false]
         cases SwitchStatement X (Statement X n) n s <;> simp [Outcome.bind, Statement.finish]
         done)

@[simp] theorem NextToken_loops (s : State) : (NextToken s).loops = s.loops := rfl
@[simp] theorem Error_loops (m : String) (s : State) : (Error m s).loops = s.loops := rfl
@[simp] theorem Warning_loops (m : String) (s : State) : (Warning m s).loops = s.loops := rfl
@[simp] theorem emit_loops (i : Instr) (s : State) : (emit i s).loops = s.loops := rfl
@[simp] theorem GetLocalLabel_loops (s : State) : (GetLocalLabel s).2.loops = s.loops := rfl
@[simp] theorem MoveCode_loops (a b c : Nat) (s : State) :
    (MoveCode a b c s).loops = s.loops := rfl
@[simp] theorem AddLoop_loops (sp : Int) (a b c d : Nat) (s : State) :
    (AddLoop sp a b c d s).loops = ⟨sp, a, b, c, d⟩ :: s.loops := rfl
@[simp] theorem DelLoop_loops (s : State) : (DelLoop s).loops = s.loops.tail := rfl

@[simp] theorem Consume_loops (t : token_t) (m : String) (s : State) :
    (Consume t m s).loops = s.loops := by
  unfold Consume; split <;> rfl

@[simp] theorem SkipPending_loops (p : Nat) (s : State) :
    (SkipPending p s).loops = s.loops := by
  unfold SkipPending; split <;> rfl

@[simp] theorem CheckTok_loops (t : token_t) (m : String) (P : Slot) (s : State) :
    (CheckTok t m P s).2.loops = s.loops := by
  unfold CheckTok; split
  · rfl
  · split <;> rfl

@[simp] theorem rangeCheck_loops (t : type_t) (v : Int) (s s' : State)
    (h : CascadeSwitch.rangeCheck t v s = .ok s') : s'.loops = s.loops := by
  unfold CascadeSwitch.rangeCheck at h
  split at h <;> simp at h <;> subst h <;> split <;> rfl

theorem ReturnStatement_loops (X : Ext) (hX : X.KeepsLoops) (s : State) :
    (ReturnStatement X s).loops = s.loops := by
  simp only [ReturnStatement, g_jump, g_space, emit_loops]
  split_ifs <;> simp [hX.assignadjust, hX.expression]

theorem BreakStatement_loops (s : State) : (BreakStatement s).loops = s.loops := by
  cases h : CurrentLoop (NextToken s) <;> simp [BreakStatement, h, g_jump, g_space]

theorem ContinueStatement_loops (s : State) : (ContinueStatement s).loops = s.loops := by
  cases h : searchLoop (NextToken s).loops <;>
    simp only [ContinueStatement, h, g_jump, g_space]
  · simp
  · split_ifs <;> simp

theorem IfStatement_loops (X : Ext) (hX : X.KeepsLoops) (stmt : StmtFn) (hs : KeepsLoops stmt)
    (s : State) (r : Nat) (s' : State) (h : IfStatement X stmt s = .ok (r, s')) :
    s'.loops = s.loops := by
  simp only [IfStatement, Outcome_bind_eq_ok] at h
  obtain ⟨⟨a, Pa, s1⟩, h1, h2⟩ := h
  have e1 := hs _ _ _ _ _ h1
  simp only at h2
  split at h2
  · simp at h2
    rw [← h2.2]
    simpa [g_defcodelabel, hX.test] using e1
  · simp only [Outcome_bind_eq_ok] at h2
    obtain ⟨⟨b, Pb, s2⟩, h3, h4⟩ := h2
    have e2 := hs _ _ _ _ _ h3
    simp at h4
    rw [← h4.2]
    simp [g_defcodelabel, g_jump, hX.test] at e1 e2 ⊢
    rw [e2, e1]

theorem DoStatement_loops (X : Ext) (hX : X.KeepsLoops) (stmt : StmtFn) (hs : KeepsLoops stmt)
    (s s' : State) (h : DoStatement X stmt s = .ok s') : s'.loops = s.loops := by
  simp only [DoStatement, Outcome_bind_eq_ok] at h
  obtain ⟨⟨a, Pa, s1⟩, h1, h2⟩ := h
  have e1 := hs _ _ _ _ _ h1
  simp at h2
  rw [← h2]
  simp [g_defcodelabel, ConsumeSemi, hX.test] at e1 ⊢
  rw [e1]; rfl

theorem WhileStatement_loops (X : Ext) (hX : X.KeepsLoops) (stmt : StmtFn)
    (hs : KeepsLoops stmt) (s s' : State) (h : WhileStatement X stmt s = .ok s') :
    s'.loops = s.loops := by
  simp only [WhileStatement, Outcome_bind_eq_ok] at h
  obtain ⟨⟨a, Pa, s1⟩, h1, h2⟩ := h
  have e1 := hs _ _ _ _ _ h1
  simp at h2
  rw [← h2]
  simp [g_defcodelabel, g_jump, hX.test] at e1 ⊢
  rw [e1]; rfl

theorem ForStatement_loops (X : Ext) (hX : X.KeepsLoops) (stmt : StmtFn)
    (hs : KeepsLoops stmt) (s s' : State) (h : ForStatement X stmt s = .ok s') :
    s'.loops = s.loops := by
  simp only [ForStatement, Outcome_bind_eq_ok] at h
  obtain ⟨⟨a, Pa, s1⟩, h1, h2⟩ := h
  have e1 := hs _ _ _ _ _ h1
  simp at h2
  rw [← h2]
  simp only [DelLoop_loops, g_defcodelabel, emit_loops, SkipPending_loops]
  have e3 : s1.loops = ⟨s.oursp, s.nextLabel + 1, s.nextLabel + 1 + 1, s.nextLabel + 1 + 1 + 1,
      s.nextLabel + 1 + 1 + 1 + 1⟩ :: s.loops := by
    rw [e1]
    simp only [g_defcodelabel, g_jump, g_truejump, emit_loops, ConsumeRParen, ConsumeSemi,
      ConsumeLParen, Consume_loops]
    split_ifs <;>
      simp [g_defcodelabel, g_jump, g_truejump, ConsumeRParen, ConsumeSemi,
        ConsumeLParen, hX.expression, hX.boolexpr, GetLocalLabel, AddLoop, NextToken]
  split_ifs <;> simp [e3, g_jump]

@[simp] theorem Cascade_needLabel_loops (l : Nat) (s : State) :
    (CascadeSwitch.needLabel l s).2.loops = s.loops := by
  unfold CascadeSwitch.needLabel; split <;> rfl

@[simp] theorem Cascade_caseJump_loops (X : Ext) (v : CascadeVars) (s : State) :
    (CascadeSwitch.caseJump X v s).2.loops = s.loops := by
  unfold CascadeSwitch.caseJump
  split_ifs <;> simp [g_falsejump, g_truejump]

theorem Cascade_caseLabel_loops (X : Ext) (hX : X.KeepsLoops) (Expr : ExprDesc)
    (Flags : Nat) (v : CascadeVars) (s : State) (v' : CascadeVars) (s' : State)
    (h : CascadeSwitch.caseLabel X Expr Flags v s = .ok (v', s')) : s'.loops = s.loops := by
  simp only [CascadeSwitch.caseLabel, Outcome_bind_eq_ok] at h
  obtain ⟨s1, h1, h2⟩ := h
  have e1 := rangeCheck_loops _ _ _ _ h1
  simp at h2
  rw [← h2.2]
  simp only [ConsumeColon, Consume_loops, Cascade_caseJump_loops, g_cmp, emit_loops, e1]
  split_ifs <;> simp [hX.constexpr]

@[simp] theorem Cascade_defaultLabel_loops (v : CascadeVars) (s : State) :
    (CascadeSwitch.defaultLabel v s).2.loops = s.loops := by
  unfold CascadeSwitch.defaultLabel
  simp only [ConsumeColon, Consume_loops]
  split_ifs <;> simp [g_jump]

@[simp] theorem Cascade_groupStart_loops (v : CascadeVars) (s : State) :
    (CascadeSwitch.groupStart v s).2.loops = s.loops := by
  unfold CascadeSwitch.groupStart
  split_ifs <;> simp [g_jump, g_defcodelabel] <;> split_ifs <;> simp

@[simp] theorem Cascade_codeLabel_loops (v : CascadeVars) (s : State) :
    (CascadeSwitch.codeLabel v s).2.loops = s.loops := by
  unfold CascadeSwitch.codeLabel
  split_ifs <;> simp [g_defcodelabel]

theorem Cascade_labels_loops (X : Ext) (hX : X.KeepsLoops) (Expr : ExprDesc)
    (Flags : Nat) (fuel : Nat) :
    ∀ (v : CascadeVars) (s : State) (v' : CascadeVars) (s' : State),
      CascadeSwitch.labels X Expr Flags fuel v s = .ok (v', s') → s'.loops = s.loops := by
  induction fuel with
  | zero => intro v s v' s' h; simp [CascadeSwitch.labels] at h
  | succ k ih =>
    intro v s v' s' h
    simp only [CascadeSwitch.labels] at h
    split at h
    · split at h
      · simp only [Outcome_bind_eq_ok] at h
        obtain ⟨⟨v1, s1⟩, h1, h2⟩ := h
        rw [ih _ _ _ _ h2, Cascade_caseLabel_loops X hX _ _ _ _ _ _ h1]
      · rw [ih _ _ _ _ h, Cascade_defaultLabel_loops]
    · simp at h; rw [← h.2]

theorem Cascade_body_loops (X : Ext) (hX : X.KeepsLoops) (stmt : StmtFn)
    (hs : KeepsLoops stmt) (Expr : ExprDesc) (Flags : Nat) (fuel : Nat) :
    ∀ (v : CascadeVars) (s : State) (v' : CascadeVars) (s' : State),
      CascadeSwitch.body X stmt Expr Flags fuel v s = .ok (v', s') → s'.loops = s.loops := by
  induction fuel with
  | zero => intro v s v' s' h; simp [CascadeSwitch.body] at h
  | succ k ih =>
    intro v s v' s' h
    simp only [CascadeSwitch.body] at h
    split at h
    · simp only [Outcome_bind_eq_ok] at h
      obtain ⟨⟨v1, s1⟩, h1, h2⟩ := h
      have e1 : s1.loops = s.loops := by
        split at h1
        · rw [Cascade_labels_loops X hX Expr Flags k _ _ _ _ h1,
            Cascade_groupStart_loops]
        · simp at h1; rw [← h1.2]
      simp only at h2
      split at h2
      · simp only [Outcome_bind_eq_ok] at h2
        obtain ⟨⟨a, Pa, s2⟩, h3, h4⟩ := h2
        rw [ih _ _ _ _ h4, hs _ _ _ _ _ h3, Cascade_codeLabel_loops, e1]
      · rw [ih _ _ _ _ h2, Cascade_codeLabel_loops, e1]
    · simp at h; rw [← h.2]

theorem CascadeSwitch_loops (X : Ext) (hX : X.KeepsLoops) (stmt : StmtFn)
    (hs : KeepsLoops stmt) (fuel : Nat) (Expr : ExprDesc) (s s' : State)
    (h : CascadeSwitch X stmt fuel Expr s = .ok s') : s'.loops = s.loops := by
  simp only [CascadeSwitch, Outcome_bind_eq_ok] at h
  obtain ⟨⟨v1, s1⟩, h1, h2⟩ := h
  have e1 := Cascade_body_loops X hX stmt hs _ _ _ _ _ _ _ h1
  simp at h2
  rw [← h2]
  simp only [DelLoop_loops, NextToken_loops, g_defcodelabel, emit_loops]
  split_ifs <;> simp [e1, g_defcodelabel]

@[simp] theorem Table_label_loops (X : Ext) (hX : X.KeepsLoops) (v : TableVars)
    (s : State) : (TableSwitch.label X v s).2.loops = s.loops := by
  unfold TableSwitch.label
  simp only [ConsumeColon, Consume_loops]
  split_ifs <;> simp [g_defcodelabel, hX.constexpr]

theorem Table_labels_loops (X : Ext) (hX : X.KeepsLoops) (fuel : Nat) :
    ∀ (v : TableVars) (s : State) (v' : TableVars) (s' : State),
      TableSwitch.labels X fuel v s = .ok (v', s') → s'.loops = s.loops := by
  induction fuel with
  | zero => intro v s v' s' h; simp [TableSwitch.labels] at h
  | succ k ih =>
    intro v s v' s' h
    simp only [TableSwitch.labels] at h
    split at h
    · rw [ih _ _ _ _ h, Table_label_loops X hX]
    · simp at h
      have := Table_label_loops X hX v s
      rw [h] at this
      exact this

theorem Table_body_loops (X : Ext) (hX : X.KeepsLoops) (stmt : StmtFn)
    (hs : KeepsLoops stmt) (fuel : Nat) :
    ∀ (v : TableVars) (s : State) (v' : TableVars) (s' : State),
      TableSwitch.body X stmt fuel v s = .ok (v', s') → s'.loops = s.loops := by
  induction fuel with
  | zero => intro v s v' s' h; simp [TableSwitch.body] at h
  | succ k ih =>
    intro v s v' s' h
    simp only [TableSwitch.body] at h
    split at h
    · simp only [Outcome_bind_eq_ok] at h
      obtain ⟨⟨v1, s1⟩, h1, h2⟩ := h
      have e1 : s1.loops = s.loops := by
        split at h1
        · simp only [Outcome_bind_eq_ok] at h1
          obtain ⟨⟨v0, s0⟩, h0, h1⟩ := h1
          have := Table_labels_loops X hX k _ _ _ _ h0
          simp at h1
          rw [← h1.2, this]
        · simp at h1; rw [← h1.2]
      simp only at h2
      split at h2
      · simp only [Outcome_bind_eq_ok] at h2
        obtain ⟨⟨a, Pa, s2⟩, h3, h4⟩ := h2
        have e2 := hs _ _ _ _ _ h3
        have e3 := ih _ _ _ _ h4
        rw [e3, e2, ← e1]
      · have e3 := ih _ _ _ _ h2
        rw [e3, ← e1]
    · simp at h; rw [← h.2]

@[simp] theorem Table_cases_loops (Flags : Nat) (tab : List SwitchEntry) :
    ∀ s : State, (TableSwitch.cases Flags tab s).loops = s.loops := by
  induction tab with
  | nil => intro s; rfl
  | cons P rest ih => intro s; simp [TableSwitch.cases, ih, g_case]

theorem TableSwitch_loops (X : Ext) (hX : X.KeepsLoops) (stmt : StmtFn)
    (hs : KeepsLoops stmt) (fuel : Nat) (Expr : ExprDesc) (s s' : State)
    (h : TableSwitch X stmt fuel Expr s = .ok s') : s'.loops = s.loops := by
  simp only [TableSwitch, Outcome_bind_eq_ok] at h
  obtain ⟨⟨v1, s1⟩, h1, h2⟩ := h
  have e1 := Table_body_loops X hX stmt hs _ _ _ _ _ h1
  simp at h2
  rw [← h2]
  simp only [DelLoop_loops, g_defcodelabel, emit_loops]
  split_ifs <;> simp [e1, g_defcodelabel, g_jump, g_defdata, g_switch]

theorem SwitchStatement_loops (X : Ext) (hX : X.KeepsLoops) (stmt : StmtFn)
    (hs : KeepsLoops stmt) (fuel : Nat) (s s' : State)
    (h : SwitchStatement X stmt fuel s = .ok s') : s'.loops = s.loops := by
  simp only [SwitchStatement] at h
  split at h
  · rw [CascadeSwitch_loops X hX stmt hs _ _ _ _ h]
    simp [ConsumeLCurly, ConsumeRParen, ConsumeLParen, hX.intexpr]
  · rw [TableSwitch_loops X hX stmt hs _ _ _ _ h]
    simp [ConsumeLCurly, ConsumeRParen, ConsumeLParen, hX.intexpr]

theorem Compound_loop_loops (stmt : StmtFn) (hs : KeepsLoops stmt) (fuel : Nat) :
    ∀ (g : Nat) (s : State) (r : Nat) (s' : State),
      CompoundStatement.loop stmt fuel g s = .ok (r, s') → s'.loops = s.loops := by
  induction fuel with
  | zero => intro g s r s' h; simp [CompoundStatement.loop] at h
  | succ k ih =>
    intro g s r s' h
    simp only [CompoundStatement.loop] at h
    split at h
    · split at h
      · simp only [Outcome_bind_eq_ok] at h
        obtain ⟨⟨a, Pa, s1⟩, h1, h2⟩ := h
        rw [ih _ _ _ _ h2, hs _ _ _ _ _ h1]
      · simp at h; rw [← h.2]
    · simp at h; rw [← h.2]

theorem CompoundStatement_loops (X : Ext) (hX : X.KeepsLoops) (stmt : StmtFn)
    (hs : KeepsLoops stmt) (fuel : Nat) (s : State) (r : Nat) (s' : State)
    (h : CompoundStatement X stmt fuel s = .ok (r, s')) : s'.loops = s.loops := by
  simp only [CompoundStatement, Outcome_bind_eq_ok] at h
  obtain ⟨⟨a, s1⟩, h1, h2⟩ := h
  have e1 := Compound_loop_loops stmt hs _ _ _ _ _ h1
  simp at h2
  rw [← h2.2]
  simp only [hX.LeaveBlockLevel, hX.EmitExternals]
  split_ifs <;> simp [e1, g_space, hX.DeclareLocals, hX.EnterBlockLevel]

theorem Statement_loops (X : Ext) (hX : X.KeepsLoops) (n : Nat) : KeepsLoops (Statement X n) := by
  induction n with
  | zero => intro P s r P' s' h; simp [Statement] at h
  | succ n ih =>
    intro P s r P' s' h
    simp only [Statement] at h
    split at h
    · simp at h; rw [← h.2.2, hX.DoLabel]
    · split at h
      · simp only [Outcome_bind_eq_ok] at h
        obtain ⟨⟨a, s1⟩, h1, h2⟩ := h
        simp only [Outcome.ok.injEq, Prod.mk.injEq] at h2
        rw [← h2.2.2, CheckTok_loops, CompoundStatement_loops X hX _ ih _ _ _ _ h1]
        rfl
      · simp only [Outcome_bind_eq_ok] at h
        obtain ⟨⟨a, s1⟩, h1, h2⟩ := h
        simp only [Outcome.ok.injEq, Prod.mk.injEq] at h2
        rw [← h2.2.2]
        exact IfStatement_loops X hX _ ih _ _ _ h1
      · simp only [Outcome_bind_eq_ok] at h
        obtain ⟨s1, h1, h2⟩ := h
        simp only [Outcome.ok.injEq, Prod.mk.injEq] at h2
        rw [← h2.2.2]
        exact WhileStatement_loops X hX _ ih _ _ h1
      · simp only [Outcome_bind_eq_ok] at h
        obtain ⟨s1, h1, h2⟩ := h
        simp only [Outcome.ok.injEq, Prod.mk.injEq] at h2
        rw [← h2.2.2]
        exact DoStatement_loops X hX _ ih _ _ h1
      · simp only [Outcome_bind_eq_ok] at h
        obtain ⟨s1, h1, h2⟩ := h
        simp only [Outcome.ok.injEq, Prod.mk.injEq] at h2
        rw [← h2.2.2]
        exact SwitchStatement_loops X hX _ ih _ _ _ h1
      · simp only [Outcome.ok.injEq, Prod.mk.injEq] at h
        rw [← h.2.2, CheckSemi, CheckTok_loops, ReturnStatement_loops X hX]
      · simp only [Outcome.ok.injEq, Prod.mk.injEq] at h
        rw [← h.2.2, CheckSemi, CheckTok_loops, BreakStatement_loops]
      · simp only [Outcome.ok.injEq, Prod.mk.injEq] at h
        rw [← h.2.2, CheckSemi, CheckTok_loops, ContinueStatement_loops]
      · simp only [Outcome_bind_eq_ok] at h
        obtain ⟨s1, h1, h2⟩ := h
        simp only [Outcome.ok.injEq, Prod.mk.injEq] at h2
        rw [← h2.2.2]
        exact ForStatement_loops X hX _ ih _ _ h1
      · simp only [Outcome.ok.injEq, Prod.mk.injEq] at h
        rw [← h.2.2, CheckSemi, CheckTok_loops, hX.GotoStatement]
      · simp only [Outcome.ok.injEq, Prod.mk.injEq] at h
        rw [← h.2.2, NextToken_loops]
      · simp only [Outcome.ok.injEq, Prod.mk.injEq] at h
        rw [← h.2.2, hX.DoPragma]
      · simp only [Outcome.ok.injEq, Prod.mk.injEq] at h
        rw [← h.2.2, CheckSemi, CheckTok_loops, hX.expression]

theorem demoExpr_loops (t : type_t) (s : State) : (demoExpr t s).2.loops = s.loops := by
  unfold demoExpr; split <;> rfl

theorem demoExt_KeepsLoops (t : type_t) : (demoExt t).KeepsLoops where
  expression := demoExpr_loops _
  boolexpr := demoExpr_loops _
  intexpr := demoExpr_loops _
  constexpr := fun s => by
    show (demoConst s).2.loops = s.loops
    unfold demoConst; split <;> rfl
  test := fun l i s => by
    show (demoTest l i s).loops = s.loops
    unfold demoTest
    simp only [ConsumeLParen, ConsumeRParen]
    split <;> simp [g_truejump, g_falsejump, demoExpr_loops]
  assignadjust := fun _ _ _ => rfl
  DeclareLocals := fun _ => rfl
  EnterBlockLevel := fun _ => rfl
  LeaveBlockLevel := fun _ => rfl
  EmitExternals := fun _ => rfl
  DoLabel := fun _ => rfl
  GotoStatement := fun _ => rfl
  DoPragma := fun _ => rfl

theorem rangeCheck_spec (t : type_t) (lo hi : Int) (h : specRange t = some (lo, hi))
    (Val : Int) (s : State) :
    CascadeSwitch.rangeCheck t Val s =
      .ok (if Val < lo ∨ hi < Val then Error "Range error" s else s) := by
  cases t <;> simp [specRange] at h <;> obtain ⟨rfl, rfl⟩ := h <;>
    simp [CascadeSwitch.rangeCheck]

@[simp] theorem needLabel_code (l : Nat) (s : State) :
    (CascadeSwitch.needLabel l s).2.code = s.code := by
  unfold CascadeSwitch.needLabel; split <;> rfl

@[simp] theorem needLabel_errors (l : Nat) (s : State) :
    (CascadeSwitch.needLabel l s).2.errors = s.errors := by
  unfold CascadeSwitch.needLabel; split <;> rfl

@[simp] theorem needLabel_toks (l : Nat) (s : State) :
    (CascadeSwitch.needLabel l s).2.toks = s.toks := by
  unfold CascadeSwitch.needLabel; split <;> rfl

theorem needLabel_ne_zero (l : Nat) (s : State) : (CascadeSwitch.needLabel l s).1 ≠ 0 := by
  unfold CascadeSwitch.needLabel; split <;> simp [GetLocalLabel, *]

theorem needLabel_of_ne_zero (l : Nat) (s : State) (h : l ≠ 0) :
    CascadeSwitch.needLabel l s = (l, s) := by
  simp [CascadeSwitch.needLabel, h]

@[simp] theorem caseJump_errors (X : Ext) (v : CascadeVars) (s : State) :
    (CascadeSwitch.caseJump X v s).2.errors = s.errors := by
  unfold CascadeSwitch.caseJump
  split_ifs <;> simp [g_falsejump, g_truejump, emit]

/-- The code appended by the branch after a compare. -/
theorem caseJump_code (X : Ext) (v : CascadeVars) (s : State) :
    (CascadeSwitch.caseJump X v s).2.code = s.code ++
      (if s.NextTok.Tok = TOK_CASE then
        [Instr.falsejump X.CF_NONE (CascadeSwitch.needLabel v.CodeLab s).1]
       else if s.NextTok.Tok ≠ TOK_DEFAULT then
        [Instr.truejump X.CF_NONE (CascadeSwitch.needLabel v.NextLab s).1]
       else []) := by
  unfold CascadeSwitch.caseJump
  split_ifs <;> simp [g_falsejump, g_truejump, emit]

theorem Consume_errors_count (t : token_t) (m e : String) (s : State) (h : m ≠ e) :
    (Consume t m s).errors.count e = s.errors.count e := by
  unfold Consume
  split
  · rfl
  · simp [Error, List.count_append, List.count_singleton, h]

@[simp] theorem Consume_code (t : token_t) (m : String) (s : State) :
    (Consume t m s).code = s.code := by
  unfold Consume; split <;> rfl

theorem Table_cases_code (Flags : Nat) (tab : List SwitchEntry) :
    ∀ s : State, (TableSwitch.cases Flags tab s).code =
      s.code ++ tab.map (fun P => Instr.case Flags P.Label P.Value) := by
  induction tab with
  | nil => intro s; simp [TableSwitch.cases]
  | cons P rest ih => intro s; simp [TableSwitch.cases, ih, g_case, emit]

@[simp] theorem Table_cases_toks (Flags : Nat) (tab : List SwitchEntry) :
    ∀ s : State, (TableSwitch.cases Flags tab s).toks = s.toks := by
  induction tab with
  | nil => intro s; rfl
  | cons P rest ih => intro s; simp [TableSwitch.cases, ih, g_case, emit]

theorem TableSwitch_ok (X : Ext) (stmt : StmtFn) (fuel : Nat) (Expr : ExprDesc)
    (s s' : State) (h : TableSwitch X stmt fuel Expr s = .ok s') :
    ∃ v s1, TableSwitch.body X stmt fuel ⟨0, 0, []⟩ (TableSwitch.start s) = .ok (v, s1) ∧
      s'.code = s1.code ++ TableSwitch.tail X Expr (s.nextLabel + 1) (s.nextLabel + 2) v ∧
      s'.toks = s1.toks.tail := by
  simp only [TableSwitch, Outcome_bind_eq_ok] at h
  obtain ⟨⟨v, s1⟩, h1, h2⟩ := h
  refine ⟨v, s1, h1, ?_, ?_⟩
  · simp only [Outcome.ok.injEq] at h2
    rw [← h2]
    simp only [TableSwitch.tail, DelLoop, g_defcodelabel, emit, g_switch, g_defdata,
      Table_cases_code, GetLocalLabel, g_jump]
    have hw : ∀ (c : Prop) [Decidable c], (if c then Warning "No case labels" s1 else s1).code
        = s1.code := by
      intro c _; split_ifs <;> rfl
    by_cases hb : v.HaveBreak = 0 <;> by_cases hd : v.DefaultLabel = 0 <;>
      simp [hb, hd, g_jump, emit, Table_cases_code, NextToken, AddLoop, hw]
  · simp only [Outcome.ok.injEq] at h2
    rw [← h2]
    simp only [DelLoop, g_defcodelabel, emit, g_switch, g_defdata, g_jump]
    split_ifs <;> simp [g_jump, emit, NextToken, Warning]

theorem needLabel_keep (l : Nat) (s : State) (h : l ≠ 0) :
    (CascadeSwitch.needLabel l s).1 = l := by
  rw [needLabel_of_ne_zero l s h]

/-- The branch after a compare, by the token after the colon. -/
theorem caseJump_spec (X : Ext) (v : CascadeVars) (s : State) :
    (s.NextTok.Tok = TOK_CASE →
      CascadeSwitch.caseJump X v s =
        ({ v with CodeLab := (CascadeSwitch.needLabel v.CodeLab s).1 },
         g_falsejump X.CF_NONE (CascadeSwitch.needLabel v.CodeLab s).1
           (CascadeSwitch.needLabel v.CodeLab s).2)) ∧
    (s.NextTok.Tok ≠ TOK_CASE → s.NextTok.Tok ≠ TOK_DEFAULT →
      CascadeSwitch.caseJump X v s =
        ({ v with NextLab := (CascadeSwitch.needLabel v.NextLab s).1 },
         g_truejump X.CF_NONE (CascadeSwitch.needLabel v.NextLab s).1
           (CascadeSwitch.needLabel v.NextLab s).2)) ∧
    (s.NextTok.Tok = TOK_DEFAULT → CascadeSwitch.caseJump X v s = (v, s)) := by
  refine ⟨?_, ?_, ?_⟩
  · intro h; simp [CascadeSwitch.caseJump, h]
  · intro h1 h2; simp [CascadeSwitch.caseJump, h1, h2]
  · intro h; simp [CascadeSwitch.caseJump, h]

theorem rangeCheck_code (t : type_t) (val : Int) (s s' : State)
    (h : CascadeSwitch.rangeCheck t val s = .ok s') : s'.code = s.code := by
  unfold CascadeSwitch.rangeCheck at h
  split at h <;> simp at h <;> subst h <;> split <;> rfl

theorem rangeCheck_toks (t : type_t) (val : Int) (s s' : State)
    (h : CascadeSwitch.rangeCheck t val s = .ok s') : s'.toks = s.toks := by
  unfold CascadeSwitch.rangeCheck at h
  split at h <;> simp at h <;> subst h <;> split <;> rfl

theorem defaultLabel_case (v : CascadeVars) (s : State)
    (hc : (NextToken s).CurTok.Tok = TOK_CASE) :
    CascadeSwitch.defaultLabel v s =
      ({ v with CodeLab := (CascadeSwitch.needLabel v.CodeLab (NextToken s)).1,
                HaveDefault := 1 },
       ConsumeColon (g_jump (CascadeSwitch.needLabel v.CodeLab (NextToken s)).1
         (CascadeSwitch.needLabel v.CodeLab (NextToken s)).2)) := by
  simp only [CascadeSwitch.defaultLabel, hc, if_true]

theorem defaultLabel_other (v : CascadeVars) (s : State)
    (hc : (NextToken s).CurTok.Tok ≠ TOK_CASE) :
    CascadeSwitch.defaultLabel v s =
      ({ v with HaveDefault := 1 }, ConsumeColon (NextToken s)) := by
  simp only [CascadeSwitch.defaultLabel, hc, if_false]

theorem defaultLabel_inv (v : CascadeVars) (s : State) :
    ∃ c, (CascadeSwitch.defaultLabel v s).2.code = s.code ++ c ∧
      CascadeInv v (CascadeSwitch.defaultLabel v s).1 c ∧
      (∀ f val, Instr.cmp f val ∉ c) := by
  by_cases hc : (NextToken s).CurTok.Tok = TOK_CASE
  · rw [defaultLabel_case v s hc]
    refine ⟨[Instr.jump (CascadeSwitch.needLabel v.CodeLab (NextToken s)).1], ?_, ?_, ?_⟩
    · rw [ConsumeColon, Consume_code]; simp [g_jump, emit]; rfl
    · refine ⟨fun h => needLabel_keep _ _ h, fun _ => rfl, rfl, ?_, ?_, ?_⟩
      · intro f l hl; simp at hl
      · intro f l hl; simp at hl
      · intro l hl
        simp only [List.mem_singleton, Instr.jump.injEq] at hl
        exact ⟨hl, hl ▸ needLabel_ne_zero _ _⟩
    · intro f val; simp
  · rw [defaultLabel_other v s hc]
    refine ⟨[], ?_, ?_, ?_⟩
    · rw [ConsumeColon, Consume_code, List.append_nil]; rfl
    · exact ⟨fun _ => rfl, fun _ => rfl, rfl, by simp, by simp, by simp⟩
    · intro f val; simp

theorem Cascade_labels_exit (X : Ext) (Expr : ExprDesc) (Flags : Nat) (fuel : Nat) :
    ∀ (v : CascadeVars) (s : State) (v' : CascadeVars) (s' : State),
      CascadeSwitch.labels X Expr Flags fuel v s = .ok (v', s') →
      s'.CurTok.Tok ≠ TOK_CASE ∧ s'.CurTok.Tok ≠ TOK_DEFAULT := by
  induction fuel with
  | zero => intro v s v' s' h; simp [CascadeSwitch.labels] at h
  | succ k ih =>
    intro v s v' s' h
    simp only [CascadeSwitch.labels] at h
    split at h
    · split at h
      · simp only [Outcome_bind_eq_ok] at h
        obtain ⟨⟨v1, s1⟩, -, h2⟩ := h
        exact ih _ _ _ _ h2
      · exact ih _ _ _ _ h
    · rename_i hn
      simp only [Outcome.ok.injEq, Prod.mk.injEq] at h
      rw [← h.2]
      exact ⟨fun c => hn (Or.inl c), fun c => hn (Or.inr c)⟩

theorem codeLabel_spec (v : CascadeVars) (s : State) :
    (v.CodeLab ≠ 0 →
      CascadeSwitch.codeLabel v s = ({ v with CodeLab := 0 }, g_defcodelabel v.CodeLab s)) ∧
    (v.CodeLab = 0 → CascadeSwitch.codeLabel v s = (v, s)) := by
  constructor
  · intro h; simp [CascadeSwitch.codeLabel, h]
  · intro h; simp [CascadeSwitch.codeLabel, h]

theorem groupStart_spec (v : CascadeVars) (s : State) :
    (CascadeSwitch.groupStart v s).2.code = s.code ++
      (if v.HaveBreak = 0 then [Instr.jump (CascadeSwitch.needLabel v.CodeLab s).1] else []) ++
      (if v.NextLab ≠ 0 then [Instr.defcodelabel v.NextLab] else []) ∧
    (CascadeSwitch.groupStart v s).1.CodeLab =
      (if v.HaveBreak = 0 then (CascadeSwitch.needLabel v.CodeLab s).1 else v.CodeLab) ∧
    (CascadeSwitch.groupStart v s).1.NextLab = 0 ∧
    (CascadeSwitch.groupStart v s).1.HaveBreak = v.HaveBreak ∧
    (CascadeSwitch.groupStart v s).2.toks = s.toks := by
  unfold CascadeSwitch.groupStart
  by_cases hb : v.HaveBreak = 0 <;> by_cases hn : v.NextLab = 0 <;>
    simp [hb, hn, g_jump, g_defcodelabel, emit]

theorem demoConst_code (t : State) : (demoConst t).2.code = t.code := by
  unfold demoConst; split <;> rfl

theorem ForStatement_eq (X : Ext) (stmt : StmtFn) (s : State) :
    ForStatement X stmt s =
      (stmt (some 0) (ForStatement.bodyStart X s)).bind fun q =>
        .ok (DelLoop (g_defcodelabel (s.nextLabel + 2) (SkipPending (q.2.1.getD 0)
          (if (ForStatement.afterTest X s).CurTok.Tok ≠ TOK_RPAREN then
            MoveCode (GetCodePos (ForStatement.afterTest X s))
              (GetCodePos (ForStatement.afterIncr X s)) (GetCodePos q.2.2) q.2.2
           else g_jump (s.nextLabel + 3) q.2.2)))) := by
  unfold ForStatement ForStatement.bodyStart ForStatement.afterIncr ForStatement.afterTest
    ForStatement.afterInit
  rfl

theorem Appends_iff (s s' : State) : Appends s s' ↔ s'.code = s.code ++ added s s' := by
  constructor
  · rintro ⟨c, hc⟩
    simp [added, hc]
  · intro h; exact ⟨_, h⟩

theorem Appends_refl (s : State) : Appends s s := ⟨[], by simp⟩

theorem Appends_trans {a b c : State} (h1 : Appends a b) (h2 : Appends b c) : Appends a c := by
  obtain ⟨x, hx⟩ := h1
  obtain ⟨y, hy⟩ := h2
  exact ⟨x ++ y, by rw [hy, hx, List.append_assoc]⟩

@[simp] theorem emit_code (i : Instr) (s : State) : (emit i s).code = s.code ++ [i] := rfl
@[simp] theorem NextToken_code (s : State) : (NextToken s).code = s.code := rfl
@[simp] theorem Error_code (m : String) (s : State) : (Error m s).code = s.code := rfl
@[simp] theorem Warning_code (m : String) (s : State) : (Warning m s).code = s.code := rfl
@[simp] theorem GetLocalLabel_code (s : State) : (GetLocalLabel s).2.code = s.code := rfl
@[simp] theorem AddLoop_code (sp : Int) (a b c d : Nat) (s : State) :
    (AddLoop sp a b c d s).code = s.code := rfl
@[simp] theorem DelLoop_code (s : State) : (DelLoop s).code = s.code := rfl

@[simp] theorem SkipPending_code (p : Nat) (s : State) : (SkipPending p s).code = s.code := by
  unfold SkipPending; split <;> rfl

@[simp] theorem CheckTok_code (t : token_t) (m : String) (P : Slot) (s : State) :
    (CheckTok t m P s).2.code = s.code := by
  unfold CheckTok; split
  · rfl
  · split <;> rfl

theorem ForStatement_afterInit_code (X : Ext) (hX : X.AppendsCode) (s : State) :
    ∃ init, (ForStatement.afterInit X s).code = s.code ++ init := by
  have hE := fun t => (Appends_iff _ _).1 (hX.expression t)
  simp only [ForStatement.afterInit, ConsumeSemi, Consume_code]
  split_ifs
  · rw [hE]; simp [ConsumeLParen]
  · exact ⟨[], by simp [ConsumeLParen]⟩

theorem ForStatement_afterTest_code (X : Ext) (hX : X.AppendsCode) (s : State) :
    ∃ cond, (ForStatement.afterTest X s).code = (ForStatement.afterInit X s).code ++
      Instr.defcodelabel (s.nextLabel + 1) :: cond ++
      (if (ForStatement.afterInit X s).CurTok.Tok ≠ TOK_SEMI then
        [Instr.truejump X.CF_NONE (s.nextLabel + 4), Instr.jump (s.nextLabel + 2)]
       else [Instr.jump (s.nextLabel + 4)]) ∧
      ((ForStatement.afterInit X s).CurTok.Tok = TOK_SEMI → cond = []) := by
  have hB := fun t => (Appends_iff _ _).1 (hX.boolexpr t)
  have hc : (g_defcodelabel (s.nextLabel + 1) (ForStatement.afterInit X s)).CurTok =
      (ForStatement.afterInit X s).CurTok := rfl
  simp only [ForStatement.afterTest, ConsumeSemi, Consume_code, hc]
  by_cases c : (ForStatement.afterInit X s).CurTok.Tok = TOK_SEMI
  · refine ⟨[], ?_, fun _ => rfl⟩
    simp [c, g_jump, g_defcodelabel]
  · refine ⟨added (g_defcodelabel (s.nextLabel + 1) (ForStatement.afterInit X s))
      (X.boolexpr (g_defcodelabel (s.nextLabel + 1) (ForStatement.afterInit X s))).2, ?_,
      fun d => absurd d c⟩
    simp [c, g_jump, g_truejump, g_defcodelabel, hB]

theorem ForStatement_afterIncr_code (X : Ext) (hX : X.AppendsCode) (s : State) :
    ∃ inc, (ForStatement.afterIncr X s).code = (ForStatement.afterTest X s).code ++
      Instr.defcodelabel (s.nextLabel + 3) :: inc ++ [Instr.jump (s.nextLabel + 1)] ∧
      ((ForStatement.afterTest X s).CurTok.Tok = TOK_RPAREN → inc = []) := by
  have hE := fun t => (Appends_iff _ _).1 (hX.expression t)
  have hc : (g_defcodelabel (s.nextLabel + 3) (ForStatement.afterTest X s)).CurTok =
      (ForStatement.afterTest X s).CurTok := rfl
  simp only [ForStatement.afterIncr, hc]
  by_cases c : (ForStatement.afterTest X s).CurTok.Tok = TOK_RPAREN
  · refine ⟨[], ?_, fun _ => rfl⟩
    simp [c, g_jump, g_defcodelabel]
  · refine ⟨added (g_defcodelabel (s.nextLabel + 3) (ForStatement.afterTest X s))
      (X.expression (g_defcodelabel (s.nextLabel + 3) (ForStatement.afterTest X s))).2, ?_,
      fun d => absurd d c⟩
    simp [c, g_jump, g_defcodelabel, hE]

theorem MoveCode_append (A B C : List Instr) (s : State) (h : s.code = A ++ B ++ C) :
    (MoveCode A.length (A.length + B.length) (A.length + B.length + C.length) s).code =
      A ++ C ++ B := by
  have t1 : List.take A.length (A ++ B ++ C) = A := by
    rw [List.append_assoc]; exact List.take_left' rfl
  have t2 : List.take (A.length + B.length + C.length) (A ++ B ++ C) = A ++ B ++ C :=
    List.take_of_length_le (by simp; omega)
  have t3 : List.drop (A.length + B.length) (A ++ B ++ C) = C :=
    List.drop_left' (by simp)
  have t4 : List.take (A.length + B.length) (A ++ B ++ C) = A ++ B :=
    List.take_left' (by simp)
  have t5 : List.drop A.length (A ++ B) = B := List.drop_left' rfl
  have t6 : List.drop (A.length + B.length + C.length) (A ++ B ++ C) = [] :=
    List.drop_of_length_le (by simp; omega)
  simp only [MoveCode, h, t1, t2, t3, t4, t5, t6, List.append_nil]

theorem ForStatement_code (X : Ext) (stmt : StmtFn) (s s' : State)
    (hX : X.AppendsCode) (hS : AppendsCode stmt)
    (h : ForStatement X stmt s = .ok s') :
    ∃ init cond inc body r P s1,
      (ForStatement.afterInit X s).code = s.code ++ init ∧
      ((ForStatement.afterInit X s).CurTok.Tok = TOK_SEMI → cond = []) ∧
      (ForStatement.afterTest X s).code = (ForStatement.afterInit X s).code ++
        Instr.defcodelabel (s.nextLabel + 1) :: cond ++
        (if (ForStatement.afterInit X s).CurTok.Tok ≠ TOK_SEMI then
          [Instr.truejump X.CF_NONE (s.nextLabel + 4), Instr.jump (s.nextLabel + 2)]
         else [Instr.jump (s.nextLabel + 4)]) ∧
      (ForStatement.afterIncr X s).code = (ForStatement.afterTest X s).code ++
        Instr.defcodelabel (s.nextLabel + 3) :: inc ++ [Instr.jump (s.nextLabel + 1)] ∧
      stmt (some 0) (ForStatement.bodyStart X s) = .ok (r, P, s1) ∧
      s1.code = (ForStatement.afterIncr X s).code ++
        Instr.defcodelabel (s.nextLabel + 4) :: body ∧
      ((ForStatement.afterTest X s).CurTok.Tok ≠ TOK_RPAREN →
        s'.code = s.code ++ init ++ Instr.defcodelabel (s.nextLabel + 1) :: cond ++
          (if (ForStatement.afterInit X s).CurTok.Tok ≠ TOK_SEMI then
            [Instr.truejump X.CF_NONE (s.nextLabel + 4), Instr.jump (s.nextLabel + 2)]
           else [Instr.jump (s.nextLabel + 4)]) ++
          Instr.defcodelabel (s.nextLabel + 4) :: body ++
          Instr.defcodelabel (s.nextLabel + 3) :: inc ++
          [Instr.jump (s.nextLabel + 1), Instr.defcodelabel (s.nextLabel + 2)]) ∧
      ((ForStatement.afterTest X s).CurTok.Tok = TOK_RPAREN →
        inc = [] ∧
        s'.code = s.code ++ init ++ Instr.defcodelabel (s.nextLabel + 1) :: cond ++
          (if (ForStatement.afterInit X s).CurTok.Tok ≠ TOK_SEMI then
            [Instr.truejump X.CF_NONE (s.nextLabel + 4), Instr.jump (s.nextLabel + 2)]
           else [Instr.jump (s.nextLabel + 4)]) ++
          [Instr.defcodelabel (s.nextLabel + 3), Instr.jump (s.nextLabel + 1)] ++
          Instr.defcodelabel (s.nextLabel + 4) :: body ++
          [Instr.jump (s.nextLabel + 3), Instr.defcodelabel (s.nextLabel + 2)]) := by
  obtain ⟨init, hi⟩ := ForStatement_afterInit_code X hX s
  obtain ⟨cond, hc, hc0⟩ := ForStatement_afterTest_code X hX s
  obtain ⟨inc, hn, hn0⟩ := ForStatement_afterIncr_code X hX s
  rw [ForStatement_eq, Outcome_bind_eq_ok] at h
  obtain ⟨⟨r, P, s1⟩, h1, h2⟩ := h
  obtain ⟨b0, hb0⟩ := hS _ _ _ _ _ h1
  have hb : s1.code = (ForStatement.afterIncr X s).code ++
      Instr.defcodelabel (s.nextLabel + 4) :: b0 := by
    rw [hb0]
    simp [ForStatement.bodyStart, g_defcodelabel, ConsumeRParen]
  simp only [Outcome.ok.injEq] at h2
  refine ⟨init, cond, inc, b0, r, P, s1, hi, hc0, hc, hn, h1, hb, ?_, ?_⟩
  · intro hp
    rw [← h2]
    simp only [DelLoop_code, g_defcodelabel, emit_code, SkipPending_code, if_pos hp]
    have hs1 : s1.code = (ForStatement.afterTest X s).code ++
        (Instr.defcodelabel (s.nextLabel + 3) :: inc ++ [Instr.jump (s.nextLabel + 1)]) ++
        (Instr.defcodelabel (s.nextLabel + 4) :: b0) := by
      rw [hb, hn]; simp
    have e2 : GetCodePos (ForStatement.afterIncr X s) =
        (ForStatement.afterTest X s).code.length +
        (Instr.defcodelabel (s.nextLabel + 3) :: inc ++ [Instr.jump (s.nextLabel + 1)]).length := by
      rw [GetCodePos, hn]; simp
    have e3 : GetCodePos s1 =
        (ForStatement.afterTest X s).code.length +
        (Instr.defcodelabel (s.nextLabel + 3) :: inc ++ [Instr.jump (s.nextLabel + 1)]).length +
        (Instr.defcodelabel (s.nextLabel + 4) :: b0).length := by
      rw [GetCodePos, hs1]; simp
      omega
    rw [e2, e3]
    have e1 : GetCodePos (ForStatement.afterTest X s) =
        (ForStatement.afterTest X s).code.length := rfl
    rw [e1, MoveCode_append _ _ _ s1 hs1, hc, hi]
    simp
  · intro hp
    refine ⟨hn0 hp, ?_⟩
    rw [← h2]
    have hp2 : ¬ ((ForStatement.afterTest X s).CurTok.Tok ≠ TOK_RPAREN) := fun n => n hp
    simp only [DelLoop_code, g_defcodelabel, emit_code, SkipPending_code, if_neg hp2, g_jump]
    rw [hb, hn, hn0 hp, hc, hi]
    simp

theorem Appends_of_eq {s s' : State} (h : s'.code = s.code) : Appends s s' :=
  ⟨[], by rw [h, List.append_nil]⟩

theorem ReturnStatement_appends (X : Ext) (hX : X.AppendsCode) (s : State) :
    Appends s (ReturnStatement X s) := by
  have hE := fun t => (Appends_iff _ _).1 (hX.expression t)
  have hA := fun a b t => (Appends_iff _ _).1 (hX.assignadjust a b t)
  simp only [Appends, ReturnStatement, g_jump, g_space, emit_code]
  split_ifs <;> simp [hE, hA]

theorem BreakStatement_appends (s : State) : Appends s (BreakStatement s) := by
  cases h : CurrentLoop (NextToken s) <;> simp [Appends, BreakStatement, h, g_jump, g_space]

theorem ContinueStatement_appends (s : State) : Appends s (ContinueStatement s) := by
  cases h : searchLoop (NextToken s).loops <;>
    simp only [Appends, ContinueStatement, h, g_jump, g_space]
  · simp
  · split_ifs <;> simp

theorem IfStatement_appends (X : Ext) (hX : X.AppendsCode) (stmt : StmtFn)
    (hs : AppendsCode stmt) (s : State) (r : Nat) (s' : State)
    (h : IfStatement X stmt s = .ok (r, s')) : Appends s s' := by
  have hT := fun a b t => (Appends_iff _ _).1 (hX.test a b t)
  simp only [IfStatement, Outcome_bind_eq_ok] at h
  obtain ⟨⟨a, Pa, s1⟩, h1, h2⟩ := h
  have e1 := (Appends_iff _ _).1 (hs _ _ _ _ _ h1)
  simp only at h2
  split at h2
  · simp at h2
    rw [← h2.2]
    simp [Appends, g_defcodelabel, e1, hT]
  · simp only [Outcome_bind_eq_ok] at h2
    obtain ⟨⟨b, Pb, s2⟩, h3, h4⟩ := h2
    have e2 := (Appends_iff _ _).1 (hs _ _ _ _ _ h3)
    simp at h4
    rw [← h4.2]
    simp [Appends, g_defcodelabel, g_jump, e2, e1, hT]

theorem DoStatement_appends (X : Ext) (hX : X.AppendsCode) (stmt : StmtFn)
    (hs : AppendsCode stmt) (s s' : State) (h : DoStatement X stmt s = .ok s') :
    Appends s s' := by
  have hT := fun a b t => (Appends_iff _ _).1 (hX.test a b t)
  simp only [DoStatement, Outcome_bind_eq_ok] at h
  obtain ⟨⟨a, Pa, s1⟩, h1, h2⟩ := h
  have e1 := (Appends_iff _ _).1 (hs _ _ _ _ _ h1)
  simp at h2
  rw [← h2]
  simp [Appends, g_defcodelabel, ConsumeSemi, e1, hT]

theorem WhileStatement_appends (X : Ext) (hX : X.AppendsCode) (stmt : StmtFn)
    (hs : AppendsCode stmt) (s s' : State) (h : WhileStatement X stmt s = .ok s') :
    Appends s s' := by
  have hT := fun a b t => (Appends_iff _ _).1 (hX.test a b t)
  simp only [WhileStatement, Outcome_bind_eq_ok] at h
  obtain ⟨⟨a, Pa, s1⟩, h1, h2⟩ := h
  have e1 := (Appends_iff _ _).1 (hs _ _ _ _ _ h1)
  simp at h2
  rw [← h2]
  simp [Appends, g_defcodelabel, g_jump, e1, hT]

theorem ForStatement_appends (X : Ext) (hX : X.AppendsCode) (stmt : StmtFn)
    (hs : AppendsCode stmt) (s s' : State) (h : ForStatement X stmt s = .ok s') :
    Appends s s' := by
  obtain ⟨init, cond, inc, body, r, P, s1, -, -, -, -, -, -, h1, h2⟩ :=
    ForStatement_code X stmt s s' hX hs h
  by_cases c : (ForStatement.afterTest X s).CurTok.Tok = TOK_RPAREN
  · exact ⟨_, by rw [(h2 c).2]; simp only [List.append_assoc]; rfl⟩
  · exact ⟨_, by rw [h1 c]; simp only [List.append_assoc]; rfl⟩

theorem Cascade_caseLabel_appends (X : Ext) (hX : X.AppendsCode) (Expr : ExprDesc)
    (Flags : Nat) (v : CascadeVars) (s : State) (v' : CascadeVars) (s' : State)
    (h : CascadeSwitch.caseLabel X Expr Flags v s = .ok (v', s')) : Appends s s' := by
  have hC := fun t => (Appends_iff _ _).1 (hX.constexpr t)
  simp only [CascadeSwitch.caseLabel, Outcome_bind_eq_ok] at h
  obtain ⟨s1, h1, h2⟩ := h
  have e1 := rangeCheck_code _ _ _ _ h1
  simp at h2
  rw [← h2.2]
  simp only [Appends, ConsumeColon, Consume_code, caseJump_code, g_cmp, emit_code, e1]
  split_ifs <;> simp [hC]

theorem Cascade_defaultLabel_appends (v : CascadeVars) (s : State) :
    Appends s (CascadeSwitch.defaultLabel v s).2 := by
  obtain ⟨c, hc, -⟩ := defaultLabel_inv v s
  exact ⟨c, hc⟩

theorem Cascade_groupStart_appends (v : CascadeVars) (s : State) :
    Appends s (CascadeSwitch.groupStart v s).2 :=
  ⟨_, by rw [(groupStart_spec v s).1, List.append_assoc]⟩

theorem Cascade_codeLabel_appends (v : CascadeVars) (s : State) :
    Appends s (CascadeSwitch.codeLabel v s).2 := by
  unfold CascadeSwitch.codeLabel
  split_ifs <;> simp [Appends, g_defcodelabel]

theorem Cascade_labels_appends (X : Ext) (hX : X.AppendsCode) (Expr : ExprDesc)
    (Flags : Nat) (fuel : Nat) :
    ∀ (v : CascadeVars) (s : State) (v' : CascadeVars) (s' : State),
      CascadeSwitch.labels X Expr Flags fuel v s = .ok (v', s') → Appends s s' := by
  induction fuel with
  | zero => intro v s v' s' h; simp [CascadeSwitch.labels] at h
  | succ k ih =>
    intro v s v' s' h
    simp only [CascadeSwitch.labels] at h
    split at h
    · split at h
      · simp only [Outcome_bind_eq_ok] at h
        obtain ⟨⟨v1, s1⟩, h1, h2⟩ := h
        exact Appends_trans (Cascade_caseLabel_appends X hX _ _ _ _ _ _ h1) (ih _ _ _ _ h2)
      · exact Appends_trans (Cascade_defaultLabel_appends v s) (ih _ _ _ _ h)
    · simp at h; rw [← h.2]; exact Appends_refl s

theorem Cascade_body_appends (X : Ext) (hX : X.AppendsCode) (stmt : StmtFn)
    (hs : AppendsCode stmt) (Expr : ExprDesc) (Flags : Nat) (fuel : Nat) :
    ∀ (v : CascadeVars) (s : State) (v' : CascadeVars) (s' : State),
      CascadeSwitch.body X stmt Expr Flags fuel v s = .ok (v', s') → Appends s s' := by
  induction fuel with
  | zero => intro v s v' s' h; simp [CascadeSwitch.body] at h
  | succ k ih =>
    intro v s v' s' h
    simp only [CascadeSwitch.body] at h
    split at h
    · simp only [Outcome_bind_eq_ok] at h
      obtain ⟨⟨v1, s1⟩, h1, h2⟩ := h
      have e1 : Appends s s1 := by
        split at h1
        · exact Appends_trans (Cascade_groupStart_appends v s)
            (Cascade_labels_appends X hX Expr Flags k _ _ _ _ h1)
        · simp at h1; rw [← h1.2]; exact Appends_refl s
      have e2 := Appends_trans e1 (Cascade_codeLabel_appends v1 s1)
      simp only at h2
      split at h2
      · simp only [Outcome_bind_eq_ok] at h2
        obtain ⟨⟨a, Pa, s2⟩, h3, h4⟩ := h2
        exact Appends_trans (Appends_trans e2 (hs _ _ _ _ _ h3)) (ih _ _ _ _ h4)
      · exact Appends_trans e2 (ih _ _ _ _ h2)
    · simp at h; rw [← h.2]; exact Appends_refl s

theorem CascadeSwitch_appends (X : Ext) (hX : X.AppendsCode) (stmt : StmtFn)
    (hs : AppendsCode stmt) (fuel : Nat) (Expr : ExprDesc) (s s' : State)
    (h : CascadeSwitch X stmt fuel Expr s = .ok s') : Appends s s' := by
  simp only [CascadeSwitch, Outcome_bind_eq_ok] at h
  obtain ⟨⟨v1, s1⟩, h1, h2⟩ := h
  have e1 := (Appends_iff _ _).1 (Cascade_body_appends X hX stmt hs _ _ _ _ _ _ _ h1)
  simp at h2
  rw [← h2]
  simp only [Appends, DelLoop_code, NextToken_code, g_defcodelabel, emit_code]
  split_ifs <;> simp [e1, g_defcodelabel]

theorem Table_label_appends (X : Ext) (hX : X.AppendsCode) (v : TableVars)
    (s : State) : Appends s (TableSwitch.label X v s).2 := by
  have hC := fun t => (Appends_iff _ _).1 (hX.constexpr t)
  unfold TableSwitch.label
  simp only [Appends, ConsumeColon, Consume_code]
  split_ifs <;> simp [g_defcodelabel, hC]

theorem Table_labels_appends (X : Ext) (hX : X.AppendsCode) (fuel : Nat) :
    ∀ (v : TableVars) (s : State) (v' : TableVars) (s' : State),
      TableSwitch.labels X fuel v s = .ok (v', s') → Appends s s' := by
  induction fuel with
  | zero => intro v s v' s' h; simp [TableSwitch.labels] at h
  | succ k ih =>
    intro v s v' s' h
    simp only [TableSwitch.labels] at h
    split at h
    · exact Appends_trans (Table_label_appends X hX v s) (ih _ _ _ _ h)
    · simp at h
      have := Table_label_appends X hX v s
      rw [h] at this
      exact this

theorem Table_body_appends (X : Ext) (hX : X.AppendsCode) (stmt : StmtFn)
    (hs : AppendsCode stmt) (fuel : Nat) :
    ∀ (v : TableVars) (s : State) (v' : TableVars) (s' : State),
      TableSwitch.body X stmt fuel v s = .ok (v', s') → Appends s s' := by
  induction fuel with
  | zero => intro v s v' s' h; simp [TableSwitch.body] at h
  | succ k ih =>
    intro v s v' s' h
    simp only [TableSwitch.body] at h
    split at h
    · simp only [Outcome_bind_eq_ok] at h
      obtain ⟨⟨v1, s1⟩, h1, h2⟩ := h
      have e1 : Appends s s1 := by
        split at h1
        · simp only [Outcome_bind_eq_ok] at h1
          obtain ⟨⟨v0, s0⟩, h0, h1⟩ := h1
          have := Table_labels_appends X hX k _ _ _ _ h0
          simp at h1
          rw [← h1.2]; exact this
        · simp at h1; rw [← h1.2]; exact Appends_refl s
      simp only at h2
      split at h2
      · simp only [Outcome_bind_eq_ok] at h2
        obtain ⟨⟨a, Pa, s2⟩, h3, h4⟩ := h2
        exact Appends_trans (Appends_trans e1 (hs _ _ _ _ _ h3)) (ih _ _ _ _ h4)
      · exact Appends_trans e1 (ih _ _ _ _ h2)
    · simp at h; rw [← h.2]; exact Appends_refl s

theorem TableSwitch_appends (X : Ext) (hX : X.AppendsCode) (stmt : StmtFn)
    (hs : AppendsCode stmt) (fuel : Nat) (Expr : ExprDesc) (s s' : State)
    (h : TableSwitch X stmt fuel Expr s = .ok s') : Appends s s' := by
  obtain ⟨v, s1, h1, h2, -⟩ := TableSwitch_ok X stmt fuel Expr s s' h
  have e1 := Table_body_appends X hX stmt hs _ _ _ _ _ h1
  have e0 : Appends s (TableSwitch.start s) := by
    simp [Appends, TableSwitch.start, g_jump]
  exact Appends_trans (Appends_trans e0 e1) ⟨_, h2⟩

theorem SwitchStatement_appends (X : Ext) (hX : X.AppendsCode) (stmt : StmtFn)
    (hs : AppendsCode stmt) (fuel : Nat) (s s' : State)
    (h : SwitchStatement X stmt fuel s = .ok s') : Appends s s' := by
  have hI := fun t => (Appends_iff _ _).1 (hX.intexpr t)
  have e0 : Appends s (ConsumeLCurly (ConsumeRParen
      (X.intexpr (ConsumeLParen (NextToken s))).2)) := by
    simp [Appends, ConsumeLCurly, ConsumeRParen, ConsumeLParen, hI]
  simp only [SwitchStatement] at h
  split at h
  · exact Appends_trans e0 (CascadeSwitch_appends X hX stmt hs _ _ _ _ h)
  · exact Appends_trans e0 (TableSwitch_appends X hX stmt hs _ _ _ _ h)

theorem Compound_loop_appends (stmt : StmtFn) (hs : AppendsCode stmt) (fuel : Nat) :
    ∀ (g : Nat) (s : State) (r : Nat) (s' : State),
      CompoundStatement.loop stmt fuel g s = .ok (r, s') → Appends s s' := by
  induction fuel with
  | zero => intro g s r s' h; simp [CompoundStatement.loop] at h
  | succ k ih =>
    intro g s r s' h
    simp only [CompoundStatement.loop] at h
    split at h
    · split at h
      · simp only [Outcome_bind_eq_ok] at h
        obtain ⟨⟨a, Pa, s1⟩, h1, h2⟩ := h
        exact Appends_trans (hs _ _ _ _ _ h1) (ih _ _ _ _ h2)
      · simp at h; rw [← h.2]; exact Appends_refl s
    · simp at h; rw [← h.2]; exact Appends_refl s

theorem CompoundStatement_appends (X : Ext) (hX : X.AppendsCode) (stmt : StmtFn)
    (hs : AppendsCode stmt) (fuel : Nat) (s : State) (r : Nat) (s' : State)
    (h : CompoundStatement X stmt fuel s = .ok (r, s')) : Appends s s' := by
  have hL := fun t => (Appends_iff _ _).1 (hX.LeaveBlockLevel t)
  have hM := fun t => (Appends_iff _ _).1 (hX.EmitExternals t)
  have hD := fun t => (Appends_iff _ _).1 (hX.DeclareLocals t)
  have hN := fun t => (Appends_iff _ _).1 (hX.EnterBlockLevel t)
  simp only [CompoundStatement, Outcome_bind_eq_ok] at h
  obtain ⟨⟨a, s1⟩, h1, h2⟩ := h
  have e1 := (Appends_iff _ _).1 (Compound_loop_appends stmt hs _ _ _ _ _ h1)
  simp at h2
  rw [← h2.2]
  simp only [Appends, hL, hM]
  split_ifs <;> simp [e1, g_space, hD, hN]

theorem Statement_appends (X : Ext) (hX : X.AppendsCode) (n : Nat) :
    AppendsCode (Statement X n) := by
  induction n with
  | zero => intro P s r P' s' h; simp [Statement] at h
  | succ n ih =>
    intro P s r P' s' h
    simp only [Statement] at h
    split at h
    · simp at h; rw [← h.2.2]; exact hX.DoLabel s
    · split at h
      · simp only [Outcome_bind_eq_ok] at h
        obtain ⟨⟨a, s1⟩, h1, h2⟩ := h
        simp only [Outcome.ok.injEq, Prod.mk.injEq] at h2
        rw [← h2.2.2]
        exact Appends_trans (Appends_trans (Appends_of_eq (NextToken_code s))
          (CompoundStatement_appends X hX _ ih _ _ _ _ h1)) (Appends_of_eq (CheckTok_code _ _ _ _))
      · simp only [Outcome_bind_eq_ok] at h
        obtain ⟨⟨a, s1⟩, h1, h2⟩ := h
        simp only [Outcome.ok.injEq, Prod.mk.injEq] at h2
        rw [← h2.2.2]
        exact IfStatement_appends X hX _ ih _ _ _ h1
      · simp only [Outcome_bind_eq_ok] at h
        obtain ⟨s1, h1, h2⟩ := h
        simp only [Outcome.ok.injEq, Prod.mk.injEq] at h2
        rw [← h2.2.2]
        exact WhileStatement_appends X hX _ ih _ _ h1
      · simp only [Outcome_bind_eq_ok] at h
        obtain ⟨s1, h1, h2⟩ := h
        simp only [Outcome.ok.injEq, Prod.mk.injEq] at h2
        rw [← h2.2.2]
        exact DoStatement_appends X hX _ ih _ _ h1
      · simp only [Outcome_bind_eq_ok] at h
        obtain ⟨s1, h1, h2⟩ := h
        simp only [Outcome.ok.injEq, Prod.mk.injEq] at h2
        rw [← h2.2.2]
        exact SwitchStatement_appends X hX _ ih _ _ _ h1
      · simp only [Outcome.ok.injEq, Prod.mk.injEq] at h
        rw [← h.2.2]
        exact Appends_trans (ReturnStatement_appends X hX s) (Appends_of_eq (CheckTok_code _ _ _ _))
      · simp only [Outcome.ok.injEq, Prod.mk.injEq] at h
        rw [← h.2.2]
        exact Appends_trans (BreakStatement_appends s) (Appends_of_eq (CheckTok_code _ _ _ _))
      · simp only [Outcome.ok.injEq, Prod.mk.injEq] at h
        rw [← h.2.2]
        exact Appends_trans (ContinueStatement_appends s) (Appends_of_eq (CheckTok_code _ _ _ _))
      · simp only [Outcome_bind_eq_ok] at h
        obtain ⟨s1, h1, h2⟩ := h
        simp only [Outcome.ok.injEq, Prod.mk.injEq] at h2
        rw [← h2.2.2]
        exact ForStatement_appends X hX _ ih _ _ h1
      · simp only [Outcome.ok.injEq, Prod.mk.injEq] at h
        rw [← h.2.2]
        exact Appends_trans (hX.GotoStatement s) (Appends_of_eq (CheckTok_code _ _ _ _))
      · simp only [Outcome.ok.injEq, Prod.mk.injEq] at h
        rw [← h.2.2]
        exact Appends_of_eq (NextToken_code s)
      · simp only [Outcome.ok.injEq, Prod.mk.injEq] at h
        rw [← h.2.2]
        exact hX.DoPragma s
      · simp only [Outcome.ok.injEq, Prod.mk.injEq] at h
        rw [← h.2.2]
        exact Appends_trans (hX.expression s) (Appends_of_eq (CheckTok_code _ _ _ _))

theorem demoExpr_appends (t : type_t) (s : State) : Appends s (demoExpr t s).2 := by
  unfold demoExpr; split <;> simp [Appends]

theorem demoExt_AppendsCode (t : type_t) : (demoExt t).AppendsCode where
  expression := demoExpr_appends _
  boolexpr := demoExpr_appends _
  intexpr := demoExpr_appends _
  constexpr := fun s => Appends_of_eq (demoConst_code s)
  test := fun l i s => by
    have hE := fun t => (Appends_iff _ _).1 (demoExpr_appends T_INT t)
    simp only [demoExt, demoTest, Appends]
    split_ifs <;> simp [g_truejump, g_falsejump, ConsumeRParen, ConsumeLParen, hE]
  assignadjust := fun _ _ s => Appends_refl s
  DeclareLocals := fun s => Appends_refl s
  EnterBlockLevel := fun s => Appends_refl s
  LeaveBlockLevel := fun s => Appends_refl s
  EmitExternals := fun s => Appends_refl s
  DoLabel := fun s => Appends_of_eq rfl
  GotoStatement := fun s => Appends_of_eq rfl
  DoPragma := fun s => by simp [demoExt, Appends]

@[simp] theorem Error_nextLabel (m : String) (s : State) :
    (Error m s).nextLabel = s.nextLabel := rfl
@[simp] theorem Warning_nextLabel (m : String) (s : State) :
    (Warning m s).nextLabel = s.nextLabel := rfl
@[simp] theorem GetLocalLabel_fst (s : State) : (GetLocalLabel s).1 = s.nextLabel + 1 := rfl
theorem rangeCheck_nextLabel (t : type_t) (val : Int) (s s' : State)
    (h : CascadeSwitch.rangeCheck t val s = .ok s') : s'.nextLabel = s.nextLabel := by
  unfold CascadeSwitch.rangeCheck at h
  split at h <;> simp at h <;> subst h <;> split <;> rfl

theorem WhileStatement_eq (X : Ext) (stmt : StmtFn) (s : State) :
    WhileStatement X stmt s =
      (stmt (some 0) (WhileStatement.bodyStart X s)).bind fun q =>
        .ok (WhileStatement.finish s q.2.1 q.2.2) := rfl

theorem DoStatement_eq (X : Ext) (stmt : StmtFn) (s : State) :
    DoStatement X stmt s =
      (stmt none (DoStatement.bodyStart s)).bind fun q =>
        .ok (DoStatement.finish X s q.2.2) := rfl

theorem ForStatement_eq_finish (X : Ext) (stmt : StmtFn) (s : State) :
    ForStatement X stmt s =
      (stmt (some 0) (ForStatement.bodyStart X s)).bind fun q =>
        .ok (ForStatement.finish X s q.2.1 q.2.2) := by
  rw [ForStatement_eq]; rfl

theorem CascadeSwitch_eq (X : Ext) (stmt : StmtFn) (fuel : Nat) (Expr : ExprDesc)
    (s : State) :
    CascadeSwitch X stmt fuel Expr s =
      (CascadeSwitch.body X stmt Expr
          (X.TypeOf Expr.Type_ ||| X.CF_CONST ||| X.CF_FORCECHAR) fuel ⟨0, 0, 1, 0, 0⟩
          (CascadeSwitch.start s)).bind fun q =>
        .ok (CascadeSwitch.finish s q.1 q.2) := rfl

theorem TableSwitch_eq (X : Ext) (stmt : StmtFn) (fuel : Nat) (Expr : ExprDesc)
    (s : State) :
    TableSwitch X stmt fuel Expr s =
      (TableSwitch.body X stmt fuel ⟨0, 0, []⟩ (TableSwitch.start s)).bind fun q =>
        .ok (TableSwitch.finish X Expr s q.1 q.2) := rfl

theorem bind_ok_iff {α β : Type} (o : Outcome α) (f : α → β) (b : β) :
    (o.bind fun q => .ok (f q)) = .ok b ↔ ∃ a, o = .ok a ∧ b = f a := by
  cases o <;> simp [Outcome.bind, eq_comm]

theorem WhileStatement_bodyStart_loops (X : Ext) (hX : X.KeepsLoops) (s : State) :
    (WhileStatement.bodyStart X s).loops =
      ⟨s.oursp, s.nextLabel + 1, s.nextLabel + 2, 0, 0⟩ :: s.loops := by
  simp [WhileStatement.bodyStart, hX.test, g_defcodelabel, GetLocalLabel, NextToken, AddLoop]

theorem WhileStatement_finish_loops (s : State) (P : Slot) (t : State) :
    (WhileStatement.finish s P t).loops = t.loops.tail := by
  simp [WhileStatement.finish, g_defcodelabel, g_jump]

theorem DoStatement_bodyStart_loops (s : State) :
    (DoStatement.bodyStart s).loops =
      ⟨s.oursp, s.nextLabel + 1, s.nextLabel + 2, 0, 0⟩ :: s.loops := by
  simp [DoStatement.bodyStart, g_defcodelabel, GetLocalLabel, NextToken, AddLoop]

theorem DoStatement_finish_loops (X : Ext) (hX : X.KeepsLoops) (s t : State) :
    (DoStatement.finish X s t).loops = t.loops.tail := by
  simp [DoStatement.finish, g_defcodelabel, ConsumeSemi, hX.test]

theorem ForStatement_bodyStart_loops (X : Ext) (hX : X.KeepsLoops) (s : State) :
    (ForStatement.bodyStart X s).loops =
      ⟨s.oursp, s.nextLabel + 1, s.nextLabel + 2, s.nextLabel + 3, s.nextLabel + 4⟩ ::
        s.loops := by
  simp only [ForStatement.bodyStart, ForStatement.afterIncr, ForStatement.afterTest,
    ForStatement.afterInit, g_defcodelabel, g_jump, g_truejump, emit_loops, ConsumeRParen,
    ConsumeSemi, ConsumeLParen, Consume_loops]
  split_ifs <;>
    simp [g_defcodelabel, g_jump, g_truejump, ConsumeRParen, ConsumeSemi,
      ConsumeLParen, hX.expression, hX.boolexpr, GetLocalLabel, AddLoop, NextToken]

theorem ForStatement_finish_loops (X : Ext) (s : State) (P : Slot) (t : State) :
    (ForStatement.finish X s P t).loops = t.loops.tail := by
  simp only [ForStatement.finish, DelLoop_loops, g_defcodelabel, emit_loops,
    SkipPending_loops]
  split_ifs <;> simp [g_jump]

theorem CascadeSwitch_start_loops (s : State) :
    (CascadeSwitch.start s).loops = ⟨s.oursp, 0, s.nextLabel + 1, 0, 0⟩ :: s.loops := by
  simp [CascadeSwitch.start, GetLocalLabel, AddLoop]

theorem CascadeSwitch_finish_loops (s : State) (v : CascadeVars) (t : State) :
    (CascadeSwitch.finish s v t).loops = t.loops.tail := by
  simp only [CascadeSwitch.finish, DelLoop_loops, NextToken_loops, g_defcodelabel,
    emit_loops]
  split_ifs <;> simp [g_defcodelabel]

theorem TableSwitch_start_loops (s : State) :
    (TableSwitch.start s).loops = ⟨s.oursp, 0, s.nextLabel + 1, 0, 0⟩ :: s.loops := by
  simp [TableSwitch.start, GetLocalLabel, AddLoop, g_jump]

theorem TableSwitch_finish_loops (X : Ext) (Expr : ExprDesc) (s : State) (v : TableVars)
    (t : State) : (TableSwitch.finish X Expr s v t).loops = t.loops.tail := by
  simp only [TableSwitch.finish, DelLoop_loops, g_defcodelabel, emit_loops]
  split_ifs <;> simp [g_defcodelabel, g_jump, g_defdata, g_switch]

theorem ForStatement_afterInit_eq (X : Ext) (s : State) :
    ForStatement.afterInit X s =
      ConsumeSemi (if (ForStatement.initStart s).CurTok.Tok ≠ TOK_SEMI then
        (X.expression (ForStatement.initStart s)).2 else ForStatement.initStart s) := rfl

theorem ForStatement_afterTest_eq (X : Ext) (s : State) :
    ForStatement.afterTest X s =
      ConsumeSemi (if (ForStatement.testStart X s).CurTok.Tok ≠ TOK_SEMI then
        g_jump (s.nextLabel + 2) (g_truejump X.CF_NONE (s.nextLabel + 4)
          (X.boolexpr (ForStatement.testStart X s)).2)
       else g_jump (s.nextLabel + 4) (ForStatement.testStart X s)) := rfl

theorem ForStatement_afterIncr_eq (X : Ext) (s : State) :
    ForStatement.afterIncr X s =
      g_jump (s.nextLabel + 1) (if (ForStatement.incrStart X s).CurTok.Tok ≠ TOK_RPAREN then
        (X.expression (ForStatement.incrStart X s)).2 else ForStatement.incrStart X s) := rfl

theorem ForStatement_initStart_code (s : State) : (ForStatement.initStart s).code = s.code := by
  simp [ForStatement.initStart, ConsumeLParen, GetLocalLabel, AddLoop, NextToken]

theorem ForStatement_init_code (X : Ext) (s : State)
    (hI : (ForStatement.initStart s).CurTok.Tok ≠ TOK_SEMI →
      Appends (ForStatement.initStart s) (X.expression (ForStatement.initStart s)).2) :
    ∃ init, (ForStatement.afterInit X s).code = s.code ++ init := by
  rw [ForStatement_afterInit_eq]
  simp only [ConsumeSemi, Consume_code]
  split_ifs with c
  · obtain ⟨i, hi⟩ := hI c
    exact ⟨i, by rw [hi, ForStatement_initStart_code]⟩
  · exact ⟨[], by rw [ForStatement_initStart_code, List.append_nil]⟩

theorem ForStatement_test_code (X : Ext) (s : State)
    (hT : (ForStatement.testStart X s).CurTok.Tok ≠ TOK_SEMI →
      Appends (ForStatement.testStart X s) (X.boolexpr (ForStatement.testStart X s)).2) :
    ∃ cond, (ForStatement.afterTest X s).code = (ForStatement.afterInit X s).code ++
      Instr.defcodelabel (s.nextLabel + 1) :: cond ++
      (if (ForStatement.afterInit X s).CurTok.Tok ≠ TOK_SEMI then
        [Instr.truejump X.CF_NONE (s.nextLabel + 4), Instr.jump (s.nextLabel + 2)]
       else [Instr.jump (s.nextLabel + 4)]) ∧
      ((ForStatement.afterInit X s).CurTok.Tok = TOK_SEMI → cond = []) := by
  have hc : (ForStatement.testStart X s).CurTok = (ForStatement.afterInit X s).CurTok := rfl
  have hk : (ForStatement.testStart X s).code =
      (ForStatement.afterInit X s).code ++ [Instr.defcodelabel (s.nextLabel + 1)] := rfl
  rw [ForStatement_afterTest_eq]
  rw [hc] at hT
  simp only [ConsumeSemi, Consume_code, hc]
  by_cases c : (ForStatement.afterInit X s).CurTok.Tok = TOK_SEMI
  · refine ⟨[], ?_, fun _ => rfl⟩
    simp [c, g_jump, hk]
  · obtain ⟨i, hi⟩ := hT c
    refine ⟨i, ?_, fun d => absurd d c⟩
    simp [c, g_jump, g_truejump, hi, hk]

theorem ForStatement_incr_code (X : Ext) (s : State)
    (hN : (ForStatement.incrStart X s).CurTok.Tok ≠ TOK_RPAREN →
      Appends (ForStatement.incrStart X s) (X.expression (ForStatement.incrStart X s)).2) :
    ∃ inc, (ForStatement.afterIncr X s).code = (ForStatement.afterTest X s).code ++
      Instr.defcodelabel (s.nextLabel + 3) :: inc ++ [Instr.jump (s.nextLabel + 1)] ∧
      ((ForStatement.afterTest X s).CurTok.Tok = TOK_RPAREN → inc = []) := by
  have hc : (ForStatement.incrStart X s).CurTok = (ForStatement.afterTest X s).CurTok := rfl
  have hk : (ForStatement.incrStart X s).code =
      (ForStatement.afterTest X s).code ++ [Instr.defcodelabel (s.nextLabel + 3)] := rfl
  rw [ForStatement_afterIncr_eq]
  rw [hc] at hN
  simp only [hc]
  by_cases c : (ForStatement.afterTest X s).CurTok.Tok = TOK_RPAREN
  · refine ⟨[], ?_, fun _ => rfl⟩
    simp [c, g_jump, hk]
  · obtain ⟨i, hi⟩ := hN c
    refine ⟨i, ?_, fun d => absurd d c⟩
    simp [c, g_jump, hi, hk]

theorem ForStatement_finish_code (X : Ext) (s : State) (P : Slot) (s1 : State)
    (init cond inc body : List Instr)
    (hi : (ForStatement.afterInit X s).code = s.code ++ init)
    (hc : (ForStatement.afterTest X s).code = (ForStatement.afterInit X s).code ++
      Instr.defcodelabel (s.nextLabel + 1) :: cond ++
      (if (ForStatement.afterInit X s).CurTok.Tok ≠ TOK_SEMI then
        [Instr.truejump X.CF_NONE (s.nextLabel + 4), Instr.jump (s.nextLabel + 2)]
       else [Instr.jump (s.nextLabel + 4)]))
    (hn : (ForStatement.afterIncr X s).code = (ForStatement.afterTest X s).code ++
      Instr.defcodelabel (s.nextLabel + 3) :: inc ++ [Instr.jump (s.nextLabel + 1)])
    (hb : s1.code = (ForStatement.afterIncr X s).code ++
      Instr.defcodelabel (s.nextLabel + 4) :: body) :
    ((ForStatement.afterTest X s).CurTok.Tok ≠ TOK_RPAREN →
      (ForStatement.finish X s P s1).code =
        s.code ++ init ++ Instr.defcodelabel (s.nextLabel + 1) :: cond ++
        (if (ForStatement.afterInit X s).CurTok.Tok ≠ TOK_SEMI then
          [Instr.truejump X.CF_NONE (s.nextLabel + 4), Instr.jump (s.nextLabel + 2)]
         else [Instr.jump (s.nextLabel + 4)]) ++
        Instr.defcodelabel (s.nextLabel + 4) :: body ++
        Instr.defcodelabel (s.nextLabel + 3) :: inc ++
        [Instr.jump (s.nextLabel + 1), Instr.defcodelabel (s.nextLabel + 2)]) ∧
    ((ForStatement.afterTest X s).CurTok.Tok = TOK_RPAREN → inc = [] →
      (ForStatement.finish X s P s1).code =
        s.code ++ init ++ Instr.defcodelabel (s.nextLabel + 1) :: cond ++
        (if (ForStatement.afterInit X s).CurTok.Tok ≠ TOK_SEMI then
          [Instr.truejump X.CF_NONE (s.nextLabel + 4), Instr.jump (s.nextLabel + 2)]
         else [Instr.jump (s.nextLabel + 4)]) ++
        [Instr.defcodelabel (s.nextLabel + 3), Instr.jump (s.nextLabel + 1)] ++
        Instr.defcodelabel (s.nextLabel + 4) :: body ++
        [Instr.jump (s.nextLabel + 3), Instr.defcodelabel (s.nextLabel + 2)]) := by
  refine ⟨?_, ?_⟩
  · intro hp
    simp only [ForStatement.finish, DelLoop_code, g_defcodelabel, emit_code, SkipPending_code,
      if_pos hp]
    have hs1 : s1.code = (ForStatement.afterTest X s).code ++
        (Instr.defcodelabel (s.nextLabel + 3) :: inc ++ [Instr.jump (s.nextLabel + 1)]) ++
        (Instr.defcodelabel (s.nextLabel + 4) :: body) := by
      rw [hb, hn]; simp
    have e2 : GetCodePos (ForStatement.afterIncr X s) =
        (ForStatement.afterTest X s).code.length +
        (Instr.defcodelabel (s.nextLabel + 3) :: inc ++ [Instr.jump (s.nextLabel + 1)]).length := by
      rw [GetCodePos, hn]; simp
    have e3 : GetCodePos s1 =
        (ForStatement.afterTest X s).code.length +
        (Instr.defcodelabel (s.nextLabel + 3) :: inc ++ [Instr.jump (s.nextLabel + 1)]).length +
        (Instr.defcodelabel (s.nextLabel + 4) :: body).length := by
      rw [GetCodePos, hs1]; simp
      omega
    rw [e2, e3]
    have e1 : GetCodePos (ForStatement.afterTest X s) =
        (ForStatement.afterTest X s).code.length := rfl
    rw [e1, MoveCode_append _ _ _ s1 hs1, hc, hi]
    simp
  · intro hp hn0
    have hp2 : ¬ ((ForStatement.afterTest X s).CurTok.Tok ≠ TOK_RPAREN) := fun n => n hp
    simp only [ForStatement.finish, DelLoop_code, g_defcodelabel, emit_code, SkipPending_code,
      if_neg hp2, g_jump]
    rw [hb, hn, hn0, hc, hi]
    simp

theorem caseLabel_branch (X : Ext) (Expr : ExprDesc)
    (Flags : Nat) (w : CascadeVars) (t : State) (w' : CascadeVars) (t' : State)
    (h : CascadeSwitch.caseLabel X Expr Flags w t = .ok (w', t')) :
    t'.code = (X.constexpr (NextToken t)).2.code ++
      Instr.cmp Flags (X.constexpr (NextToken t)).1.ConstVal ::
      (if (X.constexpr (NextToken t)).2.NextTok.Tok = TOK_CASE then
        [Instr.falsejump X.CF_NONE w'.CodeLab]
       else if (X.constexpr (NextToken t)).2.NextTok.Tok ≠ TOK_DEFAULT then
        [Instr.truejump X.CF_NONE w'.NextLab]
       else []) ∧
    ((X.constexpr (NextToken t)).2.NextTok.Tok = TOK_CASE →
      w'.CodeLab = (CascadeSwitch.needLabel w.CodeLab (X.constexpr (NextToken t)).2).1 ∧
      w'.NextLab = w.NextLab) ∧
    ((X.constexpr (NextToken t)).2.NextTok.Tok ≠ TOK_CASE →
      (X.constexpr (NextToken t)).2.NextTok.Tok ≠ TOK_DEFAULT →
      w'.NextLab = (CascadeSwitch.needLabel w.NextLab (X.constexpr (NextToken t)).2).1 ∧
      w'.CodeLab = w.CodeLab) ∧
    ((X.constexpr (NextToken t)).2.NextTok.Tok = TOK_DEFAULT →
      w'.NextLab = w.NextLab ∧ w'.CodeLab = w.CodeLab) ∧
    w'.HaveBreak = w.HaveBreak := by
  simp only [CascadeSwitch.caseLabel, Outcome_bind_eq_ok] at h
  obtain ⟨s1, h1, h2⟩ := h
  have e1 : s1.code = (X.constexpr (NextToken t)).2.code := by
    rw [rangeCheck_code _ _ _ _ h1]
    split_ifs <;> simp [Error]
  have e2 : s1.toks = (X.constexpr (NextToken t)).2.toks := by
    rw [rangeCheck_toks _ _ _ _ h1]
    split_ifs <;> simp [Error]
  have e3 : s1.nextLabel = (X.constexpr (NextToken t)).2.nextLabel := by
    rw [rangeCheck_nextLabel _ _ _ _ h1]
    split_ifs <;> simp [Error]
  have hn : (g_cmp Flags (X.constexpr (NextToken t)).1.ConstVal s1).NextTok =
      (X.constexpr (NextToken t)).2.NextTok := by
    simp [State.NextTok, g_cmp, emit, e2]
  have hcode : (g_cmp Flags (X.constexpr (NextToken t)).1.ConstVal s1).code =
      (X.constexpr (NextToken t)).2.code ++
        [Instr.cmp Flags (X.constexpr (NextToken t)).1.ConstVal] := by
    simp [g_cmp, emit, e1]
  have hl : ∀ L, (CascadeSwitch.needLabel L
      (g_cmp Flags (X.constexpr (NextToken t)).1.ConstVal s1)).1 =
      (CascadeSwitch.needLabel L (X.constexpr (NextToken t)).2).1 := by
    intro L
    unfold CascadeSwitch.needLabel
    split_ifs <;> simp [GetLocalLabel, g_cmp, emit, e3]
  simp only [Outcome.ok.injEq, Prod.mk.injEq, ConsumeColon] at h2
  obtain ⟨hw, ht⟩ := h2
  obtain ⟨j1, j2, j3⟩ := caseJump_spec X { w with lcount := w.lcount + 1 }
    (g_cmp Flags (X.constexpr (NextToken t)).1.ConstVal s1)
  rw [hn] at j1 j2 j3
  by_cases c1 : (X.constexpr (NextToken t)).2.NextTok.Tok = TOK_CASE
  · rw [j1 c1] at hw ht
    subst hw
    refine ⟨?_, fun _ => ⟨hl _, rfl⟩, fun n => absurd c1 n, ?_, rfl⟩
    · rw [← ht, Consume_code]
      simp [g_falsejump, emit, hcode, c1]
    · intro d; rw [d] at c1; exact absurd c1 (by decide)
  · by_cases c2 : (X.constexpr (NextToken t)).2.NextTok.Tok = TOK_DEFAULT
    · rw [j3 c2] at hw ht
      subst hw
      refine ⟨?_, fun n => absurd n c1, fun _ n => absurd c2 n, fun _ => ⟨rfl, rfl⟩, rfl⟩
      rw [← ht, Consume_code]
      simp [hcode, c1, c2]
    · rw [j2 c1 c2] at hw ht
      subst hw
      refine ⟨?_, fun n => absurd n c1, fun _ _ => ⟨hl _, rfl⟩,
        fun n => absurd n c2, rfl⟩
      rw [← ht, Consume_code]
      simp [g_truejump, emit, hcode, c1, c2]

theorem caseLabel_returns (X : Ext) (Expr : ExprDesc) (Flags : Nat) (lo hi : Int)
    (ht : specRange Expr.Type_ = some (lo, hi)) (w : CascadeVars) (t : State) :
    ∃ w' t', CascadeSwitch.caseLabel X Expr Flags w t = .ok (w', t') := by
  simp only [CascadeSwitch.caseLabel, rangeCheck_spec _ lo hi ht, Outcome.bind]
  exact ⟨_, _, rfl⟩

theorem caseLabel_event (X : Ext) (Expr : ExprDesc)
    (Flags : Nat) (w : CascadeVars) (t : State) (w' : CascadeVars) (t' : State)
    (hc : t.CurTok.Tok = TOK_CASE)
    (h : CascadeSwitch.caseLabel X Expr Flags w t = .ok (w', t')) :
    t'.code = (X.constexpr (NextToken t)).2.code ++
      (CascadeSwitch.labelEvent X w t).code X Flags ∧
    CascadeEvInv w w' [CascadeSwitch.labelEvent X w t] := by
  obtain ⟨b1, b2, b3, b4, b5⟩ := caseLabel_branch X Expr Flags w t w' t' h
  by_cases c1 : (X.constexpr (NextToken t)).2.NextTok.Tok = TOK_CASE
  · obtain ⟨k1, k2⟩ := b2 c1
    have e : CascadeSwitch.labelEvent X w t =
        .caseEq (X.constexpr (NextToken t)).1.ConstVal w'.CodeLab := by
      simp [CascadeSwitch.labelEvent, hc, c1, k1]
    rw [e]
    refine ⟨by rw [b1, if_pos c1]; rfl, ?_, ?_, b5, ?_, ?_, ?_⟩
    · intro hz; rw [k1, needLabel_keep _ _ hz]
    · intro _; exact k2
    · intro val l hm
      simp only [List.mem_singleton, CascadeEvent.caseEq.injEq] at hm
      exact ⟨hm.2, by rw [hm.2, k1]; exact needLabel_ne_zero _ _⟩
    · intro val l hm; simp at hm
    · intro l hm; simp at hm
  · by_cases c2 : (X.constexpr (NextToken t)).2.NextTok.Tok = TOK_DEFAULT
    · obtain ⟨k1, k2⟩ := b4 c2
      have e : CascadeSwitch.labelEvent X w t =
          .caseOnly (X.constexpr (NextToken t)).1.ConstVal := by
        simp [CascadeSwitch.labelEvent, hc, c1, c2]
      rw [e]
      refine ⟨by rw [b1, if_neg c1, if_neg (by simpa using c2)]; rfl, fun _ => k2,
        fun _ => k1, b5, ?_, ?_, ?_⟩
      · intro val l hm; simp at hm
      · intro val l hm; simp at hm
      · intro l hm; simp at hm
    · obtain ⟨k1, k2⟩ := b3 c1 c2
      have e : CascadeSwitch.labelEvent X w t =
          .caseNe (X.constexpr (NextToken t)).1.ConstVal w'.NextLab := by
        simp [CascadeSwitch.labelEvent, hc, c1, c2, k1]
      rw [e]
      refine ⟨by rw [b1, if_neg c1, if_pos c2]; rfl, fun _ => k2, ?_, b5, ?_, ?_, ?_⟩
      · intro hz; rw [k1, needLabel_keep _ _ hz]
      · intro val l hm; simp at hm
      · intro val l hm
        simp only [List.mem_singleton, CascadeEvent.caseNe.injEq] at hm
        exact ⟨hm.2, by rw [hm.2, k1]; exact needLabel_ne_zero _ _⟩
      · intro l hm; simp at hm

theorem defaultLabel_event (X : Ext) (Flags : Nat) (w : CascadeVars) (t : State)
    (hc : t.CurTok.Tok ≠ TOK_CASE) :
    (CascadeSwitch.defaultLabel w t).2.code =
      t.code ++ (CascadeSwitch.labelEvent X w t).code X Flags ∧
    CascadeEvInv w (CascadeSwitch.defaultLabel w t).1 [CascadeSwitch.labelEvent X w t] := by
  by_cases c1 : (NextToken t).CurTok.Tok = TOK_CASE
  · have e : CascadeSwitch.labelEvent X w t =
        .defaultJump (CascadeSwitch.needLabel w.CodeLab (NextToken t)).1 := by
      simp [CascadeSwitch.labelEvent, hc, c1]
    rw [e, defaultLabel_case w t c1]
    refine ⟨?_, fun hz => needLabel_keep _ _ hz, fun _ => rfl, rfl, ?_, ?_, ?_⟩
    · rw [ConsumeColon, Consume_code]; simp [g_jump, emit, CascadeEvent.code]
    · intro val l hm; simp at hm
    · intro val l hm; simp at hm
    · intro l hm
      simp only [List.mem_singleton, CascadeEvent.defaultJump.injEq] at hm
      exact ⟨hm, hm ▸ needLabel_ne_zero _ _⟩
  · have e : CascadeSwitch.labelEvent X w t = .defaultOnly := by
      simp [CascadeSwitch.labelEvent, hc, c1]
    rw [e, defaultLabel_other w t c1]
    refine ⟨?_, fun _ => rfl, fun _ => rfl, rfl, ?_, ?_, ?_⟩
    · rw [ConsumeColon, Consume_code]; simp [CascadeEvent.code]
    · intro val l hm; simp at hm
    · intro val l hm; simp at hm
    · intro l hm; simp at hm

theorem CascadeEvInv_refl (v : CascadeVars) : CascadeEvInv v v [] :=
  ⟨fun _ => rfl, fun _ => rfl, rfl, by simp, by simp, by simp⟩

theorem CascadeEvInv_trans {a b c : CascadeVars} {e1 e2 : List CascadeEvent}
    (h1 : CascadeEvInv a b e1) (h2 : CascadeEvInv b c e2) : CascadeEvInv a c (e1 ++ e2) := by
  obtain ⟨a1, a2, a3, a4, a5, a6⟩ := h1
  obtain ⟨b1, b2, b3, b4, b5, b6⟩ := h2
  refine ⟨?_, ?_, b3.trans a3, ?_, ?_, ?_⟩
  · intro hz
    have := a1 hz
    rw [b1 (this ▸ hz), this]
  · intro hz
    have := a2 hz
    rw [b2 (this ▸ hz), this]
  · intro val l hm
    rcases List.mem_append.1 hm with hm | hm
    · obtain ⟨x1, x2⟩ := a4 val l hm
      exact ⟨by rw [b1 (x1 ▸ x2), x1], x2⟩
    · exact b4 val l hm
  · intro val l hm
    rcases List.mem_append.1 hm with hm | hm
    · obtain ⟨x1, x2⟩ := a5 val l hm
      exact ⟨by rw [b2 (x1 ▸ x2), x1], x2⟩
    · exact b5 val l hm
  · intro l hm
    rcases List.mem_append.1 hm with hm | hm
    · obtain ⟨x1, x2⟩ := a6 l hm
      exact ⟨by rw [b1 (x1 ▸ x2), x1], x2⟩
    · exact b6 l hm

theorem Cascade_labels_events (X : Ext) (Expr : ExprDesc) (Flags : Nat) (fuel : Nat) :
    ∀ (v : CascadeVars) (s : State) (v' : CascadeVars) (s' : State),
      CascadeSwitch.labels X Expr Flags fuel v s = .ok (v', s') →
      CascadeEvInv v v' (CascadeSwitch.labelsEvents X Expr Flags fuel v s) := by
  induction fuel with
  | zero => intro v s v' s' h; simp [CascadeSwitch.labels] at h
  | succ k ih =>
    intro v s v' s' h
    simp only [CascadeSwitch.labels] at h
    simp only [CascadeSwitch.labelsEvents]
    split at h
    · rename_i hcd
      rw [if_pos hcd]
      split at h
      · rename_i hc
        rw [if_pos hc]
        simp only [Outcome_bind_eq_ok] at h
        obtain ⟨⟨v1, s1⟩, h1, h2⟩ := h
        rw [h1]
        exact CascadeEvInv_trans (caseLabel_event X Expr Flags v s v1 s1 hc h1).2
          (ih _ _ _ _ h2)
      · rename_i hc
        rw [if_neg hc]
        exact CascadeEvInv_trans (defaultLabel_event X Flags v s hc).2 (ih _ _ _ _ h)
    · rename_i hcd
      rw [if_neg hcd]
      simp only [Outcome.ok.injEq, Prod.mk.injEq] at h
      rw [← h.1]
      exact CascadeEvInv_refl v

theorem Cascade_labels_returns (X : Ext) (Expr : ExprDesc) (Flags : Nat) (lo hi : Int)
    (ht : specRange Expr.Type_ = some (lo, hi)) (fuel : Nat) :
    ∀ (v : CascadeVars) (s : State),
      (CascadeSwitch.labelsEvents X Expr Flags fuel v s).length < fuel →
      ∃ v' s', CascadeSwitch.labels X Expr Flags fuel v s = .ok (v', s') := by
  induction fuel with
  | zero => intro v s h; simp at h
  | succ k ih =>
    intro v s h
    simp only [CascadeSwitch.labelsEvents] at h
    simp only [CascadeSwitch.labels]
    by_cases hcd : s.CurTok.Tok = TOK_CASE ∨ s.CurTok.Tok = TOK_DEFAULT
    · rw [if_pos hcd] at h ⊢
      by_cases hc : s.CurTok.Tok = TOK_CASE
      · rw [if_pos hc] at h ⊢
        obtain ⟨v1, s1, h1⟩ := caseLabel_returns X Expr Flags lo hi ht v s
        rw [h1] at h ⊢
        simp only [List.length_cons, Nat.add_lt_add_iff_right] at h
        exact ih v1 s1 h
      · rw [if_neg hc] at h ⊢
        simp only [List.length_cons, Nat.add_lt_add_iff_right] at h
        exact ih _ _ h
    · rw [if_neg hcd]
      exact ⟨_, _, rfl⟩

theorem CurTok_toks_pos (s : State) (t : token_t) (h : s.CurTok.Tok = t) (ht : t ≠ TOK_CEOF) :
    0 < s.toks.length := by
  cases e : s.toks with
  | nil => simp [State.CurTok, e] at h; exact absurd h.symm ht
  | cons a as => simp

theorem NextToken_toks_length (s : State) : (NextToken s).toks.length = s.toks.length - 1 := by
  simp [NextToken]

theorem Consume_toks_length (t : token_t) (m : String) (s : State) :
    (Consume t m s).toks.length ≤ s.toks.length := by
  unfold Consume
  split_ifs <;> simp [NextToken, Error]

theorem caseJump_toks (X : Ext) (v : CascadeVars) (s : State) :
    (CascadeSwitch.caseJump X v s).2.toks = s.toks := by
  unfold CascadeSwitch.caseJump
  split_ifs <;> simp [g_falsejump, g_truejump, emit]

theorem caseLabel_toks_length (X : Ext)
    (hT : ∀ t, (X.constexpr t).2.toks.length ≤ t.toks.length) (Expr : ExprDesc)
    (Flags : Nat) (w : CascadeVars) (t : State) (w' : CascadeVars) (t' : State)
    (hc : t.CurTok.Tok = TOK_CASE)
    (h : CascadeSwitch.caseLabel X Expr Flags w t = .ok (w', t')) :
    t'.toks.length < t.toks.length := by
  simp only [CascadeSwitch.caseLabel, Outcome_bind_eq_ok] at h
  obtain ⟨s1, h1, h2⟩ := h
  have e2 : s1.toks = (X.constexpr (NextToken t)).2.toks := by
    rw [rangeCheck_toks _ _ _ _ h1]
    split_ifs <;> simp [Error]
  simp only [Outcome.ok.injEq, Prod.mk.injEq, ConsumeColon] at h2
  have a1 := Consume_toks_length TOK_COLON "`:' expected"
    (CascadeSwitch.caseJump X { w with lcount := w.lcount + 1 }
      (g_cmp Flags (X.constexpr (NextToken t)).1.ConstVal s1)).2
  rw [h2.2, caseJump_toks] at a1
  have a2 : (g_cmp Flags (X.constexpr (NextToken t)).1.ConstVal s1).toks = s1.toks := rfl
  rw [a2, e2] at a1
  have a3 := hT (NextToken t)
  rw [NextToken_toks_length] at a3
  have a4 := CurTok_toks_pos t _ hc (by decide)
  omega

theorem defaultLabel_toks_length (w : CascadeVars) (t : State)
    (hc : t.CurTok.Tok = TOK_DEFAULT) :
    (CascadeSwitch.defaultLabel w t).2.toks.length < t.toks.length := by
  have a4 := CurTok_toks_pos t _ hc (by decide)
  have a3 := NextToken_toks_length t
  by_cases c1 : (NextToken t).CurTok.Tok = TOK_CASE
  · rw [defaultLabel_case w t c1]
    have a1 := Consume_toks_length TOK_COLON "`:' expected"
      (g_jump (CascadeSwitch.needLabel w.CodeLab (NextToken t)).1
         (CascadeSwitch.needLabel w.CodeLab (NextToken t)).2)
    have a2 : (g_jump (CascadeSwitch.needLabel w.CodeLab (NextToken t)).1
         (CascadeSwitch.needLabel w.CodeLab (NextToken t)).2).toks = (NextToken t).toks := by
      simp [g_jump, emit]
    rw [a2] at a1
    simp only [ConsumeColon]
    omega
  · rw [defaultLabel_other w t c1]
    have a1 := Consume_toks_length TOK_COLON "`:' expected" (NextToken t)
    simp only [ConsumeColon]
    omega

theorem Cascade_labels_events_length (X : Ext)
    (hT : ∀ t, (X.constexpr t).2.toks.length ≤ t.toks.length) (Expr : ExprDesc)
    (Flags : Nat) (fuel : Nat) :
    ∀ (v : CascadeVars) (s : State),
      (CascadeSwitch.labelsEvents X Expr Flags fuel v s).length ≤ s.toks.length := by
  induction fuel with
  | zero => intro v s; simp [CascadeSwitch.labelsEvents]
  | succ k ih =>
    intro v s
    simp only [CascadeSwitch.labelsEvents]
    by_cases hcd : s.CurTok.Tok = TOK_CASE ∨ s.CurTok.Tok = TOK_DEFAULT
    · rw [if_pos hcd]
      by_cases hc : s.CurTok.Tok = TOK_CASE
      · rw [if_pos hc]
        cases h1 : CascadeSwitch.caseLabel X Expr Flags v s with
        | ok r =>
          obtain ⟨v1, s1⟩ := r
          have a := caseLabel_toks_length X hT Expr Flags v s v1 s1 hc h1
          have b := ih v1 s1
          simp only [List.length_cons]
          omega
        | internal m => simp
        | fuel => simp
      · rw [if_neg hc]
        have hd : s.CurTok.Tok = TOK_DEFAULT := by
          rcases hcd with h | h
          · exact absurd h hc
          · exact h
        have a := defaultLabel_toks_length v s hd
        have b := ih (CascadeSwitch.defaultLabel v s).1 (CascadeSwitch.defaultLabel v s).2
        simp only [List.length_cons]
        omega
    · rw [if_neg hcd]; simp

theorem Cascade_labels_case_step (X : Ext) (Expr : ExprDesc) (Flags fuel : Nat)
    (w : CascadeVars) (t : State) (w' : CascadeVars) (t' : State)
    (hc : t.CurTok.Tok = TOK_CASE)
    (h : CascadeSwitch.caseLabel X Expr Flags w t = .ok (w', t')) :
    CascadeSwitch.labels X Expr Flags (fuel + 1) w t =
      CascadeSwitch.labels X Expr Flags fuel w' t' := by
  simp only [CascadeSwitch.labels, hc, true_or, if_true, h, Outcome.bind]

/-- C1: `IfStatement` returns exactly when the statements of its branches return.
Without an `else` the flag is `0` whatever the flag `a` of the then-branch is; with an
`else` the flag is `1` if and only if the flags `a` and `b` of both branches are `1`. -/
theorem C1_if_flag (X : Ext) (n : Nat) (s : State) (r : Nat) (s' : State) :
    IfStatement X (Statement X n) s = .ok (r, s') ↔
      ∃ a Pa s1,
        Statement X n none (X.test (s.nextLabel + 1) 0 (GetLocalLabel (NextToken s)).2)
          = .ok (a, Pa, s1) ∧
        ((s1.CurTok.Tok ≠ TOK_ELSE ∧ r = 0 ∧ s' = g_defcodelabel (s.nextLabel + 1) s1) ∨
         (s1.CurTok.Tok = TOK_ELSE ∧ ∃ b Pb s2,
            Statement X n none
              (g_defcodelabel (s.nextLabel + 1)
                (NextToken (g_jump (s1.nextLabel + 1) (GetLocalLabel s1).2)))
              = .ok (b, Pb, s2) ∧
            r = (if a = 1 ∧ b = 1 then 1 else 0) ∧
            s' = g_defcodelabel (s1.nextLabel + 1) s2)) := by
  simp only [IfStatement, GetLocalLabel, Outcome_bind_eq_ok, NextToken]
  constructor
  · rintro ⟨⟨a, Pa, s1⟩, h1, h2⟩
    refine ⟨a, Pa, s1, h1, ?_⟩
    simp only at h2
    split at h2
    · rename_i hc
      left
      simp at h2
      exact ⟨hc, h2.1.symm, h2.2.symm⟩
    · rename_i hc
      right
      simp only [Outcome_bind_eq_ok] at h2
      obtain ⟨⟨b, Pb, s2⟩, h3, h4⟩ := h2
      simp at h4
      refine ⟨by simpa using hc, b, Pb, s2, h3, ?_, h4.2.symm⟩
      rw [← h4.1]
      exact land_flag a b (Statement_flag X n _ _ _ _ _ h1) (Statement_flag X n _ _ _ _ _ h3)
  · rintro ⟨a, Pa, s1, h1, h2⟩
    refine ⟨(a, Pa, s1), h1, ?_⟩
    rcases h2 with ⟨hc, hr, hs⟩ | ⟨hc, b, Pb, s2, h3, hr, hs⟩
    · simp [hc, hr, hs]
    · simp only [hc, ne_eq, not_true_eq_false, ite_false, Outcome_bind_eq_ok]
      refine ⟨(b, Pb, s2), h3, ?_⟩
      simp only [hr, hs]
      rw [land_flag a b (Statement_flag X n _ _ _ _ _ h1) (Statement_flag X n _ _ _ _ _ h3)]

/-- C1 on `if (1) return; else return;`: both branches exit, the flag is `1`. -/
theorem C1_if_flag_witness :
    ∃ a Pa s1,
        Statement (demoExt T_INT) 1 none
          ((demoExt T_INT).test ((initState ifElseToks 100).nextLabel + 1) 0
            (GetLocalLabel (NextToken (initState ifElseToks 100))).2) = .ok (a, Pa, s1) ∧
        ((s1.CurTok.Tok ≠ TOK_ELSE ∧ 1 = 0 ∧
            ifElseOut = g_defcodelabel ((initState ifElseToks 100).nextLabel + 1) s1) ∨
         (s1.CurTok.Tok = TOK_ELSE ∧ ∃ b Pb s2,
            Statement (demoExt T_INT) 1 none
              (g_defcodelabel ((initState ifElseToks 100).nextLabel + 1)
                (NextToken (g_jump (s1.nextLabel + 1) (GetLocalLabel s1).2)))
              = .ok (b, Pb, s2) ∧
            1 = (if a = 1 ∧ b = 1 then 1 else 0) ∧
            ifElseOut = g_defcodelabel (s1.nextLabel + 1) s2)) :=
  (C1_if_flag (demoExt T_INT) 1 (initState ifElseToks 100) 1 ifElseOut).mp (by decide)

/-- C2: with a non-empty loop stack `break` takes the top context, loop or switch
alike, and adds to the emitted code exactly the stack correction
`oursp - L.StackPtr` and one jump to `L.Label`; it skips the `break` token and
changes nothing else. -/
theorem C2_break_targets_top (s : State) (L : LoopDesc) (rest : List LoopDesc)
    (h : s.loops = L :: rest) :
    BreakStatement s =
      { s with toks := s.toks.tail,
               code := s.code ++ [Instr.space (s.oursp - L.StackPtr), Instr.jump L.Label] } := by
  simp [BreakStatement, CurrentLoop, NextToken, h, g_space, g_jump, emit]

/-- C2 on a stack with a switch context on top of a loop context at depth `-6`. -/
theorem C2_break_targets_top_witness :
    BreakStatement { initState [tk TOK_BREAK, tk TOK_SEMI] 100 with
        oursp := -6, loops := [⟨-2, 0, 7, 0, 0⟩, ⟨0, 3, 4, 0, 0⟩] } =
      { initState [tk TOK_BREAK, tk TOK_SEMI] 100 with
        oursp := -6, loops := [⟨-2, 0, 7, 0, 0⟩, ⟨0, 3, 4, 0, 0⟩],
        toks := [tk TOK_SEMI], code := [Instr.space (-4), Instr.jump 7] } :=
  (C2_break_targets_top _ ⟨-2, 0, 7, 0, 0⟩ [⟨0, 3, 4, 0, 0⟩] rfl).trans (by decide)

/-- C3: `continue` skips the contexts without a continue label and takes the first
one that has it; it emits the stack correction to that context's entry depth and a
jump to its increment label if there is one, else to its continue label. When no
context has a continue label it reports one error and emits nothing. -/
theorem C3_continue_nearest_loop (s : State) :
    (∀ (pre : List LoopDesc) (L : LoopDesc) (post : List LoopDesc),
      s.loops = pre ++ L :: post → (∀ M ∈ pre, M.Loop = 0) → L.Loop ≠ 0 →
      ContinueStatement s =
        { s with toks := s.toks.tail,
                 code := s.code ++ [Instr.space (s.oursp - L.StackPtr),
                                    Instr.jump (if L.linc ≠ 0 then L.linc else L.Loop)] }
      ∧ (if L.linc ≠ 0 then L.linc else L.Loop) ≠ 0) ∧
    ((∀ M ∈ s.loops, M.Loop = 0) →
      ContinueStatement s =
        { s with toks := s.toks.tail,
                 errors := s.errors ++ ["`continue' statement not within a loop"] }) := by
  constructor
  · intro pre L post h hpre hL
    have hs : searchLoop s.loops = some L := by
      rw [h, searchLoop_skip pre _ hpre]; simp [searchLoop, hL]
    constructor
    · by_cases hl : L.linc = 0 <;>
        simp [ContinueStatement, NextToken, hs, g_space, g_jump, emit, hl]
    · by_cases hl : L.linc = 0 <;> simp [hl, hL]
  · intro h
    have hs : searchLoop s.loops = none := searchLoop_none _ h
    simp [ContinueStatement, NextToken, hs, Error]

/-- C3 on a switch context on top of a `for` context, and on a lone switch context. -/
theorem C3_continue_nearest_loop_witness :
    (ContinueStatement { initState [tk TOK_CONTINUE, tk TOK_SEMI] 100 with
        oursp := -6, loops := [⟨-4, 0, 9, 0, 0⟩, ⟨-2, 5, 6, 7, 8⟩, ⟨0, 3, 4, 0, 0⟩] } =
      { initState [tk TOK_CONTINUE, tk TOK_SEMI] 100 with
        oursp := -6, loops := [⟨-4, 0, 9, 0, 0⟩, ⟨-2, 5, 6, 7, 8⟩, ⟨0, 3, 4, 0, 0⟩],
        toks := [tk TOK_SEMI], code := [Instr.space (-4), Instr.jump 7] }) ∧
    (ContinueStatement { initState [tk TOK_CONTINUE, tk TOK_SEMI] 100 with
        loops := [⟨0, 0, 9, 0, 0⟩] } =
      { initState [tk TOK_CONTINUE, tk TOK_SEMI] 100 with
        loops := [⟨0, 0, 9, 0, 0⟩], toks := [tk TOK_SEMI],
        errors := ["`continue' statement not within a loop"] }) :=
  ⟨(((C3_continue_nearest_loop _).1 [⟨-4, 0, 9, 0, 0⟩] ⟨-2, 5, 6, 7, 8⟩ [⟨0, 3, 4, 0, 0⟩]
      rfl (by decide) (by decide)).1).trans (by decide),
   ((C3_continue_nearest_loop _).2 (by decide)).trans (by decide)⟩

/-- C4: with an empty loop stack `break` reports exactly one error and emits neither a
stack correction nor a jump; so does the statement `break;` as a whole, which is still
reported as a definite exit. -/
theorem C4_break_outside_loop (s : State) (h : s.loops = []) :
    BreakStatement s =
      { s with toks := s.toks.tail,
               errors := s.errors ++ ["`break' statement not within loop or switch"] } ∧
    (∀ (X : Ext) (n : Nat) (P : Slot),
      s.CurTok.Tok = TOK_BREAK → s.NextTok.Tok = TOK_SEMI →
      ∃ P' s', Statement X (n + 1) P s = .ok (1, P', s') ∧
        s'.errors = s.errors ++ ["`break' statement not within loop or switch"] ∧
        s'.code = s.code) := by
  have hb : BreakStatement s =
      { s with toks := s.toks.tail,
               errors := s.errors ++ ["`break' statement not within loop or switch"] } := by
    simp [BreakStatement, CurrentLoop, NextToken, h, Error]
  refine ⟨hb, ?_⟩
  intro X n P hc hn
  have hcur : (BreakStatement s).CurTok.Tok = TOK_SEMI := by
    rw [hb]; exact hn
  cases P with
  | none =>
    refine ⟨none, NextToken (BreakStatement s), ?_, ?_, ?_⟩
    · simp [Statement, hc, CheckSemi, CheckTok, hcur]
    · rw [hb]; rfl
    · rw [hb]; rfl
  | some g =>
    refine ⟨some 1, BreakStatement s, ?_, ?_, ?_⟩
    · simp [Statement, hc, CheckSemi, CheckTok, hcur]
    · rw [hb]
    · rw [hb]

/-- C4 on `break;` with an empty loop stack. -/
theorem C4_break_outside_loop_witness :
    BreakStatement (initState [tk TOK_BREAK, tk TOK_SEMI, idt 1] 100) =
      { initState [tk TOK_SEMI, idt 1] 100 with
        errors := ["`break' statement not within loop or switch"] } ∧
    ∃ P' s', Statement (demoExt T_INT) 1 none (initState [tk TOK_BREAK, tk TOK_SEMI, idt 1] 100)
        = .ok (1, P', s') ∧
      s'.errors = [] ++ ["`break' statement not within loop or switch"] ∧ s'.code = [] :=
  ⟨(C4_break_outside_loop (initState [tk TOK_BREAK, tk TOK_SEMI, idt 1] 100) rfl).1.trans
      (by decide),
   (C4_break_outside_loop (initState [tk TOK_BREAK, tk TOK_SEMI, idt 1] 100) rfl).2
      (demoExt T_INT) 0 none (by decide) (by decide)⟩

/-- C5: the switch `switchDefaultMid`, whose `default` stands between two cases, run
with the selector value 2: the code of the cascade strategy (`CodeSizeFactor` 200)
executes the body of `default`, the code of the table strategy (`CodeSizeFactor` 100)
executes the body of `case 2`. With the `default` last (`switchDefaultLast`) the two
agree on the selector values 1, 2 and 3. -/
theorem C5_cascade_table_differ :
    SwitchStatement.useCascade 200 T_INT = true ∧
    SwitchStatement.useCascade 100 T_INT = false ∧
    behaviour (demoExt T_INT) 200 switchDefaultMid 2 = .done [99, 20] ∧
    behaviour (demoExt T_INT) 100 switchDefaultMid 2 = .done [99, 30] ∧
    [1, 2, 3].map (behaviour (demoExt T_INT) 200 switchDefaultLast) =
      [1, 2, 3].map (behaviour (demoExt T_INT) 100 switchDefaultLast) := by
  refine ⟨by decide, by decide, by decide, by decide, by decide⟩

/-- C6: after the selector has been parsed, `SwitchStatement` runs `CascadeSwitch` if
the selector type is a char type or if `CodeSizeFactor >= 200` and the type is of
integer class, and runs `TableSwitch` in every other case; it runs nothing else. -/
theorem C6_switch_strategy (X : Ext) (stmt : StmtFn) (fuel : Nat) (s : State) :
    ((IsTypeChar (X.intexpr (ConsumeLParen (NextToken s))).1.Type_ = true ∨
        (200 ≤ (ConsumeLCurly (ConsumeRParen
            (X.intexpr (ConsumeLParen (NextToken s))).2)).CodeSizeFactor ∧
         IsClassInt (X.intexpr (ConsumeLParen (NextToken s))).1.Type_ = true)) →
      SwitchStatement X stmt fuel s =
        CascadeSwitch X stmt fuel (X.intexpr (ConsumeLParen (NextToken s))).1
          (ConsumeLCurly (ConsumeRParen (X.intexpr (ConsumeLParen (NextToken s))).2))) ∧
    (¬ (IsTypeChar (X.intexpr (ConsumeLParen (NextToken s))).1.Type_ = true ∨
        (200 ≤ (ConsumeLCurly (ConsumeRParen
            (X.intexpr (ConsumeLParen (NextToken s))).2)).CodeSizeFactor ∧
         IsClassInt (X.intexpr (ConsumeLParen (NextToken s))).1.Type_ = true)) →
      SwitchStatement X stmt fuel s =
        TableSwitch X stmt fuel (X.intexpr (ConsumeLParen (NextToken s))).1
          (ConsumeLCurly (ConsumeRParen (X.intexpr (ConsumeLParen (NextToken s))).2))) ∧
    (∀ t, IsTypeChar t = true ↔ t = T_SCHAR ∨ t = T_UCHAR) := by
  refine ⟨?_, ?_, ?_⟩
  · intro h
    have hc : SwitchStatement.useCascade
        (ConsumeLCurly (ConsumeRParen (X.intexpr (ConsumeLParen (NextToken s))).2)).CodeSizeFactor
        (X.intexpr (ConsumeLParen (NextToken s))).1.Type_ = true := by
      simpa [SwitchStatement.useCascade] using h
    simp [SwitchStatement, hc]
  · intro h
    have hc : SwitchStatement.useCascade
        (ConsumeLCurly (ConsumeRParen (X.intexpr (ConsumeLParen (NextToken s))).2)).CodeSizeFactor
        (X.intexpr (ConsumeLParen (NextToken s))).1.Type_ = false := by
      simpa [SwitchStatement.useCascade] using h
    simp [SwitchStatement, hc]
  · intro t; cases t <;> simp [IsTypeChar]

/-- C6 on an int selector with `CodeSizeFactor` 200 and 100. -/
theorem C6_switch_strategy_witness :
    SwitchStatement (demoExt T_INT) (Statement (demoExt T_INT) 3) 3
        (initState switchDefaultMid 200) =
      CascadeSwitch (demoExt T_INT) (Statement (demoExt T_INT) 3) 3
        ((demoExt T_INT).intexpr (ConsumeLParen (NextToken (initState switchDefaultMid 200)))).1
        (ConsumeLCurly (ConsumeRParen ((demoExt T_INT).intexpr
          (ConsumeLParen (NextToken (initState switchDefaultMid 200)))).2)) ∧
    SwitchStatement (demoExt T_INT) (Statement (demoExt T_INT) 3) 3
        (initState switchDefaultMid 100) =
      TableSwitch (demoExt T_INT) (Statement (demoExt T_INT) 3) 3
        ((demoExt T_INT).intexpr (ConsumeLParen (NextToken (initState switchDefaultMid 100)))).1
        (ConsumeLCurly (ConsumeRParen ((demoExt T_INT).intexpr
          (ConsumeLParen (NextToken (initState switchDefaultMid 100)))).2)) :=
  ⟨(C6_switch_strategy (demoExt T_INT) (Statement (demoExt T_INT) 3) 3
      (initState switchDefaultMid 200)).1 (by decide),
   (C6_switch_strategy (demoExt T_INT) (Statement (demoExt T_INT) 3) 3
      (initState switchDefaultMid 100)).2.1 (by decide)⟩

/-- C8: `Statement` returns `1` for `return`, `break`, `continue` and `goto`; it returns
`0` for a label, an empty statement, a pragma and an expression statement; for `while`,
`do`, `for` and `switch` it returns exactly when their compilers return, and then `0`;
for a compound statement and an `if` it returns exactly when `CompoundStatement` and
`IfStatement` return, and then their flag. -/
theorem C8_statement_flag (X : Ext) (n : Nat) (P : Slot) (s : State) :
    ((s.CurTok.Tok = TOK_RETURN ∨ s.CurTok.Tok = TOK_BREAK ∨ s.CurTok.Tok = TOK_CONTINUE ∨
        s.CurTok.Tok = TOK_GOTO) →
      ∃ P' s', Statement X (n + 1) P s = .ok (1, P', s')) ∧
    (((s.CurTok.Tok = TOK_IDENT ∧ s.NextTok.Tok = TOK_COLON) ∨
        s.CurTok.Tok ∉ [TOK_LCURLY, TOK_IF, TOK_WHILE, TOK_DO, TOK_SWITCH, TOK_RETURN,
          TOK_BREAK, TOK_CONTINUE, TOK_FOR, TOK_GOTO]) →
      ∃ P' s', Statement X (n + 1) P s = .ok (0, P', s')) ∧
    (s.CurTok.Tok = TOK_WHILE → ∀ r, (∃ P' s', Statement X (n + 1) P s = .ok (r, P', s')) ↔
      (r = 0 ∧ ∃ s', WhileStatement X (Statement X n) s = .ok s')) ∧
    (s.CurTok.Tok = TOK_DO → ∀ r, (∃ P' s', Statement X (n + 1) P s = .ok (r, P', s')) ↔
      (r = 0 ∧ ∃ s', DoStatement X (Statement X n) s = .ok s')) ∧
    (s.CurTok.Tok = TOK_FOR → ∀ r, (∃ P' s', Statement X (n + 1) P s = .ok (r, P', s')) ↔
      (r = 0 ∧ ∃ s', ForStatement X (Statement X n) s = .ok s')) ∧
    (s.CurTok.Tok = TOK_SWITCH → ∀ r, (∃ P' s', Statement X (n + 1) P s = .ok (r, P', s')) ↔
      (r = 0 ∧ ∃ s', SwitchStatement X (Statement X n) n s = .ok s')) ∧
    (s.CurTok.Tok = TOK_LCURLY → ∀ r, (∃ P' s', Statement X (n + 1) P s = .ok (r, P', s')) ↔
      ∃ s', CompoundStatement X (Statement X n) n (NextToken s) = .ok (r, s')) ∧
    (s.CurTok.Tok = TOK_IF → ∀ r, (∃ P' s', Statement X (n + 1) P s = .ok (r, P', s')) ↔
      ∃ s', IfStatement X (Statement X n) s = .ok (r, s')) := by
  refine ⟨?_, ?_, ?_, ?_, ?_, ?_, ?_, ?_⟩
  · rintro (hc | hc | hc | hc) <;> simp [Statement, hc] <;> exact ⟨_, _, rfl⟩
  · rintro (hc | hc)
    · simp [Statement, hc]
    · by_cases hl : s.CurTok.Tok = TOK_IDENT ∧ s.NextTok.Tok = TOK_COLON
      · simp [Statement, hl]
      · have hl' : s.CurTok.Tok = TOK_IDENT → ¬ s.NextTok.Tok = TOK_COLON :=
          fun h1 h2 => hl ⟨h1, h2⟩
        cases hk : s.CurTok.Tok <;> simp [hk] at hc <;>
          first
            | (simp [Statement, hk, hl' hk]; exact ⟨_, _, rfl⟩)
            | (simp [Statement, hk]; done)
            | (simp [Statement, hk]; exact ⟨_, _, rfl⟩)
  all_goals
    intro hc r
    simp only [Statement, hc, false_and, if_false, reduceCtorEq]
    constructor
    · rintro ⟨P', s', h⟩
      simp only [Outcome_bind_eq_ok] at h
      obtain ⟨a, h1, h2⟩ := h
      simp at h2
      first
        | exact ⟨h2.1.symm, a, h1⟩
        | exact ⟨a.2, by rw [h1, ← h2.1]⟩
    · first
        | (rintro ⟨hr, s', h⟩; simp [h, hr, Outcome.bind]; done)
        | (rintro ⟨s', h⟩; simp [h, Outcome.bind]; done)
        | (rintro ⟨s', h⟩; simp [h, Outcome.bind]; exact ⟨_, _, rfl⟩)

/-- C8 on a `break`, an expression statement and a `while` statement. -/
theorem C8_statement_flag_witness :
    (∃ P' s', Statement (demoExt T_INT) 1 none breakIn = .ok (1, P', s')) ∧
    (∃ P' s', Statement (demoExt T_INT) 1 none (initState [idt 5, tk TOK_SEMI] 100)
      = .ok (0, P', s')) ∧
    ((∃ P' s', Statement (demoExt T_SCHAR) 6 none nestedLoopsIn = .ok (0, P', s')) ↔
      (0 = 0 ∧ ∃ s', WhileStatement (demoExt T_SCHAR) (Statement (demoExt T_SCHAR) 5)
        nestedLoopsIn = .ok s')) :=
  ⟨(C8_statement_flag (demoExt T_INT) 0 none breakIn).1 (by decide),
   (C8_statement_flag (demoExt T_INT) 0 none (initState [idt 5, tk TOK_SEMI] 100)).2.1
     (by decide),
   (C8_statement_flag (demoExt T_SCHAR) 5 none nestedLoopsIn).2.2.1 (by decide) 0⟩

/-- C9 (amended): a passed slot is written on every path and holds `0` or `1` on return;
it holds `1` only when the current token is the terminator of the statement (semicolon
or closing brace), left in place; the call without a slot ends in the state that the
call with a slot followed by `SkipPending` ends in, so `SkipPending` skips exactly the
pending terminator. When the token `CheckTok` looks for is missing, it reports an
error, skips nothing and leaves the slot as it is; when the token is there, it is
skipped if there is no slot and left in place with the slot set to `1` otherwise. -/
theorem C9_pending_protocol (X : Ext) (n : Nat) (P : Slot) (s : State) (r : Nat)
    (P' : Slot) (s' : State) (h : Statement X n P s = .ok (r, P', s')) :
    (P = none → P' = none) ∧
    (P ≠ none → P' = some 0 ∨
      (P' = some 1 ∧ (s'.CurTok.Tok = TOK_SEMI ∨ s'.CurTok.Tok = TOK_RCURLY))) ∧
    Statement X n none s = .ok (r, none, SkipPending (P'.getD 0) s') ∧
    (∀ (Tok : token_t) (Msg : String) (Q : Slot) (t : State), t.CurTok.Tok ≠ Tok →
      CheckTok Tok Msg Q t = (Q, Error Msg t)) ∧
    (∀ (Tok : token_t) (Msg : String) (g : Nat) (t : State), t.CurTok.Tok = Tok →
      CheckTok Tok Msg (some g) t = (some 1, t) ∧
      CheckTok Tok Msg none t = (none, NextToken t)) := by
  have hpres : ∀ (Tok : token_t) (Msg : String) (g : Nat) (t : State), t.CurTok.Tok = Tok →
      CheckTok Tok Msg (some g) t = (some 1, t) ∧
      CheckTok Tok Msg none t = (none, NextToken t) := by
    intro Tok Msg g t ht
    simp [CheckTok, ht]
  have hlast : ∀ (Tok : token_t) (Msg : String) (Q : Slot) (t : State), t.CurTok.Tok ≠ Tok →
      CheckTok Tok Msg Q t = (Q, Error Msg t) := by
    intro Tok Msg Q t ht
    simp [CheckTok, ht]
  cases n with
  | zero => simp [Statement] at h
  | succ n =>
    obtain ⟨o, ho, hQ⟩ := Statement_shape X n s
    rw [hQ P, Outcome_bind_eq_ok] at h
    obtain ⟨⟨r0, chk, s1⟩, h1, h2⟩ := h
    rw [hQ none, h1]
    cases chk with
    | none =>
      simp only [Statement.finish, Outcome.ok.injEq, Prod.mk.injEq] at h2
      obtain ⟨h3, h4, h5⟩ := h2
      subst h3 h4 h5
      refine ⟨?_, ?_, ?_, hlast, hpres⟩
      · intro hP; simp [hP]
      · intro hP; cases P <;> simp at hP ⊢
      · cases P <;> simp [Outcome.bind, Statement.finish, SkipPending]
    | some c =>
      obtain ⟨Tok, Msg⟩ := c
      have hT := ho r0 Tok Msg s1 h1
      simp only [Statement.finish, Outcome.ok.injEq, Prod.mk.injEq] at h2
      obtain ⟨h3, h4, h5⟩ := h2
      subst h3 h4 h5
      have hp := CheckTok_protocol Tok Msg s1 hT
      cases P with
      | none =>
        refine ⟨fun _ => ?_, fun hP => absurd rfl hP, ?_, hlast, hpres⟩
        · rcases CheckTok_cases Tok Msg 0 s1 with ⟨hc, _, h2⟩ | ⟨hc, _, h2⟩ <;> simp [h2]
        · rcases CheckTok_cases Tok Msg 0 s1 with ⟨hc, _, h2⟩ | ⟨hc, _, h2⟩ <;>
            simp [Outcome.bind, Statement.finish, SkipPending, h2]
      | some g =>
        refine ⟨by simp, fun _ => ?_, ?_, hlast, hpres⟩
        · simpa using hp.1
        · simp only [Outcome.bind, Statement.finish, Option.isSome_some, if_true,
            Option.isSome_none, Bool.false_eq_true, if_false]
          rw [hp.2]

/-- C9 (as stated) fails: the expression statement `5` before a closing brace, compiled
with a slot, returns with the slot at `0` although no terminator has been consumed: its
semicolon is missing. -/
theorem C9_counterexample :
    ∃ s', Statement (demoExt T_INT) 1 (some 0) (initState [idt 5, tk TOK_RCURLY] 100)
        = .ok (0, some 0, s') ∧
      s'.errors = ["`;' expected"] ∧
      ¬ TerminatorConsumed (initState [idt 5, tk TOK_RCURLY] 100).toks s'.toks := by
  refine ⟨{ initState [tk TOK_RCURLY] 100 with
            code := [.expr 5], errors := ["`;' expected"] }, by decide, rfl, ?_⟩
  rintro ⟨pre, t, h, ht⟩
  cases pre with
  | nil =>
    simp [initState] at h
    rw [← h] at ht
    revert ht
    decide
  | cons a pre =>
    cases pre <;> simp [initState] at h

/-- C9 (amended) on `break;` compiled with a slot: the semicolon is pending. -/
theorem C9_pending_protocol_witness :
    (some 1 = some 0 ∨
      ((some 1 : Slot) = some 1 ∧
        (breakOut.CurTok.Tok = TOK_SEMI ∨ breakOut.CurTok.Tok = TOK_RCURLY))) ∧
    Statement (demoExt T_INT) 1 none breakIn
      = .ok (1, none, SkipPending ((some 1 : Slot).getD 0) breakOut) :=
  ⟨(C9_pending_protocol (demoExt T_INT) 1 (some 0) breakIn 1 (some 1) breakOut
      (by decide)).2.1 (by decide),
   (C9_pending_protocol (demoExt T_INT) 1 (some 0) breakIn 1 (some 1) breakOut
      (by decide)).2.2.1⟩

/-- C10: when the collaborators leave the loop stack alone, `Statement` returns with
the loop stack it was called with, whatever errors were reported on the way. Each of
`WhileStatement`, `DoStatement`, `ForStatement`, `CascadeSwitch` and `TableSwitch`
compiles its body in a state whose stack is the caller's stack with exactly one more
context on top (`bodyStart` / `start`); it returns exactly when the body returns, and
then in the state `finish`; the body returns with that same stack, and `finish` removes
the top of the stack, so that exactly the pushed context is popped. -/
theorem C10_loop_stack_preserved (X : Ext) (hX : X.KeepsLoops) (n fuel : Nat) :
    (∀ P s r P' s', Statement X n P s = .ok (r, P', s') → s'.loops = s.loops) ∧
    (∀ s,
      (WhileStatement.bodyStart X s).loops =
        ⟨s.oursp, s.nextLabel + 1, s.nextLabel + 2, 0, 0⟩ :: s.loops ∧
      (∀ s', WhileStatement X (Statement X n) s = .ok s' ↔
        ∃ a Pa s1, Statement X n (some 0) (WhileStatement.bodyStart X s) = .ok (a, Pa, s1) ∧
          s' = WhileStatement.finish s Pa s1) ∧
      (∀ a Pa s1, Statement X n (some 0) (WhileStatement.bodyStart X s) = .ok (a, Pa, s1) →
        s1.loops = ⟨s.oursp, s.nextLabel + 1, s.nextLabel + 2, 0, 0⟩ :: s.loops ∧
        (WhileStatement.finish s Pa s1).loops = s1.loops.tail ∧
        (WhileStatement.finish s Pa s1).loops = s.loops)) ∧
    (∀ s,
      (DoStatement.bodyStart s).loops =
        ⟨s.oursp, s.nextLabel + 1, s.nextLabel + 2, 0, 0⟩ :: s.loops ∧
      (∀ s', DoStatement X (Statement X n) s = .ok s' ↔
        ∃ a Pa s1, Statement X n none (DoStatement.bodyStart s) = .ok (a, Pa, s1) ∧
          s' = DoStatement.finish X s s1) ∧
      (∀ a Pa s1, Statement X n none (DoStatement.bodyStart s) = .ok (a, Pa, s1) →
        s1.loops = ⟨s.oursp, s.nextLabel + 1, s.nextLabel + 2, 0, 0⟩ :: s.loops ∧
        (DoStatement.finish X s s1).loops = s1.loops.tail ∧
        (DoStatement.finish X s s1).loops = s.loops)) ∧
    (∀ s,
      (ForStatement.bodyStart X s).loops =
        ⟨s.oursp, s.nextLabel + 1, s.nextLabel + 2, s.nextLabel + 3, s.nextLabel + 4⟩ ::
          s.loops ∧
      (∀ s', ForStatement X (Statement X n) s = .ok s' ↔
        ∃ a Pa s1, Statement X n (some 0) (ForStatement.bodyStart X s) = .ok (a, Pa, s1) ∧
          s' = ForStatement.finish X s Pa s1) ∧
      (∀ a Pa s1, Statement X n (some 0) (ForStatement.bodyStart X s) = .ok (a, Pa, s1) →
        s1.loops = ⟨s.oursp, s.nextLabel + 1, s.nextLabel + 2, s.nextLabel + 3,
          s.nextLabel + 4⟩ :: s.loops ∧
        (ForStatement.finish X s Pa s1).loops = s1.loops.tail ∧
        (ForStatement.finish X s Pa s1).loops = s.loops)) ∧
    (∀ Expr s,
      (CascadeSwitch.start s).loops = ⟨s.oursp, 0, s.nextLabel + 1, 0, 0⟩ :: s.loops ∧
      (∀ s', CascadeSwitch X (Statement X n) fuel Expr s = .ok s' ↔
        ∃ v s1, CascadeSwitch.body X (Statement X n) Expr
            (X.TypeOf Expr.Type_ ||| X.CF_CONST ||| X.CF_FORCECHAR) fuel ⟨0, 0, 1, 0, 0⟩
            (CascadeSwitch.start s) = .ok (v, s1) ∧
          s' = CascadeSwitch.finish s v s1) ∧
      (∀ v s1, CascadeSwitch.body X (Statement X n) Expr
            (X.TypeOf Expr.Type_ ||| X.CF_CONST ||| X.CF_FORCECHAR) fuel ⟨0, 0, 1, 0, 0⟩
            (CascadeSwitch.start s) = .ok (v, s1) →
        s1.loops = ⟨s.oursp, 0, s.nextLabel + 1, 0, 0⟩ :: s.loops ∧
        (CascadeSwitch.finish s v s1).loops = s1.loops.tail ∧
        (CascadeSwitch.finish s v s1).loops = s.loops)) ∧
    (∀ Expr s,
      (TableSwitch.start s).loops = ⟨s.oursp, 0, s.nextLabel + 1, 0, 0⟩ :: s.loops ∧
      (∀ s', TableSwitch X (Statement X n) fuel Expr s = .ok s' ↔
        ∃ v s1, TableSwitch.body X (Statement X n) fuel ⟨0, 0, []⟩ (TableSwitch.start s)
            = .ok (v, s1) ∧
          s' = TableSwitch.finish X Expr s v s1) ∧
      (∀ v s1, TableSwitch.body X (Statement X n) fuel ⟨0, 0, []⟩ (TableSwitch.start s)
            = .ok (v, s1) →
        s1.loops = ⟨s.oursp, 0, s.nextLabel + 1, 0, 0⟩ :: s.loops ∧
        (TableSwitch.finish X Expr s v s1).loops = s1.loops.tail ∧
        (TableSwitch.finish X Expr s v s1).loops = s.loops)) := by
  have hS := Statement_loops X hX n
  refine ⟨hS, ?_, ?_, ?_, ?_, ?_⟩
  · intro s
    refine ⟨WhileStatement_bodyStart_loops X hX s, fun s' => ?_, fun a Pa s1 h => ?_⟩
    · rw [WhileStatement_eq, bind_ok_iff]
      constructor
      · rintro ⟨⟨a, Pa, s1⟩, h1, h2⟩; exact ⟨a, Pa, s1, h1, h2⟩
      · rintro ⟨a, Pa, s1, h1, h2⟩; exact ⟨(a, Pa, s1), h1, h2⟩
    · have e := (hS _ _ _ _ _ h).trans (WhileStatement_bodyStart_loops X hX s)
      exact ⟨e, WhileStatement_finish_loops _ _ _,
        by rw [WhileStatement_finish_loops, e]; rfl⟩
  · intro s
    refine ⟨DoStatement_bodyStart_loops s, fun s' => ?_, fun a Pa s1 h => ?_⟩
    · rw [DoStatement_eq, bind_ok_iff]
      constructor
      · rintro ⟨⟨a, Pa, s1⟩, h1, h2⟩; exact ⟨a, Pa, s1, h1, h2⟩
      · rintro ⟨a, Pa, s1, h1, h2⟩; exact ⟨(a, Pa, s1), h1, h2⟩
    · have e := (hS _ _ _ _ _ h).trans (DoStatement_bodyStart_loops s)
      exact ⟨e, DoStatement_finish_loops X hX _ _,
        by rw [DoStatement_finish_loops X hX, e]; rfl⟩
  · intro s
    refine ⟨ForStatement_bodyStart_loops X hX s, fun s' => ?_, fun a Pa s1 h => ?_⟩
    · rw [ForStatement_eq_finish, bind_ok_iff]
      constructor
      · rintro ⟨⟨a, Pa, s1⟩, h1, h2⟩; exact ⟨a, Pa, s1, h1, h2⟩
      · rintro ⟨a, Pa, s1, h1, h2⟩; exact ⟨(a, Pa, s1), h1, h2⟩
    · have e := (hS _ _ _ _ _ h).trans (ForStatement_bodyStart_loops X hX s)
      exact ⟨e, ForStatement_finish_loops _ _ _ _,
        by rw [ForStatement_finish_loops, e]; rfl⟩
  · intro Expr s
    refine ⟨CascadeSwitch_start_loops s, fun s' => ?_, fun v s1 h => ?_⟩
    · rw [CascadeSwitch_eq, bind_ok_iff]
      constructor
      · rintro ⟨⟨v, s1⟩, h1, h2⟩; exact ⟨v, s1, h1, h2⟩
      · rintro ⟨v, s1, h1, h2⟩; exact ⟨(v, s1), h1, h2⟩
    · have e := (Cascade_body_loops X hX _ hS _ _ _ _ _ _ _ h).trans
        (CascadeSwitch_start_loops s)
      exact ⟨e, CascadeSwitch_finish_loops _ _ _,
        by rw [CascadeSwitch_finish_loops, e]; rfl⟩
  · intro Expr s
    refine ⟨TableSwitch_start_loops s, fun s' => ?_, fun v s1 h => ?_⟩
    · rw [TableSwitch_eq, bind_ok_iff]
      constructor
      · rintro ⟨⟨v, s1⟩, h1, h2⟩; exact ⟨v, s1, h1, h2⟩
      · rintro ⟨v, s1, h1, h2⟩; exact ⟨(v, s1), h1, h2⟩
    · have e := (Table_body_loops X hX _ hS _ _ _ _ _ h).trans
        (TableSwitch_start_loops s)
      exact ⟨e, TableSwitch_finish_loops _ _ _ _ _,
        by rw [TableSwitch_finish_loops, e]; rfl⟩

/-- C10 on nested loops and switches with a syntax error, inside an enclosing switch: the
statement returns with the stack of the enclosing switch; the body of the outer `while`
is compiled with the context of that loop pushed on it, it returns with that stack, and
the state `WhileStatement` returns in is `finish` of the state the body returned in. -/
theorem C10_loop_stack_preserved_witness :
    nestedLoopsCascadeOut.loops = nestedLoopsIn.loops ∧
    nestedLoopsTableOut.loops = nestedLoopsIn.loops ∧
    nestedLoopsCascadeOut.errors = ["`;' expected"] ∧
    (WhileStatement.bodyStart (demoExt T_SCHAR) nestedLoopsIn).loops =
      [⟨0, 1, 2, 0, 0⟩, ⟨0, 0, 77, 0, 0⟩] ∧
    ∃ a Pa s1,
      Statement (demoExt T_SCHAR) 5 (some 0)
        (WhileStatement.bodyStart (demoExt T_SCHAR) nestedLoopsIn) = .ok (a, Pa, s1) ∧
      s1.loops = [⟨0, 1, 2, 0, 0⟩, ⟨0, 0, 77, 0, 0⟩] ∧
      nestedLoopsCascadeOut = WhileStatement.finish nestedLoopsIn Pa s1 ∧
      (WhileStatement.finish nestedLoopsIn Pa s1).loops = [⟨0, 0, 77, 0, 0⟩] := by
  have h := C10_loop_stack_preserved (demoExt T_SCHAR) (demoExt_KeepsLoops T_SCHAR) 5 0
  obtain ⟨a, Pa, s1, h1, h2⟩ :=
    ((h.2.1 nestedLoopsIn).2.1 nestedLoopsCascadeOut).mp (by decide)
  have h3 := (h.2.1 nestedLoopsIn).2.2 a Pa s1 h1
  exact ⟨(C10_loop_stack_preserved (demoExt T_SCHAR) (demoExt_KeepsLoops T_SCHAR) 6 0).1
      none nestedLoopsIn 0 none nestedLoopsCascadeOut (by decide),
    (C10_loop_stack_preserved (demoExt T_INT) (demoExt_KeepsLoops T_INT) 6 0).1
      none nestedLoopsIn 0 none nestedLoopsTableOut (by decide),
    rfl, (h.2.1 nestedLoopsIn).1, a, Pa, s1, h1, h3.1, h2, h3.2.2⟩

/-- C11: the switch `switchTwoDefault` has two default labels. Compiled by the table
strategy (int selector, `CodeSizeFactor` 100) it reports one "Multiple default labels"
error; compiled by the cascade strategy (`CodeSizeFactor` 200, or a char selector) it
reports nothing, and the second default label is compiled like the first. -/
theorem C11_cascade_multiple_default :
    errorsOf (demoExt T_INT) 100 switchTwoDefault =
      some ["Multiple default labels in one switch"] ∧
    errorsOf (demoExt T_INT) 200 switchTwoDefault = some [] ∧
    errorsOf (demoExt T_UCHAR) 100 switchTwoDefault = some [] ∧
    codeOf (demoExt T_INT) 200 switchTwoDefault =
      some [.expr 99, .expr 10, .jump 2, .defcodelabel 2, .expr 20, .defcodelabel 1] := by
  refine ⟨by decide, by decide, by decide, by decide⟩

/-- C12: for a selector of type signed char, unsigned char, int or unsigned int, a case
label of the cascade switch always returns; it adds exactly one "Range error" if the
constant lies outside the range of the type and none otherwise, and in both cases
emits the compare with the constant itself; the loop over the labels goes on. -/
theorem C12_range_error (X : Ext) (Expr : ExprDesc) (Flags : Nat) (v : CascadeVars)
    (s : State) (lo hi : Int) (ht : specRange Expr.Type_ = some (lo, hi)) :
    ∃ v' s', CascadeSwitch.caseLabel X Expr Flags v s = .ok (v', s') ∧
      s'.errors.count "Range error" =
        (X.constexpr (NextToken s)).2.errors.count "Range error" +
          (if (X.constexpr (NextToken s)).1.ConstVal < lo ∨
              hi < (X.constexpr (NextToken s)).1.ConstVal then 1 else 0) ∧
      (∃ j, s'.code = (X.constexpr (NextToken s)).2.code ++
          [Instr.cmp Flags (X.constexpr (NextToken s)).1.ConstVal] ++ j) ∧
      (∀ fuel, s.CurTok.Tok = TOK_CASE →
        CascadeSwitch.labels X Expr Flags (fuel + 1) v s =
          CascadeSwitch.labels X Expr Flags fuel v' s') := by
  have hk : CascadeSwitch.caseLabel X Expr Flags v s = .ok
      ((CascadeSwitch.caseJump X { v with lcount := v.lcount + 1 }
          (g_cmp Flags (X.constexpr (NextToken s)).1.ConstVal
            (if (X.constexpr (NextToken s)).1.ConstVal < lo ∨
                hi < (X.constexpr (NextToken s)).1.ConstVal then
              Error "Range error"
                (if ¬ IsClassInt (X.constexpr (NextToken s)).1.Type_ then
                  Error "Switch quantity not an integer" (X.constexpr (NextToken s)).2
                 else (X.constexpr (NextToken s)).2)
             else
               (if ¬ IsClassInt (X.constexpr (NextToken s)).1.Type_ then
                  Error "Switch quantity not an integer" (X.constexpr (NextToken s)).2
                 else (X.constexpr (NextToken s)).2)))).1,
       ConsumeColon (CascadeSwitch.caseJump X { v with lcount := v.lcount + 1 }
          (g_cmp Flags (X.constexpr (NextToken s)).1.ConstVal
            (if (X.constexpr (NextToken s)).1.ConstVal < lo ∨
                hi < (X.constexpr (NextToken s)).1.ConstVal then
              Error "Range error"
                (if ¬ IsClassInt (X.constexpr (NextToken s)).1.Type_ then
                  Error "Switch quantity not an integer" (X.constexpr (NextToken s)).2
                 else (X.constexpr (NextToken s)).2)
             else
               (if ¬ IsClassInt (X.constexpr (NextToken s)).1.Type_ then
                  Error "Switch quantity not an integer" (X.constexpr (NextToken s)).2
                 else (X.constexpr (NextToken s)).2)))).2) := by
    simp only [CascadeSwitch.caseLabel, rangeCheck_spec _ lo hi ht, Outcome.bind]
  refine ⟨_, _, hk, ?_, ?_, ?_⟩
  · simp only [ConsumeColon]
    rw [Consume_errors_count _ _ _ _ (by decide), caseJump_errors]
    simp only [g_cmp, emit]
    split_ifs <;> simp [Error, List.count_append, List.count_singleton]
  · have he : ∀ (b : Prop) [Decidable b] (c : Prop) [Decidable c] (t : State),
        (if b then Error "Range error"
            (if c then Error "Switch quantity not an integer" t else t)
          else (if c then Error "Switch quantity not an integer" t else t)).code = t.code := by
      intro b _ c _ t
      split_ifs <;> rfl
    simp only [ConsumeColon, Consume_code]
    rw [caseJump_code]
    simp only [g_cmp, emit, he]
    exact ⟨_, rfl⟩
  · intro fuel hc
    simp only [CascadeSwitch.labels, hc, true_or, if_true, hk, Outcome.bind]

/-- C12 at `case 300:` for an unsigned char selector, and on a switch with two constants
out of range. -/
theorem C12_range_error_witness :
    (∃ v' s', CascadeSwitch.caseLabel (demoExt T_UCHAR) ⟨T_UCHAR, 0⟩ 99 ⟨0, 0, 1, 0, 0⟩
        caseRangeIn = .ok (v', s') ∧
      s'.errors.count "Range error" =
        ((demoExt T_UCHAR).constexpr (NextToken caseRangeIn)).2.errors.count "Range error" +
          (if ((demoExt T_UCHAR).constexpr (NextToken caseRangeIn)).1.ConstVal < 0 ∨
              255 < ((demoExt T_UCHAR).constexpr (NextToken caseRangeIn)).1.ConstVal
           then 1 else 0) ∧
      (∃ j, s'.code = ((demoExt T_UCHAR).constexpr (NextToken caseRangeIn)).2.code ++
          [Instr.cmp 99 ((demoExt T_UCHAR).constexpr (NextToken caseRangeIn)).1.ConstVal] ++ j) ∧
      (∀ fuel, caseRangeIn.CurTok.Tok = TOK_CASE →
        CascadeSwitch.labels (demoExt T_UCHAR) ⟨T_UCHAR, 0⟩ 99 (fuel + 1) ⟨0, 0, 1, 0, 0⟩
            caseRangeIn =
          CascadeSwitch.labels (demoExt T_UCHAR) ⟨T_UCHAR, 0⟩ 99 fuel v' s')) ∧
    ((demoExt T_UCHAR).constexpr (NextToken caseRangeIn)).1.ConstVal = 300 ∧
    errorsOf (demoExt T_UCHAR) 100 switchTwoRange = some ["Range error", "Range error"] ∧
    codeOf (demoExt T_UCHAR) 100 switchTwoRange =
      some [.expr 99, .cmp 99 300, .truejump 0 2, .expr 10, .jump 3, .defcodelabel 2,
        .cmp 99 (-1), .truejump 0 4, .defcodelabel 3, .expr 20, .jump 5, .defcodelabel 4,
        .cmp 99 7, .truejump 0 6, .defcodelabel 5, .expr 30, .defcodelabel 6,
        .defcodelabel 1] :=
  ⟨C12_range_error (demoExt T_UCHAR) ⟨T_UCHAR, 0⟩ 99 ⟨0, 0, 1, 0, 0⟩ caseRangeIn 0 255 rfl,
   by decide, by decide, by decide⟩

/-- C13: `ReturnStatement` reports "Returning a value ..." exactly when a value is
given in a function with void return type, and "... must return a value" exactly when
no value is given in a function with another return type; after the expression, if
any, it appends the stack correction `oursp - TopLevelSP` and the jump to the return
label of the function, and nothing else. When the expression parser and the type
adjustment report nothing themselves on this return, that one error is all that is
added. -/
theorem C13_return_statement (X : Ext) (s : State) :
    ((NextToken s).CurTok.Tok ≠ TOK_SEMI →
      ∃ t, (ReturnStatement X s =
          { t with code := t.code ++ [Instr.space (t.oursp - t.CurrentFunc.TopLevelSP),
                                      Instr.jump t.CurrentFunc.RetLab] }) ∧
        (t = (X.expression (if s.CurrentFunc.HasVoidReturn then
                Error "Returning a value in function with return type void" (NextToken s)
              else NextToken s)).2 ∨
         t = X.assignadjust
              (X.expression (if s.CurrentFunc.HasVoidReturn then
                Error "Returning a value in function with return type void" (NextToken s)
              else NextToken s)).2.CurrentFunc.ReturnType
              (X.expression (if s.CurrentFunc.HasVoidReturn then
                Error "Returning a value in function with return type void" (NextToken s)
              else NextToken s)).1
              (X.expression (if s.CurrentFunc.HasVoidReturn then
                Error "Returning a value in function with return type void" (NextToken s)
              else NextToken s)).2)) ∧
    ((NextToken s).CurTok.Tok = TOK_SEMI →
      ReturnStatement X s =
        { s with
          toks := s.toks.tail,
          errors := s.errors ++
            (if s.CurrentFunc.HasVoidReturn then []
             else ["Function `" ++ s.CurrentFunc.FuncName ++ "' must return a value"]),
          code := s.code ++ [Instr.space (s.oursp - s.CurrentFunc.TopLevelSP),
                             Instr.jump s.CurrentFunc.RetLab] }) ∧
    ((X.expression (if s.CurrentFunc.HasVoidReturn then
                Error "Returning a value in function with return type void" (NextToken s)
              else NextToken s)).2.errors =
          (if s.CurrentFunc.HasVoidReturn then
                Error "Returning a value in function with return type void" (NextToken s)
              else NextToken s).errors →
      (∀ ty e, (X.assignadjust ty e (X.expression (if s.CurrentFunc.HasVoidReturn then
                Error "Returning a value in function with return type void" (NextToken s)
              else NextToken s)).2).errors =
          (X.expression (if s.CurrentFunc.HasVoidReturn then
                Error "Returning a value in function with return type void" (NextToken s)
              else NextToken s)).2.errors) →
      (ReturnStatement X s).errors = s.errors ++
        (if (NextToken s).CurTok.Tok ≠ TOK_SEMI ∧ s.CurrentFunc.HasVoidReturn = true then
          ["Returning a value in function with return type void"]
         else if (NextToken s).CurTok.Tok = TOK_SEMI ∧ s.CurrentFunc.HasVoidReturn = false then
          ["Function `" ++ s.CurrentFunc.FuncName ++ "' must return a value"]
         else [])) := by
  have hfin : ∀ t : State, g_jump t.CurrentFunc.RetLab
        (g_space (t.oursp - t.CurrentFunc.TopLevelSP) t) =
      { t with code := t.code ++ [Instr.space (t.oursp - t.CurrentFunc.TopLevelSP),
                                  Instr.jump t.CurrentFunc.RetLab] } := by
    intro t; simp [g_space, g_jump, emit]
  have hfun : (NextToken s).CurrentFunc = s.CurrentFunc := rfl
  have hgs : ∀ (n : Int) (t : State), (g_space n t).CurrentFunc = t.CurrentFunc :=
    fun _ _ => rfl
  have hev : ∀ (n : Int) (t : State), (g_space n t).errors = t.errors := fun _ _ => rfl
  have hej : ∀ (l : Nat) (t : State), (g_jump l t).errors = t.errors := fun _ _ => rfl
  have part1 : (NextToken s).CurTok.Tok ≠ TOK_SEMI →
      ∃ t, (ReturnStatement X s =
          { t with code := t.code ++ [Instr.space (t.oursp - t.CurrentFunc.TopLevelSP),
                                      Instr.jump t.CurrentFunc.RetLab] }) ∧
        (t = (X.expression (if s.CurrentFunc.HasVoidReturn then
                Error "Returning a value in function with return type void" (NextToken s)
              else NextToken s)).2 ∨
         t = X.assignadjust
              (X.expression (if s.CurrentFunc.HasVoidReturn then
                Error "Returning a value in function with return type void" (NextToken s)
              else NextToken s)).2.CurrentFunc.ReturnType
              (X.expression (if s.CurrentFunc.HasVoidReturn then
                Error "Returning a value in function with return type void" (NextToken s)
              else NextToken s)).1
              (X.expression (if s.CurrentFunc.HasVoidReturn then
                Error "Returning a value in function with return type void" (NextToken s)
              else NextToken s)).2) := by
    intro hv
    by_cases ha : (X.expression (if s.CurrentFunc.HasVoidReturn then
                Error "Returning a value in function with return type void" (NextToken s)
              else NextToken s)).2.CurrentFunc.HasVoidReturn = true
    · refine ⟨_, ?_, Or.inl rfl⟩
      rw [← hfin]
      simp only [ReturnStatement, hv, hfun, ha, ne_eq, not_false_eq_true, if_true,
        not_true_eq_false, if_false, hgs]
    · refine ⟨_, ?_, Or.inr rfl⟩
      rw [← hfin]
      simp only [ReturnStatement, hv, hfun, ha, ne_eq, not_false_eq_true, if_true,
        not_true_eq_false, if_false, hgs, Bool.false_eq_true]
  have part2 : (NextToken s).CurTok.Tok = TOK_SEMI →
      ReturnStatement X s =
        { s with
          toks := s.toks.tail,
          errors := s.errors ++
            (if s.CurrentFunc.HasVoidReturn then []
             else ["Function `" ++ s.CurrentFunc.FuncName ++ "' must return a value"]),
          code := s.code ++ [Instr.space (s.oursp - s.CurrentFunc.TopLevelSP),
                             Instr.jump s.CurrentFunc.RetLab] } := by
    intro hv
    have hv' : ¬ (NextToken s).CurTok.Tok ≠ TOK_SEMI := by simp [hv]
    by_cases hf : s.CurrentFunc.HasVoidReturn = true
    · simp only [ReturnStatement, hv', hfun, hf, if_false, if_true, not_true_eq_false, hgs]
      simp [g_space, g_jump, emit, NextToken]
    · simp only [ReturnStatement, hv', hfun, hf, if_false, if_true, not_false_eq_true, hgs]
      simp [g_space, g_jump, emit, NextToken, Error, hf]
  refine ⟨part1, part2, ?_⟩
  intro hE hA
  by_cases hv : (NextToken s).CurTok.Tok = TOK_SEMI
  · rw [part2 hv]
    by_cases hf : s.CurrentFunc.HasVoidReturn = true
    · simp only [hf, if_true, hv, ne_eq, not_true_eq_false, false_and, if_false,
        Bool.true_eq_false, and_false]
    · have hf' : s.CurrentFunc.HasVoidReturn = false := by simpa using hf
      simp only [hf', Bool.false_eq_true, if_false, hv, ne_eq, not_true_eq_false, false_and,
        and_self, if_true]
  · obtain ⟨t, ht, hor⟩ := part1 hv
    rw [ht]
    have he : t.errors = (if s.CurrentFunc.HasVoidReturn then
                Error "Returning a value in function with return type void" (NextToken s)
              else NextToken s).errors := by
      rcases hor with h | h
      · rw [h, hE]
      · rw [h, hA, hE]
    show t.errors = _
    rw [he]
    by_cases hf : s.CurrentFunc.HasVoidReturn = true
    · simp only [hf, if_true, hv, ne_eq, not_false_eq_true, and_self]
      rfl
    · have hf' : s.CurrentFunc.HasVoidReturn = false := by simpa using hf
      simp only [hf', Bool.false_eq_true, if_false, hv, ne_eq, not_false_eq_true, and_false,
        false_and, List.append_nil]
      rfl

/-- C13 on `return 5;` in a void function and on `return;` in an int function. -/
theorem C13_return_statement_witness :
    (ReturnStatement (demoExt T_INT) returnValueIn).errors =
      ["Returning a value in function with return type void"] ∧
    (∃ t : State, ReturnStatement (demoExt T_INT) returnValueIn =
        { t with code := t.code ++ [Instr.space (t.oursp - t.CurrentFunc.TopLevelSP),
                                    Instr.jump t.CurrentFunc.RetLab] } ∧ t.code = [.expr 5]) ∧
    ReturnStatement (demoExt T_INT) returnNoneIn =
      { returnNoneIn with
        toks := [tk TOK_SEMI], errors := ["Function `g' must return a value"],
        code := [.space (-4), .jump 1000] } := by
  refine ⟨?_, ?_, ?_⟩
  · exact ((C13_return_statement (demoExt T_INT) returnValueIn).2.2 (by decide)
      (fun _ _ => rfl)).trans (by decide)
  · obtain ⟨t, h1, h2⟩ := (C13_return_statement (demoExt T_INT) returnValueIn).1 (by decide)
    refine ⟨t, h1, ?_⟩
    rcases h2 with h | h <;> subst h <;> decide
  · exact ((C13_return_statement (demoExt T_INT) returnNoneIn).2.1 (by decide)).trans
      (by decide)

/-- C14: the code emitted for `do { a; continue; } while (c);` is the definition of the
loop label, the body, the jump of the `continue` to that loop label, and only then the
condition with its jump to the loop label. When the condition is false the machine
runs the body again and again without ever evaluating the condition, where the code
of `while (c) { a; continue; }` evaluates the condition and leaves the loop. -/
theorem C14_do_continue_skips_condition :
    codeOf (demoExt T_INT) 100 doContinue =
      some [.defcodelabel 1, .expr 10, .space 0, .jump 1, .expr 7, .truejump 0 1,
            .defcodelabel 2] ∧
    run [.defcodelabel 1, .expr 10, .space 0, .jump 1, .expr 7, .truejump 0 1,
         .defcodelabel 2] 0 100 ⟨0, true, []⟩ = .fuel ∧
    (runSteps [.defcodelabel 1, .expr 10, .space 0, .jump 1, .expr 7, .truejump 0 1,
         .defcodelabel 2] 0 12 ⟨0, true, []⟩).trace = [10, 10, 10] ∧
    codeOf (demoExt T_INT) 100 whileContinue =
      some [.defcodelabel 1, .expr 7, .falsejump 0 2, .expr 10, .space 0, .jump 1, .jump 1,
            .defcodelabel 2] ∧
    run [.defcodelabel 1, .expr 7, .falsejump 0 2, .expr 10, .space 0, .jump 1, .jump 1,
         .defcodelabel 2] 0 100 ⟨0, true, []⟩ = .done [7] := by
  refine ⟨by decide, by decide, by decide, by decide, by decide⟩

/-- C15: `ForStatement` returns exactly when the loop body returns, and then in the state
`finish`. When the body returns, and the calls of the expression parsers and of the body
that this run makes only add to the end of the emitted code, then with `init`, `cond`,
`inc` and `body` the code that the initializer, the test, the increment expression and
the loop body added, the code before the body is compiled is: init, define test (first
label), cond with the jump on true to the body label (fourth label) and the jump to the
exit (second label), or the jump to the body if there is no test, then define incr
(third label), inc, jump to test. With an increment expression the code `ForStatement`
returns with is: init, define test, cond and its jumps, define body, body, define incr,
inc, jump to test, define exit. Without an increment expression it is: init, define
test, cond and its jumps, define incr, jump to test, define body, body, jump to incr,
define exit. -/
theorem C15_for_code_motion (X : Ext) (stmt : StmtFn) (s : State) :
    (∀ s', ForStatement X stmt s = .ok s' ↔
      ∃ r P s1, stmt (some 0) (ForStatement.bodyStart X s) = .ok (r, P, s1) ∧
        s' = ForStatement.finish X s P s1) ∧
    (((ForStatement.initStart s).CurTok.Tok ≠ TOK_SEMI →
        Appends (ForStatement.initStart s) (X.expression (ForStatement.initStart s)).2) →
     ((ForStatement.testStart X s).CurTok.Tok ≠ TOK_SEMI →
        Appends (ForStatement.testStart X s) (X.boolexpr (ForStatement.testStart X s)).2) →
     ((ForStatement.incrStart X s).CurTok.Tok ≠ TOK_RPAREN →
        Appends (ForStatement.incrStart X s) (X.expression (ForStatement.incrStart X s)).2) →
     ∀ r P s1, stmt (some 0) (ForStatement.bodyStart X s) = .ok (r, P, s1) →
      Appends (ForStatement.bodyStart X s) s1 →
      ∃ init cond inc body,
        ForStatement X stmt s = .ok (ForStatement.finish X s P s1) ∧
        (ForStatement.afterInit X s).code = s.code ++ init ∧
        ((ForStatement.afterInit X s).CurTok.Tok = TOK_SEMI → cond = []) ∧
        (ForStatement.afterTest X s).code = (ForStatement.afterInit X s).code ++
          Instr.defcodelabel (s.nextLabel + 1) :: cond ++
          (if (ForStatement.afterInit X s).CurTok.Tok ≠ TOK_SEMI then
            [Instr.truejump X.CF_NONE (s.nextLabel + 4), Instr.jump (s.nextLabel + 2)]
           else [Instr.jump (s.nextLabel + 4)]) ∧
        (ForStatement.afterIncr X s).code = (ForStatement.afterTest X s).code ++
          Instr.defcodelabel (s.nextLabel + 3) :: inc ++ [Instr.jump (s.nextLabel + 1)] ∧
        s1.code = (ForStatement.afterIncr X s).code ++
          Instr.defcodelabel (s.nextLabel + 4) :: body ∧
        ((ForStatement.afterTest X s).CurTok.Tok ≠ TOK_RPAREN →
          (ForStatement.finish X s P s1).code =
            s.code ++ init ++ Instr.defcodelabel (s.nextLabel + 1) :: cond ++
            (if (ForStatement.afterInit X s).CurTok.Tok ≠ TOK_SEMI then
              [Instr.truejump X.CF_NONE (s.nextLabel + 4), Instr.jump (s.nextLabel + 2)]
             else [Instr.jump (s.nextLabel + 4)]) ++
            Instr.defcodelabel (s.nextLabel + 4) :: body ++
            Instr.defcodelabel (s.nextLabel + 3) :: inc ++
            [Instr.jump (s.nextLabel + 1), Instr.defcodelabel (s.nextLabel + 2)]) ∧
        ((ForStatement.afterTest X s).CurTok.Tok = TOK_RPAREN →
          inc = [] ∧
          (ForStatement.finish X s P s1).code =
            s.code ++ init ++ Instr.defcodelabel (s.nextLabel + 1) :: cond ++
            (if (ForStatement.afterInit X s).CurTok.Tok ≠ TOK_SEMI then
              [Instr.truejump X.CF_NONE (s.nextLabel + 4), Instr.jump (s.nextLabel + 2)]
             else [Instr.jump (s.nextLabel + 4)]) ++
            [Instr.defcodelabel (s.nextLabel + 3), Instr.jump (s.nextLabel + 1)] ++
            Instr.defcodelabel (s.nextLabel + 4) :: body ++
            [Instr.jump (s.nextLabel + 3), Instr.defcodelabel (s.nextLabel + 2)])) := by
  refine ⟨fun s' => ?_, fun hI hT hN r P s1 h1 hB => ?_⟩
  · rw [ForStatement_eq_finish, bind_ok_iff]
    constructor
    · rintro ⟨⟨a, Pa, s1⟩, h1, h2⟩; exact ⟨a, Pa, s1, h1, h2⟩
    · rintro ⟨a, Pa, s1, h1, h2⟩; exact ⟨(a, Pa, s1), h1, h2⟩
  · obtain ⟨init, hi⟩ := ForStatement_init_code X s hI
    obtain ⟨cond, hc, hc0⟩ := ForStatement_test_code X s hT
    obtain ⟨inc, hn, hn0⟩ := ForStatement_incr_code X s hN
    obtain ⟨b0, hb0⟩ := hB
    have hb : s1.code = (ForStatement.afterIncr X s).code ++
        Instr.defcodelabel (s.nextLabel + 4) :: b0 := by
      rw [hb0]
      simp [ForStatement.bodyStart, g_defcodelabel, ConsumeRParen]
    have hf := ForStatement_finish_code X s P s1 init cond inc b0 hi hc hn hb
    refine ⟨init, cond, inc, b0, ?_, hi, hc0, hc, hn, hb, hf.1,
      fun hp => ⟨hn0 hp, hf.2 hp (hn0 hp)⟩⟩
    rw [ForStatement_eq_finish, h1]; rfl

/-- C15 on `for (i; c; n) b;`: the body returns, so `ForStatement` returns, and the code
of the increment `n` and the jump to the test stand after the code of `b`; with the code
of `for (i; c; ) b;` and of a nested loop. -/
theorem C15_for_code_motion_witness :
    (∃ init cond inc body,
      (ForStatement.afterInit (demoExt T_INT) (initState forIncToks 100)).code = init ∧
      (ForStatement.afterTest (demoExt T_INT) (initState forIncToks 100)).code =
        init ++ Instr.defcodelabel 1 :: cond ++ [Instr.truejump 0 4, Instr.jump 2] ∧
      (ForStatement.afterIncr (demoExt T_INT) (initState forIncToks 100)).code =
        (ForStatement.afterTest (demoExt T_INT) (initState forIncToks 100)).code ++
          Instr.defcodelabel 3 :: inc ++ [Instr.jump 1] ∧
      forIncOut.code = init ++ Instr.defcodelabel 1 :: cond ++
        [Instr.truejump 0 4, Instr.jump 2] ++ Instr.defcodelabel 4 :: body ++
        Instr.defcodelabel 3 :: inc ++ [Instr.jump 1, Instr.defcodelabel 2]) ∧
    ForStatement (demoExt T_INT) (Statement (demoExt T_INT) 3) (initState forIncToks 100) =
      .ok forIncOut ∧
    ForStatement (demoExt T_INT) (Statement (demoExt T_INT) 3) (initState forNoIncToks 100) =
      .ok forNoIncOut ∧
    codeOf (demoExt T_INT) 100 forNestedToks =
      some [.expr 1, .defcodelabel 1, .expr 2, .truejump 0 4, .jump 2, .defcodelabel 4,
        .expr 4, .defcodelabel 5, .expr 5, .truejump 0 8, .jump 6, .defcodelabel 8,
        .expr 10, .defcodelabel 7, .expr 6, .jump 5, .defcodelabel 6,
        .defcodelabel 3, .expr 3, .jump 1, .defcodelabel 2] := by
  have hA := demoExt_AppendsCode T_INT
  have T := C15_for_code_motion (demoExt T_INT) (Statement (demoExt T_INT) 3) (initState forIncToks 100)
  obtain ⟨r, P, s1, h1, h2⟩ := (T.1 forIncOut).mp (by decide)
  obtain ⟨init, cond, inc, body, hr, hi, -, h3, h4, -, h7, -⟩ :=
    T.2 (fun _ => hA.expression _) (fun _ => hA.boolexpr _) (fun _ => hA.expression _)
      r P s1 h1 (Statement_appends (demoExt T_INT) hA 3 _ _ _ _ _ h1)
  refine ⟨?_, by rw [hr, h2], by decide, by decide⟩
  have c1 : (ForStatement.afterInit (demoExt T_INT) (initState forIncToks 100)).CurTok.Tok ≠
      TOK_SEMI := by decide
  have c2 : (ForStatement.afterTest (demoExt T_INT) (initState forIncToks 100)).CurTok.Tok ≠
      TOK_RPAREN := by decide
  have h7 := h7 c2
  rw [← h2, if_pos c1] at h7
  rw [if_pos c1] at h3
  have e0 : (initState forIncToks 100).code = [] := rfl
  have en : (initState forIncToks 100).nextLabel = 0 := rfl
  have ec : (demoExt T_INT).CF_NONE = 0 := rfl
  rw [e0, List.nil_append] at hi h7
  rw [en, ec] at h3 h7
  rw [en] at h4
  rw [hi] at h3
  exact ⟨init, cond, inc, body, hi, h3, h4, h7⟩

/-- C16: for a selector of type signed char, unsigned char, int or unsigned int. In the
cascade switch every `case` label returns; its code is the code of its constant followed
by the compare and the branch that the token after the colon decides: a jump on
equality to the shared code label before another `case`, a jump on inequality to the
next-label before anything but `default`, no jump before `default`; the loop over the
labels goes on with the next label. The loop over a group of labels returns when the
fuel exceeds the number of labels of the group, which is at most the number of tokens
left if `constexpr` gives no token back; every jump on equality emitted by the group
goes to the one code label of the group and every jump on inequality to its next-label;
the code label is defined right after the group, where the body starts, and the
next-label is defined where the next group starts. -/
theorem C16_cascade_case_branch (X : Ext) (Expr : ExprDesc) (Flags : Nat) (lo hi : Int)
    (ht : specRange Expr.Type_ = some (lo, hi)) :
    (∀ (w : CascadeVars) (t : State),
      ∃ w' t', CascadeSwitch.caseLabel X Expr Flags w t = .ok (w', t') ∧
        t'.code = (X.constexpr (NextToken t)).2.code ++
          Instr.cmp Flags (X.constexpr (NextToken t)).1.ConstVal ::
          (if (X.constexpr (NextToken t)).2.NextTok.Tok = TOK_CASE then
            [Instr.falsejump X.CF_NONE w'.CodeLab]
           else if (X.constexpr (NextToken t)).2.NextTok.Tok ≠ TOK_DEFAULT then
            [Instr.truejump X.CF_NONE w'.NextLab]
           else []) ∧
        ((X.constexpr (NextToken t)).2.NextTok.Tok = TOK_CASE →
          w'.CodeLab ≠ 0 ∧ (w.CodeLab ≠ 0 → w'.CodeLab = w.CodeLab) ∧
          w'.NextLab = w.NextLab) ∧
        ((X.constexpr (NextToken t)).2.NextTok.Tok ≠ TOK_CASE →
          (X.constexpr (NextToken t)).2.NextTok.Tok ≠ TOK_DEFAULT →
          w'.NextLab ≠ 0 ∧ (w.NextLab ≠ 0 → w'.NextLab = w.NextLab) ∧
          w'.CodeLab = w.CodeLab) ∧
        ((X.constexpr (NextToken t)).2.NextTok.Tok = TOK_DEFAULT →
          w'.NextLab = w.NextLab ∧ w'.CodeLab = w.CodeLab) ∧
        (t.CurTok.Tok = TOK_CASE →
          t'.code = (X.constexpr (NextToken t)).2.code ++
            (CascadeSwitch.labelEvent X w t).code X Flags ∧
          ∀ fuel, CascadeSwitch.labels X Expr Flags (fuel + 1) w t =
            CascadeSwitch.labels X Expr Flags fuel w' t')) ∧
    (∀ (fuel : Nat) (v : CascadeVars) (s : State),
      (CascadeSwitch.labelsEvents X Expr Flags fuel v s).length < fuel →
      ∃ v' s', CascadeSwitch.labels X Expr Flags fuel v s = .ok (v', s') ∧
        s'.CurTok.Tok ≠ TOK_CASE ∧ s'.CurTok.Tok ≠ TOK_DEFAULT ∧
        (∀ val l, CascadeEvent.caseEq val l ∈ CascadeSwitch.labelsEvents X Expr Flags fuel v s →
          l = v'.CodeLab ∧ l ≠ 0) ∧
        (∀ val l, CascadeEvent.caseNe val l ∈ CascadeSwitch.labelsEvents X Expr Flags fuel v s →
          l = v'.NextLab ∧ l ≠ 0) ∧
        (v.CodeLab ≠ 0 → v'.CodeLab = v.CodeLab) ∧
        (v.NextLab ≠ 0 → v'.NextLab = v.NextLab) ∧
        (v'.CodeLab ≠ 0 →
          (CascadeSwitch.codeLabel v' s').2.code = s'.code ++ [Instr.defcodelabel v'.CodeLab]) ∧
        (CascadeSwitch.codeLabel v' s').1.NextLab = v'.NextLab ∧
        (CascadeSwitch.codeLabel v' s').2.toks = s'.toks) ∧
    ((∀ t, (X.constexpr t).2.toks.length ≤ t.toks.length) →
      ∀ (fuel : Nat) (v : CascadeVars) (s : State),
        (CascadeSwitch.labelsEvents X Expr Flags fuel v s).length ≤ s.toks.length) ∧
    (∀ (w : CascadeVars) (t : State), w.NextLab ≠ 0 →
      (CascadeSwitch.groupStart w t).2.code = t.code ++
        (if w.HaveBreak = 0 then [Instr.jump (CascadeSwitch.needLabel w.CodeLab t).1]
         else []) ++ [Instr.defcodelabel w.NextLab]) := by
  refine ⟨fun w t => ?_, fun fuel v s hf => ?_,
    fun hT fuel v s => Cascade_labels_events_length X hT Expr Flags fuel v s, ?_⟩
  · obtain ⟨w', t', h⟩ := caseLabel_returns X Expr Flags lo hi ht w t
    obtain ⟨b1, b2, b3, b4, -⟩ := caseLabel_branch X Expr Flags w t w' t' h
    refine ⟨w', t', h, b1, ?_, ?_, b4, ?_⟩
    · intro c
      obtain ⟨k1, k2⟩ := b2 c
      exact ⟨k1 ▸ needLabel_ne_zero _ _, fun hz => by rw [k1, needLabel_keep _ _ hz], k2⟩
    · intro c1 c2
      obtain ⟨k1, k2⟩ := b3 c1 c2
      exact ⟨k1 ▸ needLabel_ne_zero _ _, fun hz => by rw [k1, needLabel_keep _ _ hz], k2⟩
    · intro hc
      exact ⟨(caseLabel_event X Expr Flags w t w' t' hc h).1,
        fun fuel => Cascade_labels_case_step X Expr Flags fuel w t w' t' hc h⟩
  · obtain ⟨v', s', h⟩ := Cascade_labels_returns X Expr Flags lo hi ht fuel v s hf
    obtain ⟨i1, i2, -, i4, i5, -⟩ := Cascade_labels_events X Expr Flags fuel v s v' s' h
    obtain ⟨x1, x2⟩ := Cascade_labels_exit X Expr Flags fuel v s v' s' h
    obtain ⟨k1, k2⟩ := codeLabel_spec v' s'
    refine ⟨v', s', h, x1, x2, i4, i5, i1, i2, ?_, ?_, ?_⟩
    · intro hz
      rw [k1 hz]
      simp [g_defcodelabel, emit]
    · by_cases hz : v'.CodeLab = 0
      · rw [k2 hz]
      · rw [k1 hz]
    · by_cases hz : v'.CodeLab = 0
      · rw [k2 hz]
      · rw [k1 hz]; rfl
  · intro w t hw
    rw [(groupStart_spec w t).1, if_pos hw]

/-- C16 on the group `case 98: case 99:` of the switch
`switch (c) { case 97: a; break; case 98: case 99: b; break; default: d; }`: the loop
over the two labels returns, the first label jumps on equality to the code label 1, the
second on inequality to the next-label 2; with the code of the whole switch and its runs
on the selectors 97 to 100. -/
theorem C16_cascade_case_branch_witness :
    (∃ v' s', CascadeSwitch.labels (demoExt T_SCHAR) ⟨T_SCHAR, 99⟩ 99 5 ⟨0, 0, 1, 0, 0⟩
        caseGroupIn = .ok (v', s') ∧
      v'.CodeLab = 1 ∧ v'.NextLab = 2 ∧
      (CascadeSwitch.codeLabel v' s').2.code = s'.code ++ [Instr.defcodelabel 1]) ∧
    CascadeSwitch.labelsEvents (demoExt T_SCHAR) ⟨T_SCHAR, 99⟩ 99 5 ⟨0, 0, 1, 0, 0⟩
        caseGroupIn = [.caseEq 98 1, .caseNe 99 2] ∧
    CascadeSwitch.labels (demoExt T_SCHAR) ⟨T_SCHAR, 99⟩ 99 5 ⟨0, 0, 1, 0, 0⟩ caseGroupIn =
      .ok (⟨2, 1, 1, 0, 2⟩, caseGroupOut) ∧
    caseGroupOut.code = caseGroupIn.code ++
      [.cmp 99 98, .falsejump 0 1, .cmp 99 99, .truejump 0 2] ∧
    codeOf (demoExt T_SCHAR) 100 switchCharScenario =
      some [.expr 99, .cmp 99 97, .truejump 0 2, .expr 10, .space 0, .jump 1,
        .defcodelabel 2, .cmp 99 98, .falsejump 0 3, .cmp 99 99, .truejump 0 4,
        .defcodelabel 3, .expr 20, .space 0, .jump 1,
        .defcodelabel 4, .expr 30, .defcodelabel 1] ∧
    [97, 98, 99, 100].map (behaviour (demoExt T_SCHAR) 100 switchCharScenario) =
      [.done [99, 10], .done [99, 20], .done [99, 20], .done [99, 30]] := by
  have he : CascadeSwitch.labelsEvents (demoExt T_SCHAR) ⟨T_SCHAR, 99⟩ 99 5 ⟨0, 0, 1, 0, 0⟩
      caseGroupIn = [.caseEq 98 1, .caseNe 99 2] := by decide
  obtain ⟨v', s', h, -, -, i4, i5, -, -, i8, -⟩ :=
    (C16_cascade_case_branch (demoExt T_SCHAR) ⟨T_SCHAR, 99⟩ 99 (-128) 127 rfl).2.1 5 ⟨0, 0, 1, 0, 0⟩
      caseGroupIn (by decide)
  rw [he] at i4 i5
  have c1 : v'.CodeLab = 1 := ((i4 98 1 (by simp)).1).symm
  have c2 : v'.NextLab = 2 := ((i5 99 2 (by simp)).1).symm
  have c3 := i8 (by rw [c1]; decide)
  rw [c1] at c3
  exact ⟨⟨v', s', h, c1, c2, c3⟩, he, by decide, by decide, by decide, by decide⟩

/-- C20: with `CodeSizeFactor` 200 a switch on a selector of type long is compiled by
the cascade strategy, whose range check stops in its "Invalid type" internal error at
the first case label (the table strategy compiles the same switch); the range check
returns for exactly the types signed char, unsigned char, int and unsigned int, while
the cascade strategy is selected for the other integer types too. -/
theorem C20_cascade_invalid_type :
    SwitchStatement.useCascade 200 T_LONG = true ∧
    Statement (demoExt T_LONG) 12 none (initState switchOneCase 200) =
      .internal "Invalid type" ∧
    codeOf (demoExt T_LONG) 100 switchOneCase =
      some [.expr 99, .jump 2, .defcodelabel 3, .jump 1, .defcodelabel 2, .switch 1,
            .defdata 33 (-2) 0, .case 1 3 1, .defcodelabel 1] ∧
    (∀ t : type_t, (∀ Val s, ∃ s', CascadeSwitch.rangeCheck t Val s = .ok s') ↔
        (t = T_SCHAR ∨ t = T_UCHAR ∨ t = T_INT ∨ t = T_UINT)) ∧
    [T_SHORT, T_USHORT, T_LONG, T_ULONG].map (SwitchStatement.useCascade 200) =
      [true, true, true, true] := by
  refine ⟨by decide, by decide, by decide, ?_, by decide⟩
  intro t
  constructor
  · intro h
    obtain ⟨s', hs⟩ := h 0 (initState [] 0)
    cases t <;> simp [CascadeSwitch.rangeCheck] at hs ⊢
  · rintro (h | h | h | h) Val s <;> subst h <;> exact ⟨_, rfl⟩

end CC65
